import Mathlib

/-!
# Ex_PhysicsEngine: the physics step

A shallow embedding of the rigid-body core (`Shape`, `Body`, `Intersections`,
`Broadphase`, `Contact`, `Scene`) and the properties proved about it.

Conventions of the embedding

* `float` is an arbitrary linearly ordered field `F`: arithmetic is exact, `x / 0 = 0`,
  and there is no NaN or infinity.  Every definition is computable and can be run at `ℚ`.
  The rounding, overflow, underflow and NaN of binary32 are outside the embedding: a theorem
  whose doc comment begins "Exact-arithmetic form of" is an equality or a bound of this
  idealised arithmetic and is not a statement about the rounded results of the C++ code.
* The C math library (`sqrtf`, `sinf`, `cosf`) is a record `Libm F` passed to the functions
  that call it; theorems state what they assume of it (`Libm.SqrtExact`, `Libm.TrigExact`).
* References (`Body&`, `Body*`) are state passing: a function that mutates a body returns
  the new body; a `Contact` names its two bodies by their index in `Scene::bodies`.
* `std::vector` and C arrays are `List`s; `int` indices are `Int`.
-/

namespace PhysicsEngine

/-! ## The C math library -/

/-- The three libm functions used by the engine. -/
structure Libm (F : Type) where
  sqrtf : F → F
  sinf : F → F
  cosf : F → F

/-! ## Math primitives (code/Math/Vector.h, Quat.h, Matrix.h, Bounds.h) -/

/-- Modelled from the spec: `Vec3` of code/Math/Vector.h, which is not among the sources;
a value type with pure algebra (spec section 3). -/
structure Vec3 (F : Type) where
  x : F
  y : F
  z : F
deriving DecidableEq, Repr

/-- Modelled from the spec: `Quat` of code/Math/Quat.h, which is not among the sources;
the constructor order is `Quat(x, y, z, w)` as in `Quat(0, 0, 0, 1)` of Scene.cpp. -/
structure Quat (F : Type) where
  x : F
  y : F
  z : F
  w : F
deriving DecidableEq, Repr

/-- Modelled from the spec: `Mat3` of code/Math/Matrix.h, which is not among the sources;
three rows, as in `tensor.rows[0][0]` of Shape.cpp. -/
structure Mat3 (F : Type) where
  rows0 : Vec3 F
  rows1 : Vec3 F
  rows2 : Vec3 F
deriving DecidableEq, Repr

/-- Modelled from the spec: `Bounds` of code/Math/Bounds.h, which is not among the sources;
a pair (mins, maxs) of `Vec3` (spec section 3). -/
structure Bounds (F : Type) where
  mins : Vec3 F
  maxs : Vec3 F
deriving DecidableEq, Repr

section Algebra

variable {F : Type} [LinearOrderedField F]

namespace Vec3

/-- Modelled from the spec: `Vec3::operator+`. -/
def add (a b : Vec3 F) : Vec3 F := ⟨a.x + b.x, a.y + b.y, a.z + b.z⟩

/-- Modelled from the spec: `Vec3::operator-`. -/
def sub (a b : Vec3 F) : Vec3 F := ⟨a.x - b.x, a.y - b.y, a.z - b.z⟩

/-- Modelled from the spec: `Vec3::operator*(float)`. -/
def scale (a : Vec3 F) (s : F) : Vec3 F := ⟨a.x * s, a.y * s, a.z * s⟩

instance : Add (Vec3 F) := ⟨add⟩
instance : Sub (Vec3 F) := ⟨sub⟩
instance : HMul (Vec3 F) F (Vec3 F) := ⟨scale⟩

/-- Modelled from the spec: `Vec3::Zero`, the zero vector. -/
def zero : Vec3 F := ⟨0, 0, 0⟩

/-- Modelled from the spec: `Vec3(float)`, the same value in the three components,
as in `Vec3(-radius)` of Shape.cpp. -/
def splat (s : F) : Vec3 F := ⟨s, s, s⟩

/-- Modelled from the spec: `Vec3::Dot`. -/
def Dot (a b : Vec3 F) : F := a.x * b.x + a.y * b.y + a.z * b.z

/-- Modelled from the spec: `Vec3::Cross`. -/
def Cross (a b : Vec3 F) : Vec3 F :=
  ⟨a.y * b.z - a.z * b.y, a.z * b.x - a.x * b.z, a.x * b.y - a.y * b.x⟩

/-- Modelled from the spec: `Vec3::GetLengthSqr`, the squared Euclidean length. -/
def GetLengthSqr (a : Vec3 F) : F := a.Dot a

/-- Modelled from the spec: `Vec3::GetMagnitude`, the Euclidean length. -/
def GetMagnitude (m : Libm F) (a : Vec3 F) : F := m.sqrtf a.GetLengthSqr

/-- Modelled from the spec: `Vec3::Normalize` (`normalized()` in the spec), the vector
scaled by the inverse of its length.  The zero vector stays the zero vector. -/
def Normalize (m : Libm F) (a : Vec3 F) : Vec3 F :=
  let invMag := 1 / a.GetMagnitude m
  a * invMag

end Vec3

namespace Quat

/-- Modelled from the spec: `Quat::operator*`, the Hamilton product. -/
def mul (p q : Quat F) : Quat F :=
  { x := p.x * q.w + p.w * q.x + p.y * q.z - p.z * q.y
    y := p.y * q.w + p.w * q.y + p.z * q.x - p.x * q.z
    z := p.z * q.w + p.w * q.z + p.x * q.y - p.y * q.x
    w := p.w * q.w - p.x * q.x - p.y * q.y - p.z * q.z }

instance : Mul (Quat F) := ⟨mul⟩

/-- Modelled from the spec: `Quat::MagnitudeSquared`. -/
def MagnitudeSquared (q : Quat F) : F := q.x * q.x + q.y * q.y + q.z * q.z + q.w * q.w

/-- Modelled from the spec: `Quat::GetMagnitude`. -/
def GetMagnitude (m : Libm F) (q : Quat F) : F := m.sqrtf q.MagnitudeSquared

/-- Modelled from the spec: `Quat::Normalize` (`normalized()` in the spec), the quaternion
scaled by the inverse of its magnitude. -/
def Normalize (m : Libm F) (q : Quat F) : Quat F :=
  let invMag := 1 / q.GetMagnitude m
  ⟨q.x * invMag, q.y * invMag, q.z * invMag, q.w * invMag⟩

/-- Modelled from the spec: `Quat::Inverse` (`orientation⁻¹` in the spec), the conjugate
divided by the squared magnitude. -/
def Inverse (q : Quat F) : Quat F :=
  let s := 1 / q.MagnitudeSquared
  ⟨-(q.x * s), -(q.y * s), -(q.z * s), q.w * s⟩

/-- Modelled from the spec: `Quat::RotatePoint` (`orientation · p` in the spec),
the vector part of `q * (p, 0) * q⁻¹`. -/
def RotatePoint (q : Quat F) (p : Vec3 F) : Vec3 F :=
  let vector : Quat F := ⟨p.x, p.y, p.z, 0⟩
  let final := q * vector * q.Inverse
  ⟨final.x, final.y, final.z⟩

/-- Modelled from the spec: `Quat(Vec3 n, float angleRadians)`, the rotation of
`angleRadians` about the axis `n` (spec section 4.2, step 4):
`(n̂ sin(angle/2), cos(angle/2))` with `n̂` the normalized axis. -/
def ofAxisAngle (m : Libm F) (n : Vec3 F) (angleRadians : F) : Quat F :=
  let halfAngleRadians := (1 / 2) * angleRadians
  let w := m.cosf halfAngleRadians
  let halfSine := m.sinf halfAngleRadians
  let n := n.Normalize m
  ⟨n.x * halfSine, n.y * halfSine, n.z * halfSine, w⟩

end Quat

namespace Mat3

/-- Modelled from the spec: `Mat3::Zero`. -/
def Zero : Mat3 F := ⟨Vec3.zero, Vec3.zero, Vec3.zero⟩

/-- Modelled from the spec: `Mat3::Transpose`. -/
def Transpose (a : Mat3 F) : Mat3 F :=
  ⟨⟨a.rows0.x, a.rows1.x, a.rows2.x⟩,
   ⟨a.rows0.y, a.rows1.y, a.rows2.y⟩,
   ⟨a.rows0.z, a.rows1.z, a.rows2.z⟩⟩

/-- Modelled from the spec: `Mat3::operator*(Vec3)`, matrix times column vector. -/
def mulVec (a : Mat3 F) (v : Vec3 F) : Vec3 F :=
  ⟨a.rows0.Dot v, a.rows1.Dot v, a.rows2.Dot v⟩

/-- Modelled from the spec: `Mat3::operator*(Mat3)`, the matrix product. -/
def mul (a b : Mat3 F) : Mat3 F :=
  let bt := b.Transpose
  ⟨⟨a.rows0.Dot bt.rows0, a.rows0.Dot bt.rows1, a.rows0.Dot bt.rows2⟩,
   ⟨a.rows1.Dot bt.rows0, a.rows1.Dot bt.rows1, a.rows1.Dot bt.rows2⟩,
   ⟨a.rows2.Dot bt.rows0, a.rows2.Dot bt.rows1, a.rows2.Dot bt.rows2⟩⟩

/-- Modelled from the spec: `Mat3::operator*(float)`. -/
def scale (a : Mat3 F) (s : F) : Mat3 F := ⟨a.rows0 * s, a.rows1 * s, a.rows2 * s⟩

instance : Mul (Mat3 F) := ⟨mul⟩
instance : HMul (Mat3 F) F (Mat3 F) := ⟨scale⟩
instance : HMul (Mat3 F) (Vec3 F) (Vec3 F) := ⟨mulVec⟩

/-- Modelled from the spec: `Mat3::Determinant`. -/
def Determinant (a : Mat3 F) : F := a.rows0.Dot (a.rows1.Cross a.rows2)

/-- Modelled from the spec: `Mat3::Inverse` (`inertia_tensor()⁻¹` in the spec), the
transposed cofactor matrix divided by the determinant. -/
def Inverse (a : Mat3 F) : Mat3 F :=
  let invDet := 1 / a.Determinant
  let c0 := a.rows1.Cross a.rows2
  let c1 := a.rows2.Cross a.rows0
  let c2 := a.rows0.Cross a.rows1
  (Transpose ⟨c0, c1, c2⟩) * invDet

end Mat3

/-- Modelled from the spec: `Quat::ToMat3` (`orientation.to_mat3()` in the spec), the
rotation matrix of the quaternion: its columns are the rotated basis vectors. -/
def Quat.ToMat3 (q : Quat F) : Mat3 F :=
  Mat3.Transpose
    ⟨q.RotatePoint ⟨1, 0, 0⟩, q.RotatePoint ⟨0, 1, 0⟩, q.RotatePoint ⟨0, 0, 1⟩⟩

/-- Modelled from the spec: `Bounds::Expand(point)`, which grows the box to include
a point (spec section 3). -/
def Bounds.Expand (b : Bounds F) (p : Vec3 F) : Bounds F :=
  { mins := ⟨if p.x < b.mins.x then p.x else b.mins.x,
             if p.y < b.mins.y then p.y else b.mins.y,
             if p.z < b.mins.z then p.z else b.mins.z⟩
    maxs := ⟨if p.x > b.maxs.x then p.x else b.maxs.x,
             if p.y > b.maxs.y then p.y else b.maxs.y,
             if p.z > b.maxs.z then p.z else b.maxs.z⟩ }

end Algebra

/-! ## Shape (Shape.h, Shape.cpp) -/

/-- The `Shape::ShapeType` enumeration: the sphere is its only value. -/
inductive ShapeType where
  | SHAPE_SPHERE
deriving DecidableEq, Repr

/-- The class `ShapeSphere`, the only implementation of `Shape`.  Its constructor zeroes the
protected field `centerOfMass`, which nothing else writes, so the field is not stored. -/
structure ShapeSphere (F : Type) where
  radius : F
deriving DecidableEq, Repr

section Shape

variable {F : Type} [LinearOrderedField F]

namespace ShapeSphere

/-- The method `ShapeSphere::GetType`. -/
def GetType (_ : ShapeSphere F) : ShapeType := ShapeType.SHAPE_SPHERE

/-- The method `Shape::GetCenterOfMass`: the field zeroed by the constructor. -/
def GetCenterOfMass (_ : ShapeSphere F) : Vec3 F := Vec3.zero

/-- The method `ShapeSphere::InertiaTensor`. -/
def InertiaTensor (s : ShapeSphere F) : Mat3 F :=
  let tensor : Mat3 F := Mat3.Zero
  { rows0 := { tensor.rows0 with x := 2 * s.radius * s.radius / 5 }
    rows1 := { tensor.rows1 with y := 2 * s.radius * s.radius / 5 }
    rows2 := { tensor.rows2 with z := 2 * s.radius * s.radius / 5 } }

/-- The method `ShapeSphere::GetBounds(pos, orient)`. -/
def GetBounds (s : ShapeSphere F) (pos : Vec3 F) (_ : Quat F) : Bounds F :=
  { mins := Vec3.splat (-s.radius) + pos
    maxs := Vec3.splat s.radius + pos }

/-- The method `ShapeSphere::GetBounds()`. -/
def GetLocalBounds (s : ShapeSphere F) : Bounds F :=
  { mins := Vec3.splat (-s.radius)
    maxs := Vec3.splat s.radius }

end ShapeSphere

end Shape

/-! ## Body (Body.h, Body.cpp) -/

/-- The class `Body`. -/
structure Body (F : Type) where
  position : Vec3 F
  orientation : Quat F
  linearVelocity : Vec3 F
  angularVelocity : Vec3 F
  inverseMass : F
  elasticity : F
  friction : F
  shape : ShapeSphere F
deriving DecidableEq, Repr

section Body

variable {F : Type} [LinearOrderedField F]

namespace Body

/-- The method `Body::GetCenterOfMassWorldSpace`. -/
def GetCenterOfMassWorldSpace (b : Body F) : Vec3 F :=
  let centerOfMass := b.shape.GetCenterOfMass
  let pos := b.position + b.orientation.RotatePoint centerOfMass
  pos

/-- The method `Body::GetCenterOfMassBodySpace`. -/
def GetCenterOfMassBodySpace (b : Body F) : Vec3 F := b.shape.GetCenterOfMass

/-- The method `Body::GetInverseInertiaTensorBodySpace`. -/
def GetInverseInertiaTensorBodySpace (b : Body F) : Mat3 F :=
  let inertiaTensor := b.shape.InertiaTensor
  let inverseInertiaTensor := inertiaTensor.Inverse * b.inverseMass
  inverseInertiaTensor

/-- The method `Body::GetInverseInertiaTensorWorldSpace`. -/
def GetInverseInertiaTensorWorldSpace (b : Body F) : Mat3 F :=
  let inertiaTensor := b.shape.InertiaTensor
  let inverseInertiaTensor := inertiaTensor.Inverse * b.inverseMass
  let orient := b.orientation.ToMat3
  orient * inverseInertiaTensor * orient.Transpose

/-- The method `Body::WorldSpaceToBodySpace`. -/
def WorldSpaceToBodySpace (b : Body F) (worldPoint : Vec3 F) : Vec3 F :=
  let tmp := worldPoint - b.GetCenterOfMassWorldSpace
  let invertOrient := b.orientation.Inverse
  let bodySpace := invertOrient.RotatePoint tmp
  bodySpace

/-- The method `Body::BodySpaceToWorldSpace`. -/
def BodySpaceToWorldSpace (b : Body F) (bodyPoint : Vec3 F) : Vec3 F :=
  let worldSpace := b.GetCenterOfMassWorldSpace + b.orientation.RotatePoint bodyPoint
  worldSpace

/-- The method `Body::ApplyImpulseLinear`. -/
def ApplyImpulseLinear (b : Body F) (impulse : Vec3 F) : Body F :=
  if b.inverseMass = 0 then b
  else { b with linearVelocity := b.linearVelocity + impulse * b.inverseMass }

/-- The method `Body::ApplyImpulseAngular`. -/
def ApplyImpulseAngular (m : Libm F) (b : Body F) (impulse : Vec3 F) : Body F :=
  if b.inverseMass = 0 then b
  else
    let angularVelocity := b.angularVelocity + b.GetInverseInertiaTensorWorldSpace * impulse
    let maxAngularSpeed : F := 30
    if angularVelocity.GetLengthSqr > maxAngularSpeed * maxAngularSpeed then
      { b with angularVelocity := angularVelocity.Normalize m * maxAngularSpeed }
    else
      { b with angularVelocity := angularVelocity }

/-- The method `Body::ApplyImpulse`. -/
def ApplyImpulse (m : Libm F) (b : Body F) (impulsePoint impulse : Vec3 F) : Body F :=
  if b.inverseMass = 0 then b
  else
    let b1 := b.ApplyImpulseLinear impulse
    let position := b1.GetCenterOfMassWorldSpace
    let r := impulsePoint - position
    let dL := r.Cross impulse
    b1.ApplyImpulseAngular m dL

/-- The method `Body::Update`. -/
def Update (m : Libm F) (b : Body F) (dt_sec : F) : Body F :=
  let b1 : Body F := { b with position := b.position + b.linearVelocity * dt_sec }
  let positionCM := b1.GetCenterOfMassWorldSpace
  let CMToPositon := b1.position - positionCM
  let orientationMat := b1.orientation.ToMat3
  let inertiaTensor := orientationMat * b1.shape.InertiaTensor * orientationMat.Transpose
  let alpha := inertiaTensor.Inverse *
    (b1.angularVelocity.Cross (inertiaTensor * b1.angularVelocity))
  let angularVelocity := b1.angularVelocity + alpha * dt_sec
  let dAngle := angularVelocity * dt_sec
  let dq := Quat.ofAxisAngle m dAngle (dAngle.GetMagnitude m)
  let orientation := (dq * b1.orientation).Normalize m
  { b1 with
    position := positionCM + dq.RotatePoint CMToPositon
    orientation := orientation
    angularVelocity := angularVelocity }

end Body

end Body

/-! ## Contact (Contact.h) -/

/-- The class `Contact`.  The pointers `Body* a` and `Body* b` are the indices of the two
bodies in `Scene::bodies`. -/
structure Contact (F : Type) where
  ptOnAWorldSpace : Vec3 F
  ptOnALocalSpace : Vec3 F
  ptOnBWorldSpace : Vec3 F
  ptOnBLocalSpace : Vec3 F
  normal : Vec3 F
  separationDistance : F
  timeOfImpact : F
  a : Nat
  b : Nat
deriving DecidableEq, Repr

/-! ## Intersections (Intersections.h, Intersections.cpp) -/

section Intersections

variable {F : Type} [LinearOrderedField F]

/-- The function `Intersections::RaySphere`: `some (t0, t1)` when it returns true. -/
def RaySphere (m : Libm F) (rayStart rayDir sphereCenter : Vec3 F) (sphereRadius : F) :
    Option (F × F) :=
  let s := sphereCenter - rayStart
  let a := rayDir.Dot rayDir
  let b := s.Dot rayDir
  let c := s.Dot s - sphereRadius * sphereRadius
  let delta := b * b - a * c
  let inverseA := 1 / a
  if delta < 0 then none
  else
    let deltaRoot := m.sqrtf delta
    let t0 := (b - deltaRoot) * inverseA
    let t1 := (b + deltaRoot) * inverseA
    some (t0, t1)

/-- The function `Intersections::SphereSphereDynamic`: `some (ptOnA, ptOnB, timeOfImpact)`
when it returns true. -/
def SphereSphereDynamic (m : Libm F) (shapeA shapeB : ShapeSphere F)
    (posA posB velA velB : Vec3 F) (dt : F) : Option (Vec3 F × Vec3 F × F) :=
  let relativeVelocity := velA - velB
  let startPtA := posA
  let endPtA := startPtA + relativeVelocity * dt
  let rayDir := endPtA - startPtA
  let hit : Option (F × F) :=
    if rayDir.GetLengthSqr < 0.001 * 0.001 then
      let ab := posB - posA
      let radius := shapeA.radius + shapeB.radius + 0.001
      if ab.GetLengthSqr > radius * radius then none else some (0, 0)
    else RaySphere m startPtA rayDir posB (shapeA.radius + shapeB.radius)
  match hit with
  | none => none
  | some (t0, t1) =>
    let t0 := t0 * dt
    let t1 := t1 * dt
    if t1 < 0 then none
    else
      let timeOfImpact := if t0 < 0 then 0 else t0
      if timeOfImpact > dt then none
      else
        let newPosA := posA + velA * timeOfImpact
        let newPosB := posB + velB * timeOfImpact
        let ab := (newPosB - newPosA).Normalize m
        let ptOnA := newPosA + ab * shapeA.radius
        let ptOnB := newPosB - ab * shapeB.radius
        some (ptOnA, ptOnB, timeOfImpact)

/-- The function `Intersections::Intersect`.  The result is the contact when the function
returns true, and the two bodies as the call leaves them.  `refA` and `refB` are the
addresses `&a` and `&b`, stored in the contact.  The normal written before the shape test
(`b.position - a.position`, normalized) is overwritten on a hit and is otherwise dropped
with the rest of the contact, which the caller does not read when the result is false. -/
def Intersect (m : Libm F) (refA refB : Nat) (a b : Body F) (dt : F) :
    Option (Contact F) × Body F × Body F :=
  if a.shape.GetType = ShapeType.SHAPE_SPHERE ∧ b.shape.GetType = ShapeType.SHAPE_SPHERE then
    let sphereA := a.shape
    let sphereB := b.shape
    let posA := a.position
    let posB := b.position
    let valA := a.linearVelocity
    let velB := b.linearVelocity
    match SphereSphereDynamic m sphereA sphereB posA posB valA velB dt with
    | some (ptOnAWorldSpace, ptOnBWorldSpace, timeOfImpact) =>
      let a1 := a.Update m timeOfImpact
      let b1 := b.Update m timeOfImpact
      let ptOnALocalSpace := a1.WorldSpaceToBodySpace ptOnAWorldSpace
      let ptOnBLocalSpace := b1.WorldSpaceToBodySpace ptOnBWorldSpace
      let ab := a1.position - b1.position
      let normal := ab.Normalize m
      let a2 := a1.Update m (-timeOfImpact)
      let b2 := b1.Update m (-timeOfImpact)
      let r := ab.GetMagnitude m - (sphereA.radius + sphereB.radius)
      (some
        { ptOnAWorldSpace := ptOnAWorldSpace
          ptOnALocalSpace := ptOnALocalSpace
          ptOnBWorldSpace := ptOnBWorldSpace
          ptOnBLocalSpace := ptOnBLocalSpace
          normal := normal
          separationDistance := r
          timeOfImpact := timeOfImpact
          a := refA
          b := refB }, a2, b2)
    | none => (none, a, b)
  else (none, a, b)

end Intersections

/-! ## Broadphase (Broadphase.h, Broadphase.cpp) -/

/-- The struct `CollisionPair`. -/
structure CollisionPair where
  a : Int
  b : Int
deriving DecidableEq, Repr

/-- The operator `CollisionPair::operator==`. -/
def CollisionPair.eq (p rhs : CollisionPair) : Bool :=
  ((p.a == rhs.a) && (p.b == rhs.b)) || ((p.a == rhs.b) && (p.b == rhs.a))

/-- The operator `CollisionPair::operator!=`. -/
def CollisionPair.ne (p rhs : CollisionPair) : Bool := !(p.eq rhs)

/-- The struct `PseudoBody`. -/
structure PseudoBody (F : Type) where
  id : Int
  value : F
  ismin : Bool
deriving DecidableEq, Repr

/-- The libc function `qsort` with comparator `cmp`, as an insertion sort: an element goes
in front of the first element it does not compare greater than.  With a comparator that
orders the elements strictly the result is the one sorted arrangement; with one that
answers 0 throughout the array keeps its order. -/
def qsort {α : Type} (cmp : α → α → Int) (l : List α) : List α :=
  l.insertionSort (fun a b => cmp a b ≤ 0)

section Broadphase

variable {F : Type} [LinearOrderedField F]

/-- The comparator `CompareSAP`. -/
def CompareSAP (ea eb : PseudoBody F) : Int :=
  if ea.value < eb.value then -1 else 1

/-- The bounds that the loop body of `SortBodiesBounds` computes for one body. -/
def sweptBounds (body : Body F) (dt_sec : F) : Bounds F :=
  let bounds := body.shape.GetBounds body.position body.orientation
  let bounds := bounds.Expand (bounds.mins + body.linearVelocity * dt_sec)
  let bounds := bounds.Expand (bounds.maxs + body.linearVelocity * dt_sec)
  let epsilon : F := 0.01
  let bounds := bounds.Expand (bounds.mins + (Vec3.mk (-1) (-1) (-1) : Vec3 F) * epsilon)
  let bounds := bounds.Expand (bounds.maxs + (Vec3.mk 1 1 1 : Vec3 F) * epsilon)
  bounds

/-- The loop of `SortBodiesBounds` from index `i` on: entries `2 i` and `2 i + 1` of the
array for each body. -/
def fillBounds (m : Libm F) (dt_sec : F) : Nat → List (Body F) → List (PseudoBody F)
  | _, [] => []
  | i, body :: rest =>
    let axis := (Vec3.mk 1 1 1 : Vec3 F).Normalize m
    let bounds := sweptBounds body dt_sec
    { id := (i : Int), value := axis.Dot bounds.mins, ismin := true } ::
    { id := (i : Int), value := axis.Dot bounds.maxs, ismin := false } ::
    fillBounds m dt_sec (i + 1) rest

/-- The sweep axis of `SortBodiesBounds`, the normalized `Vec3(1, 1, 1)`. -/
def sweepAxis (m : Libm F) : Vec3 F := (Vec3.mk 1 1 1 : Vec3 F).Normalize m

/-- The lower end of the interval of a body on the sweep axis: the `value` of its `ismin`
entry in `SortBodiesBounds`. -/
def projectedMin (m : Libm F) (body : Body F) (dt_sec : F) : F :=
  (sweepAxis m).Dot (sweptBounds body dt_sec).mins

/-- The upper end of the interval of a body on the sweep axis: the `value` of its other
entry in `SortBodiesBounds`. -/
def projectedMax (m : Libm F) (body : Body F) (dt_sec : F) : F :=
  (sweepAxis m).Dot (sweptBounds body dt_sec).maxs

/-- The function `SortBodiesBounds`. -/
def SortBodiesBounds (m : Libm F) (bodies : List (Body F)) (dt_sec : F) :
    List (PseudoBody F) :=
  qsort CompareSAP (fillBounds m dt_sec 0 bodies)

/-- The inner loop of `BuildPairs`: the entries after the opener `a`, up to `a`'s end. -/
def scanPairs (a : PseudoBody F) : List (PseudoBody F) → List CollisionPair
  | [] => []
  | b :: rest =>
    if b.id = a.id then []
    else if !b.ismin then scanPairs a rest
    else { a := a.id, b := b.id } :: scanPairs a rest

/-- The function `BuildPairs`, on the sorted array. -/
def BuildPairs : List (PseudoBody F) → List CollisionPair
  | [] => []
  | a :: rest =>
    if !a.ismin then BuildPairs rest
    else scanPairs a rest ++ BuildPairs rest

/-- The function `SweepAndPrune1D`. -/
def SweepAndPrune1D (m : Libm F) (bodies : List (Body F)) (dt_sec : F) : List CollisionPair :=
  let sortedBodies := SortBodiesBounds m bodies dt_sec
  BuildPairs sortedBodies

/-- The function `BroadPhase`. -/
def BroadPhase (m : Libm F) (bodies : List (Body F)) (dt_sec : F) : List CollisionPair :=
  SweepAndPrune1D m bodies dt_sec

end Broadphase

/-! ## Contact (Contact.cpp) -/

section Contact

variable {F : Type} [LinearOrderedField F]

/-- The function `Contact::ResolveContact`, given the two bodies `contact.a` and
`contact.b` point to; the result is the two bodies as the call leaves them. -/
def ResolveContact (m : Libm F) (contact : Contact F) (a b : Body F) : Body F × Body F :=
  let invMassA := a.inverseMass
  let invMassB := b.inverseMass
  let elasticityA := a.elasticity
  let elasticityB := b.elasticity
  let elasticity := elasticityA * elasticityB
  let ptOnA := contact.ptOnAWorldSpace
  let ptOnB := contact.ptOnBWorldSpace
  let inverseWorldInertiaA := a.GetInverseInertiaTensorWorldSpace
  let inverseWorldInertiaB := b.GetInverseInertiaTensorWorldSpace
  let n := contact.normal
  let rA := ptOnA - a.GetCenterOfMassWorldSpace
  let rB := ptOnB - b.GetCenterOfMassWorldSpace
  let angularJA := (inverseWorldInertiaA * rA.Cross n).Cross rA
  let angularJB := (inverseWorldInertiaB * rB.Cross n).Cross rB
  let angularFactor := (angularJA + angularJB).Dot n
  let velA := a.linearVelocity + a.angularVelocity.Cross rA
  let velB := b.linearVelocity + b.angularVelocity.Cross rB
  let velAb := velA - velB
  let impulseValueJ := (1 + elasticity) * velAb.Dot n / (invMassA + invMassB + angularFactor)
  let impulse := n * impulseValueJ
  let a := a.ApplyImpulse m ptOnA (impulse * (-1 : F))
  let b := b.ApplyImpulse m ptOnB (impulse * (1 : F))
  let frictionA := a.friction
  let frictionB := b.friction
  let friction := frictionA * frictionB
  let velNormal := n * n.Dot velAb
  let velTengent := velAb - velNormal
  let relativVelTengent := velTengent.Normalize m
  let inertiaA := (inverseWorldInertiaA * rA.Cross relativVelTengent).Cross rA
  let inertiaB := (inverseWorldInertiaB * rB.Cross relativVelTengent).Cross rB
  let inverseInertia := (inertiaA + inertiaB).Dot relativVelTengent
  let reducedMass := 1 / (a.inverseMass + b.inverseMass + inverseInertia)
  let impulseFriction := velTengent * reducedMass * friction
  let a := a.ApplyImpulse m ptOnA (impulseFriction * (-1 : F))
  let b := b.ApplyImpulse m ptOnB (impulseFriction * (1 : F))
  if contact.timeOfImpact = 0 then
    let tA := invMassA / (invMassA + invMassB)
    let tB := invMassB / (invMassA + invMassB)
    let d := ptOnB - ptOnA
    ({ a with position := a.position + d * tA }, { b with position := b.position - d * tB })
  else (a, b)

/-- The local variable `impulse` of `Contact::ResolveContact`: the collision impulse
`n * impulseValueJ`. -/
def contactImpulse (contact : Contact F) (a b : Body F) : Vec3 F :=
  let invMassA := a.inverseMass
  let invMassB := b.inverseMass
  let elasticity := a.elasticity * b.elasticity
  let ptOnA := contact.ptOnAWorldSpace
  let ptOnB := contact.ptOnBWorldSpace
  let inverseWorldInertiaA := a.GetInverseInertiaTensorWorldSpace
  let inverseWorldInertiaB := b.GetInverseInertiaTensorWorldSpace
  let n := contact.normal
  let rA := ptOnA - a.GetCenterOfMassWorldSpace
  let rB := ptOnB - b.GetCenterOfMassWorldSpace
  let angularJA := (inverseWorldInertiaA * rA.Cross n).Cross rA
  let angularJB := (inverseWorldInertiaB * rB.Cross n).Cross rB
  let angularFactor := (angularJA + angularJB).Dot n
  let velA := a.linearVelocity + a.angularVelocity.Cross rA
  let velB := b.linearVelocity + b.angularVelocity.Cross rB
  let velAb := velA - velB
  let impulseValueJ := (1 + elasticity) * velAb.Dot n / (invMassA + invMassB + angularFactor)
  n * impulseValueJ

/-- The local variable `impulseFriction` of `Contact::ResolveContact`, computed from the
bodies as they are on entry (`a`, `b`) and after the collision impulse (`a1`, `b1`, read for
the friction coefficients and the inverse masses). -/
def contactImpulseFriction (m : Libm F) (contact : Contact F) (a b a1 b1 : Body F) : Vec3 F :=
  let ptOnA := contact.ptOnAWorldSpace
  let ptOnB := contact.ptOnBWorldSpace
  let inverseWorldInertiaA := a.GetInverseInertiaTensorWorldSpace
  let inverseWorldInertiaB := b.GetInverseInertiaTensorWorldSpace
  let n := contact.normal
  let rA := ptOnA - a.GetCenterOfMassWorldSpace
  let rB := ptOnB - b.GetCenterOfMassWorldSpace
  let velA := a.linearVelocity + a.angularVelocity.Cross rA
  let velB := b.linearVelocity + b.angularVelocity.Cross rB
  let velAb := velA - velB
  let frictionA := a1.friction
  let frictionB := b1.friction
  let friction := frictionA * frictionB
  let velNormal := n * n.Dot velAb
  let velTengent := velAb - velNormal
  let relativVelTengent := velTengent.Normalize m
  let inertiaA := (inverseWorldInertiaA * rA.Cross relativVelTengent).Cross rA
  let inertiaB := (inverseWorldInertiaB * rB.Cross relativVelTengent).Cross rB
  let inverseInertia := (inertiaA + inertiaB).Dot relativVelTengent
  let reducedMass := 1 / (a1.inverseMass + b1.inverseMass + inverseInertia)
  velTengent * reducedMass * friction

/-- The local variable `velAb` of `Contact::ResolveContact`: the velocity of the contact
point of A relative to that of B, on entry. -/
def contactVelAb (contact : Contact F) (a b : Body F) : Vec3 F :=
  let ptOnA := contact.ptOnAWorldSpace
  let ptOnB := contact.ptOnBWorldSpace
  let rA := ptOnA - a.GetCenterOfMassWorldSpace
  let rB := ptOnB - b.GetCenterOfMassWorldSpace
  let velA := a.linearVelocity + a.angularVelocity.Cross rA
  let velB := b.linearVelocity + b.angularVelocity.Cross rB
  velA - velB

/-- The local variable `angularFactor` of `Contact::ResolveContact`. -/
def contactAngularFactor (contact : Contact F) (a b : Body F) : F :=
  let ptOnA := contact.ptOnAWorldSpace
  let ptOnB := contact.ptOnBWorldSpace
  let inverseWorldInertiaA := a.GetInverseInertiaTensorWorldSpace
  let inverseWorldInertiaB := b.GetInverseInertiaTensorWorldSpace
  let n := contact.normal
  let rA := ptOnA - a.GetCenterOfMassWorldSpace
  let rB := ptOnB - b.GetCenterOfMassWorldSpace
  let angularJA := (inverseWorldInertiaA * rA.Cross n).Cross rA
  let angularJB := (inverseWorldInertiaB * rB.Cross n).Cross rB
  (angularJA + angularJB).Dot n

/-- The local variable `inverseInertia` of the friction stage of
`Contact::ResolveContact`. -/
def contactInverseInertia (m : Libm F) (contact : Contact F) (a b : Body F) : F :=
  let ptOnA := contact.ptOnAWorldSpace
  let ptOnB := contact.ptOnBWorldSpace
  let inverseWorldInertiaA := a.GetInverseInertiaTensorWorldSpace
  let inverseWorldInertiaB := b.GetInverseInertiaTensorWorldSpace
  let n := contact.normal
  let rA := ptOnA - a.GetCenterOfMassWorldSpace
  let rB := ptOnB - b.GetCenterOfMassWorldSpace
  let velA := a.linearVelocity + a.angularVelocity.Cross rA
  let velB := b.linearVelocity + b.angularVelocity.Cross rB
  let velAb := velA - velB
  let velNormal := n * n.Dot velAb
  let velTengent := velAb - velNormal
  let relativVelTengent := velTengent.Normalize m
  let inertiaA := (inverseWorldInertiaA * rA.Cross relativVelTengent).Cross rA
  let inertiaB := (inverseWorldInertiaB * rB.Cross relativVelTengent).Cross rB
  (inertiaA + inertiaB).Dot relativVelTengent

/-- The function `Contact::CompareContact`.  Both references are read through `p1`. -/
def CompareContact (p1 _p2 : Contact F) : Int :=
  let a := p1
  let b := p1
  if a.timeOfImpact < b.timeOfImpact then -1
  else if a.timeOfImpact = b.timeOfImpact then 0
  else 1

end Contact

/-! ## Scene (code/Scene.h, code/Scene.cpp) -/

/-- The class `Scene`. -/
structure Scene (F : Type) where
  bodies : List (Body F)
deriving Repr

section Scene

variable {F : Type} [LinearOrderedField F]

/-- Writes the two bodies a call took by reference back into the array.  The two indices
differ for the pairs that the broad phase emits. -/
def storePair (bodies : List (Body F)) (ia ib : Nat) (a b : Body F) : List (Body F) :=
  (bodies.set ia a).set ib b

/-- The gravity loop of `Scene::Update`. -/
def applyGravity (bodies : List (Body F)) (dt_sec : F) : List (Body F) :=
  bodies.map fun body =>
    let mass := 1 / body.inverseMass
    let impulseGravity := (Vec3.mk 0 0 (-10) : Vec3 F) * mass * dt_sec
    body.ApplyImpulseLinear impulseGravity

/-- One iteration of the narrow-phase loop of `Scene::Update`, on the bodies and the
contacts collected so far.  A pair whose indices are outside the array, which the broad
phase does not produce, is passed over. -/
def narrowPhaseStep (m : Libm F) (dt_sec : F) (st : List (Body F) × List (Contact F))
    (pair : CollisionPair) : List (Body F) × List (Contact F) :=
  match st.1[pair.a.toNat]?, st.1[pair.b.toNat]? with
  | some bodyA, some bodyB =>
    if bodyA.inverseMass = 0 ∧ bodyB.inverseMass = 0 then st
    else
      match Intersect m pair.a.toNat pair.b.toNat bodyA bodyB dt_sec with
      | (some contact, a, b) => (storePair st.1 pair.a.toNat pair.b.toNat a b, st.2 ++ [contact])
      | (none, a, b) => (storePair st.1 pair.a.toNat pair.b.toNat a b, st.2)
  | _, _ => st

/-- The narrow-phase loop of `Scene::Update`. -/
def narrowPhase (m : Libm F) (dt_sec : F) (bodies : List (Body F))
    (collisionPairs : List CollisionPair) : List (Body F) × List (Contact F) :=
  collisionPairs.foldl (narrowPhaseStep m dt_sec) (bodies, [])

/-- The sort of the contacts in `Scene::Update`. -/
def sortContacts (contacts : List (Contact F)) : List (Contact F) :=
  if contacts.length > 1 then qsort CompareContact contacts else contacts

/-- One iteration of the contact loop of `Scene::Update`, on the bodies and
`accumulatedTime`. -/
def resolveStep (m : Libm F) (st : List (Body F) × F) (contact : Contact F) :
    List (Body F) × F :=
  let dt := contact.timeOfImpact - st.2
  match st.1[contact.a]?, st.1[contact.b]? with
  | some bodyA, some bodyB =>
    if bodyA.inverseMass = 0 ∧ bodyB.inverseMass = 0 then st
    else
      let bodies := st.1.map fun body => body.Update m dt
      match bodies[contact.a]?, bodies[contact.b]? with
      | some a, some b =>
        let r := ResolveContact m contact a b
        (storePair bodies contact.a contact.b r.1 r.2, st.2 + dt)
      | _, _ => (bodies, st.2 + dt)
  | _, _ => st

/-- The duration that one iteration of the contact loop of `Scene::Update` passes to
`Body::Update` for every body: `dt = timeOfImpact - accumulatedTime` when the iteration
runs, nothing when it is passed over. -/
def resolveStepDuration (st : List (Body F) × F) (contact : Contact F) : Option F :=
  let dt := contact.timeOfImpact - st.2
  match st.1[contact.a]?, st.1[contact.b]? with
  | some bodyA, some bodyB =>
    if bodyA.inverseMass = 0 ∧ bodyB.inverseMass = 0 then none else some dt
  | _, _ => none

/-- The arguments of the call of `Contact::ResolveContact` in one iteration of the contact
loop of `Scene::Update`: the contact and the two bodies it points to, as they are when the
call is made; nothing when the iteration is passed over. -/
def resolveStepCall (m : Libm F) (st : List (Body F) × F) (contact : Contact F) :
    Option (Contact F × Body F × Body F) :=
  let dt := contact.timeOfImpact - st.2
  match st.1[contact.a]?, st.1[contact.b]? with
  | some bodyA, some bodyB =>
    if bodyA.inverseMass = 0 ∧ bodyB.inverseMass = 0 then none
    else
      let bodies := st.1.map fun body => body.Update m dt
      match bodies[contact.a]?, bodies[contact.b]? with
      | some a, some b => some (contact, a, b)
      | _, _ => none
  | _, _ => none

/-- The durations that the contact loop of `Scene::Update` passes to `Body::Update`, in
order; every body of the scene is updated with each of them. -/
def loopDurations (m : Libm F) : List (Contact F) → List (Body F) × F → List F
  | [], _ => []
  | contact :: rest, st =>
    (resolveStepDuration st contact).toList ++ loopDurations m rest (resolveStep m st contact)

/-- The calls of `Contact::ResolveContact` that the contact loop of `Scene::Update` makes,
in order. -/
def loopCalls (m : Libm F) :
    List (Contact F) → List (Body F) × F → List (Contact F × Body F × Body F)
  | [], _ => []
  | contact :: rest, st =>
    (resolveStepCall m st contact).toList ++ loopCalls m rest (resolveStep m st contact)

/-- The durations passed to `Body::Update` for each body by the last part of
`Scene::Update`, the contact loop over `contacts` and the update over the time that
remains. -/
def stepDurations (m : Libm F) (bodies : List (Body F)) (contacts : List (Contact F))
    (dt_sec : F) : List F :=
  let st := contacts.foldl (resolveStep m) (bodies, (0 : F))
  let accumulatedTime := st.2
  let timeRemaining := dt_sec - accumulatedTime
  loopDurations m contacts (bodies, (0 : F))
    ++ (if timeRemaining > 0 then [timeRemaining] else [])

/-- The function `Scene::Update`. -/
def Scene.Update (m : Libm F) (s : Scene F) (dt_sec : F) : Scene F :=
  let bodies := applyGravity s.bodies dt_sec
  let collisionPairs := BroadPhase m bodies dt_sec
  let np := narrowPhase m dt_sec bodies collisionPairs
  let contacts := sortContacts np.2
  let st := contacts.foldl (resolveStep m) (np.1, (0 : F))
  let accumulatedTime := st.2
  let timeRemaining := dt_sec - accumulatedTime
  if timeRemaining > 0 then
    { bodies := st.1.map fun body => body.Update m timeRemaining }
  else
    { bodies := st.1 }

/-- The bodies and the contacts of `Scene::Update` when its narrow phase is over. -/
def Scene.narrowed (m : Libm F) (s : Scene F) (dt_sec : F) :
    List (Body F) × List (Contact F) :=
  let bodies := applyGravity s.bodies dt_sec
  let collisionPairs := BroadPhase m bodies dt_sec
  narrowPhase m dt_sec bodies collisionPairs

/-- The durations that `Scene::Update` passes to `Body::Update` for each body from the
contact loop on: the substeps, then the time that remains. -/
def Scene.updateDurations (m : Libm F) (s : Scene F) (dt_sec : F) : List F :=
  let np := Scene.narrowed m s dt_sec
  stepDurations m np.1 (sortContacts np.2) dt_sec

/-- The calls of `Contact::ResolveContact` that `Scene::Update` makes, in order. -/
def Scene.resolveCalls (m : Libm F) (s : Scene F) (dt_sec : F) :
    List (Contact F × Body F × Body F) :=
  let np := Scene.narrowed m s dt_sec
  loopCalls m (sortContacts np.2) (np.1, (0 : F))

/-- The function `Scene::Initialize`: the two bodies pushed onto `bodies`.  The velocities,
which the function does not assign, are those of a default-constructed `Vec3`, zero. -/
def Scene.Initialize (s : Scene F) : Scene F :=
  let body : Body F :=
    { position := ⟨0, 0, 10⟩
      orientation := ⟨0, 0, 0, 1⟩
      linearVelocity := Vec3.zero
      angularVelocity := Vec3.zero
      inverseMass := 1
      elasticity := 0.5
      friction := 0.5
      shape := ⟨1⟩ }
  let earth : Body F :=
    { position := ⟨0, 0, -6000⟩
      orientation := ⟨0, 0, 0, 1⟩
      linearVelocity := Vec3.zero
      angularVelocity := Vec3.zero
      inverseMass := 0
      elasticity := 1
      friction := 0.5
      shape := ⟨6000⟩ }
  { bodies := s.bodies ++ [body, earth] }

/-- The function `Scene::Reset`. -/
def Scene.Reset (_ : Scene F) : Scene F :=
  Scene.Initialize { bodies := [] }

end Scene

/-! ## Predicates used by the statements -/

section Predicates

variable {F : Type} [LinearOrderedField F]

/-- A static body (infinite mass) at rest at the position `p`. -/
def Body.StaticAt (b : Body F) (p : Vec3 F) : Prop :=
  b.inverseMass = 0 ∧ b.linearVelocity = Vec3.zero ∧ b.angularVelocity = Vec3.zero ∧
    b.position = p

/-- The body at index `k` of the array is a static body at rest at `p`. -/
def StaticAtIndex (bodies : List (Body F)) (k : Nat) (p : Vec3 F) : Prop :=
  ∃ b : Body F, bodies[k]? = some b ∧ b.StaticAt p

end Predicates

/-! ## What the theorems assume of the math library -/

section LibmSpec

variable {F : Type} [LinearOrderedField F]

/-- The square root is exact: on a non-negative number `sqrtf` is the non-negative root. -/
def Libm.SqrtExact (m : Libm F) : Prop :=
  ∀ x : F, 0 ≤ x → 0 ≤ m.sqrtf x ∧ m.sqrtf x * m.sqrtf x = x

/-- Sine and cosine are exact as far as the engine needs: they lie on the unit circle and
`cosf 0 = 1`. -/
def Libm.TrigExact (m : Libm F) : Prop :=
  (∀ x : F, m.sinf x * m.sinf x + m.cosf x * m.cosf x = 1) ∧ m.cosf 0 = 1

end LibmSpec

/-! ## Vector algebra -/

theorem Vec3.ext_iff3 {F : Type} (a b : Vec3 F) :
    a = b ↔ a.x = b.x ∧ a.y = b.y ∧ a.z = b.z := by
  cases a; cases b; simp

section VecLemmas

variable {F : Type} [LinearOrderedField F]

@[simp] theorem Vec3.add_x (a b : Vec3 F) : (a + b).x = a.x + b.x := rfl
@[simp] theorem Vec3.add_y (a b : Vec3 F) : (a + b).y = a.y + b.y := rfl
@[simp] theorem Vec3.add_z (a b : Vec3 F) : (a + b).z = a.z + b.z := rfl
@[simp] theorem Vec3.sub_x (a b : Vec3 F) : (a - b).x = a.x - b.x := rfl
@[simp] theorem Vec3.sub_y (a b : Vec3 F) : (a - b).y = a.y - b.y := rfl
@[simp] theorem Vec3.sub_z (a b : Vec3 F) : (a - b).z = a.z - b.z := rfl
@[simp] theorem Vec3.scale_x (a : Vec3 F) (s : F) : (a * s).x = a.x * s := rfl
@[simp] theorem Vec3.scale_y (a : Vec3 F) (s : F) : (a * s).y = a.y * s := rfl
@[simp] theorem Vec3.scale_z (a : Vec3 F) (s : F) : (a * s).z = a.z * s := rfl

@[simp] theorem Vec3.mk_add_mk (a b c d e f : F) :
    (Vec3.mk a b c) + (Vec3.mk d e f) = Vec3.mk (a + d) (b + e) (c + f) := rfl
@[simp] theorem Vec3.mk_sub_mk (a b c d e f : F) :
    (Vec3.mk a b c) - (Vec3.mk d e f) = Vec3.mk (a - d) (b - e) (c - f) := rfl
@[simp] theorem Vec3.mk_scale (a b c s : F) :
    (Vec3.mk a b c) * s = Vec3.mk (a * s) (b * s) (c * s) := rfl

theorem Vec3.lengthSqr_nonneg (a : Vec3 F) : 0 ≤ a.GetLengthSqr := by
  unfold Vec3.GetLengthSqr Vec3.Dot
  nlinarith [mul_self_nonneg a.x, mul_self_nonneg a.y, mul_self_nonneg a.z]

theorem Vec3.lengthSqr_pos_of_ne (a : Vec3 F) (h : a ≠ Vec3.zero) : 0 < a.GetLengthSqr := by
  rcases lt_or_eq_of_le (Vec3.lengthSqr_nonneg a) with h1 | h1
  · exact h1
  · exfalso
    apply h
    unfold Vec3.GetLengthSqr Vec3.Dot at h1
    have hx : a.x = 0 := by nlinarith [mul_self_nonneg a.x, mul_self_nonneg a.y, mul_self_nonneg a.z]
    have hy : a.y = 0 := by nlinarith [mul_self_nonneg a.x, mul_self_nonneg a.y, mul_self_nonneg a.z]
    have hz : a.z = 0 := by nlinarith [mul_self_nonneg a.x, mul_self_nonneg a.y, mul_self_nonneg a.z]
    rw [Vec3.ext_iff3]
    exact ⟨hx, hy, hz⟩

/-- The quadratic behind `RaySphere`: with `a`, `b`, `c` and `delta` as the function computes
them, `a` times the signed squared distance at parameter `t` is `(a t - b)² - delta`. -/
theorem raySphere_quadratic (rayStart rayDir sphereCenter : Vec3 F) (r t : F) :
    rayDir.Dot rayDir * ((rayStart + rayDir * t - sphereCenter).GetLengthSqr - r * r)
      = (rayDir.Dot rayDir * t - (sphereCenter - rayStart).Dot rayDir)
          * (rayDir.Dot rayDir * t - (sphereCenter - rayStart).Dot rayDir)
        - ((sphereCenter - rayStart).Dot rayDir * (sphereCenter - rayStart).Dot rayDir
            - rayDir.Dot rayDir
              * ((sphereCenter - rayStart).Dot (sphereCenter - rayStart) - r * r)) := by
  simp only [Vec3.GetLengthSqr, Vec3.Dot, Vec3.add_x, Vec3.add_y, Vec3.add_z, Vec3.sub_x,
    Vec3.sub_y, Vec3.sub_z, Vec3.scale_x, Vec3.scale_y, Vec3.scale_z]
  ring

end VecLemmas

/-! ## Intersections::RaySphere -/

section RaySphereProofs

variable {F : Type} [LinearOrderedField F]

/-- What `RaySphere` returns, in terms of its discriminant. -/
theorem raySphere_eq (m : Libm F) (rayStart rayDir sphereCenter : Vec3 F) (r : F) :
    RaySphere m rayStart rayDir sphereCenter r =
      if (sphereCenter - rayStart).Dot rayDir * (sphereCenter - rayStart).Dot rayDir
          - rayDir.Dot rayDir
            * ((sphereCenter - rayStart).Dot (sphereCenter - rayStart) - r * r) < 0 then none
      else some
        (((sphereCenter - rayStart).Dot rayDir
            - m.sqrtf ((sphereCenter - rayStart).Dot rayDir * (sphereCenter - rayStart).Dot rayDir
              - rayDir.Dot rayDir
                * ((sphereCenter - rayStart).Dot (sphereCenter - rayStart) - r * r)))
            * (1 / rayDir.Dot rayDir),
         ((sphereCenter - rayStart).Dot rayDir
            + m.sqrtf ((sphereCenter - rayStart).Dot rayDir * (sphereCenter - rayStart).Dot rayDir
              - rayDir.Dot rayDir
                * ((sphereCenter - rayStart).Dot (sphereCenter - rayStart) - r * r)))
            * (1 / rayDir.Dot rayDir)) := rfl

/-- Inside the sphere along the line means between the two roots: for `a > 0`, `s ≥ 0` and
`s² = delta`, the quadratic `(a t - b)² - delta` is non-positive exactly on
`[(b - s)/a, (b + s)/a]`. -/
theorem quadratic_nonpos_iff (a b s t : F) (ha : 0 < a) (hs : 0 ≤ s) :
    (a * t - b) * (a * t - b) - s * s ≤ 0 ↔
      (b - s) * (1 / a) ≤ t ∧ t ≤ (b + s) * (1 / a) := by
  have h1 : (b - s) * (1 / a) ≤ t ↔ b - s ≤ a * t := by
    rw [mul_one_div, div_le_iff₀ ha, mul_comm]
  have h2 : t ≤ (b + s) * (1 / a) ↔ a * t ≤ b + s := by
    rw [mul_one_div, le_div_iff₀ ha, mul_comm]
  rw [h1, h2]
  constructor
  · intro h
    constructor <;> nlinarith
  · rintro ⟨h3, h4⟩
    nlinarith

/-- The real square root, sine and cosine are exact in the sense of `Libm.SqrtExact`. -/
theorem real_sqrtExact : (Libm.mk Real.sqrt Real.sin Real.cos).SqrtExact := by
  intro x hx
  exact ⟨Real.sqrt_nonneg x, Real.mul_self_sqrt hx⟩

/-- A non-negative real whose square is `x` is the square root of `x`. -/
theorem real_sqrt_eq (x y : ℝ) (hy : 0 ≤ y) (h : y * y = x) : Real.sqrt x = y := by
  rw [← h]
  exact Real.sqrt_mul_self hy

/-- Exact-arithmetic form of C3, for `float` read as an ordered field (binary32 rounding,
overflow and NaN are outside it): for a non-zero ray direction, `Intersections::RaySphere` returns true if and only if
the infinite line `rayStart + t * rayDir` meets the sphere (has a point on its surface,
equivalently a point within the radius); when it returns true, `t0 ≤ t1` and the points at
`t0` and `t1` lie on the sphere, their squared distance to the centre being `r²`. -/
theorem RaySphere_iff_line_meets_sphere (m : Libm F) (hm : m.SqrtExact)
    (rayStart rayDir sphereCenter : Vec3 F) (sphereRadius : F) (hdir : rayDir ≠ Vec3.zero) :
    ((RaySphere m rayStart rayDir sphereCenter sphereRadius).isSome = true ↔
        ∃ t : F, (rayStart + rayDir * t - sphereCenter).GetLengthSqr
          = sphereRadius * sphereRadius) ∧
    ((RaySphere m rayStart rayDir sphereCenter sphereRadius).isSome = true ↔
        ∃ t : F, (rayStart + rayDir * t - sphereCenter).GetLengthSqr
          ≤ sphereRadius * sphereRadius) ∧
    (∀ t0 t1 : F, RaySphere m rayStart rayDir sphereCenter sphereRadius = some (t0, t1) →
        t0 ≤ t1 ∧
        (rayStart + rayDir * t0 - sphereCenter).GetLengthSqr = sphereRadius * sphereRadius ∧
        (rayStart + rayDir * t1 - sphereCenter).GetLengthSqr
          = sphereRadius * sphereRadius) := by
  have ha : 0 < rayDir.Dot rayDir := Vec3.lengthSqr_pos_of_ne rayDir hdir
  have hq := raySphere_quadratic rayStart rayDir sphereCenter sphereRadius
  rw [raySphere_eq]
  generalize hδ : (sphereCenter - rayStart).Dot rayDir * (sphereCenter - rayStart).Dot rayDir
      - rayDir.Dot rayDir
        * ((sphereCenter - rayStart).Dot (sphereCenter - rayStart)
            - sphereRadius * sphereRadius) = delta at hq ⊢
  generalize (sphereCenter - rayStart).Dot rayDir = b at hq ⊢
  generalize rayDir.Dot rayDir = a at hq ha ⊢
  -- the two roots are on the sphere whenever the discriminant is non-negative
  have hroots : 0 ≤ delta →
      (rayStart + rayDir * ((b - m.sqrtf delta) * (1 / a)) - sphereCenter).GetLengthSqr
          = sphereRadius * sphereRadius ∧
      (rayStart + rayDir * ((b + m.sqrtf delta) * (1 / a)) - sphereCenter).GetLengthSqr
          = sphereRadius * sphereRadius := by
    intro hd
    obtain ⟨_, hss⟩ := hm delta hd
    have e0 : a * ((b - m.sqrtf delta) * (1 / a)) = b - m.sqrtf delta := by
      field_simp
    have e1 : a * ((b + m.sqrtf delta) * (1 / a)) = b + m.sqrtf delta := by
      field_simp
    have h0 := hq ((b - m.sqrtf delta) * (1 / a))
    have h1 := hq ((b + m.sqrtf delta) * (1 / a))
    rw [e0] at h0
    rw [e1] at h1
    constructor
    · have : a * ((rayStart + rayDir * ((b - m.sqrtf delta) * (1 / a))
          - sphereCenter).GetLengthSqr - sphereRadius * sphereRadius) = 0 := by
        rw [h0]; linear_combination hss
      rcases mul_eq_zero.mp this with h | h
      · exact absurd h (ne_of_gt ha)
      · exact sub_eq_zero.mp h
    · have : a * ((rayStart + rayDir * ((b + m.sqrtf delta) * (1 / a))
          - sphereCenter).GetLengthSqr - sphereRadius * sphereRadius) = 0 := by
        rw [h1]; linear_combination hss
      rcases mul_eq_zero.mp this with h | h
      · exact absurd h (ne_of_gt ha)
      · exact sub_eq_zero.mp h
  -- a point within the radius forces a non-negative discriminant
  have hdisc : ∀ t : F, (rayStart + rayDir * t - sphereCenter).GetLengthSqr
      ≤ sphereRadius * sphereRadius → 0 ≤ delta := by
    intro t ht
    have h := hq t
    have h2 : a * ((rayStart + rayDir * t - sphereCenter).GetLengthSqr
        - sphereRadius * sphereRadius) ≤ 0 :=
      mul_nonpos_of_nonneg_of_nonpos (le_of_lt ha) (sub_nonpos.mpr ht)
    nlinarith [mul_self_nonneg (a * t - b)]
  refine ⟨?_, ?_, ?_⟩
  · constructor
    · intro h
      by_cases hd : delta < 0
      · simp [hd] at h
      · exact ⟨_, (hroots (not_lt.mp hd)).1⟩
    · rintro ⟨t, ht⟩
      have hd := hdisc t (le_of_eq ht)
      simp [not_lt.mpr hd]
  · constructor
    · intro h
      by_cases hd : delta < 0
      · simp [hd] at h
      · exact ⟨_, le_of_eq (hroots (not_lt.mp hd)).1⟩
    · rintro ⟨t, ht⟩
      have hd := hdisc t ht
      simp [not_lt.mpr hd]
  · intro t0 t1 h
    by_cases hd : delta < 0
    · simp [hd] at h
    · have hd0 := not_lt.mp hd
      simp only [hd, if_false, Option.some.injEq, Prod.mk.injEq] at h
      obtain ⟨h0, h1⟩ := h
      obtain ⟨hs0, _⟩ := hm delta hd0
      subst h0 h1
      refine ⟨?_, (hroots hd0).1, (hroots hd0).2⟩
      apply mul_le_mul_of_nonneg_right _ (le_of_lt (one_div_pos.mpr ha))
      linarith

/-- Witness for C3 over the reals: the ray from the origin along the x axis and the unit
sphere centred at (3, 0, 0). -/
theorem RaySphere_iff_line_meets_sphere_witness :
    (Libm.mk Real.sqrt Real.sin Real.cos).SqrtExact ∧
    (Vec3.mk 1 0 0 : Vec3 ℝ) ≠ Vec3.zero ∧
    ((RaySphere (Libm.mk Real.sqrt Real.sin Real.cos) ⟨0, 0, 0⟩ ⟨1, 0, 0⟩ ⟨3, 0, 0⟩
        (1 : ℝ)).isSome = true ↔
      ∃ t : ℝ, ((Vec3.mk 0 0 0 : Vec3 ℝ) + (Vec3.mk 1 0 0 : Vec3 ℝ) * t
          - (Vec3.mk 3 0 0 : Vec3 ℝ)).GetLengthSqr = 1 * 1) :=
  ⟨real_sqrtExact, by simp [Vec3.ext_iff3, Vec3.zero],
    (RaySphere_iff_line_meets_sphere (Libm.mk Real.sqrt Real.sin Real.cos) real_sqrtExact
      ⟨0, 0, 0⟩ ⟨1, 0, 0⟩ ⟨3, 0, 0⟩ 1 (by simp [Vec3.ext_iff3, Vec3.zero])).1⟩

end RaySphereProofs

/-! ## Intersections::SphereSphereDynamic -/

section SweepProofs

variable {F : Type} [LinearOrderedField F]

/-- The ray of `SphereSphereDynamic` is the relative displacement over the step. -/
theorem rayDir_eq (posA rel : Vec3 F) (dt : F) : posA + rel * dt - posA = rel * dt := by
  rw [Vec3.ext_iff3]
  simp

/-- The result of `SphereSphereDynamic` in terms of the pair `(t0, t1)` found by its first
half: the short-ray test or `RaySphere`. -/
theorem sphereSphereDynamic_some (m : Libm F) (A B : ShapeSphere F)
    (posA posB velA velB : Vec3 F) (dt : F) (ptA ptB : Vec3 F) (toi : F)
    (h : SphereSphereDynamic m A B posA posB velA velB dt = some (ptA, ptB, toi)) :
    ∃ t0 t1 : F,
      (if ((velA - velB) * dt).GetLengthSqr < 0.001 * 0.001 then
          (if (posB - posA).GetLengthSqr > (A.radius + B.radius + 0.001)
              * (A.radius + B.radius + 0.001) then none else some ((0 : F), (0 : F)))
        else RaySphere m posA ((velA - velB) * dt) posB (A.radius + B.radius))
        = some (t0, t1) ∧
      ¬ t1 * dt < 0 ∧
      toi = (if t0 * dt < 0 then 0 else t0 * dt) ∧
      ¬ toi > dt ∧
      ptA = posA + velA * toi
        + ((posB + velB * toi) - (posA + velA * toi)).Normalize m * A.radius ∧
      ptB = posB + velB * toi
        - ((posB + velB * toi) - (posA + velA * toi)).Normalize m * B.radius := by
  unfold SphereSphereDynamic at h
  simp only [rayDir_eq] at h
  split at h
  · exact absurd h (by simp)
  · rename_i t0 t1 hhit
    refine ⟨t0, t1, hhit, ?_⟩
    by_cases h1 : t1 * dt < 0
    · simp [h1] at h
    · by_cases h2 : (if t0 * dt < 0 then 0 else t0 * dt) > dt
      · simp [h1, h2] at h
      · simp only [h1, h2, if_false, Option.some.injEq, Prod.mk.injEq] at h
        obtain ⟨hA, hB, ht⟩ := h
        subst ht
        exact ⟨h1, rfl, h2, hA.symm, hB.symm⟩

/-- When the first half of `SphereSphereDynamic` finds `(t0, t1)` and neither rejection
applies, the function reports a hit. -/
theorem sphereSphereDynamic_isSome (m : Libm F) (A B : ShapeSphere F)
    (posA posB velA velB : Vec3 F) (dt t0 t1 : F)
    (hhit : (if ((velA - velB) * dt).GetLengthSqr < 0.001 * 0.001 then
          (if (posB - posA).GetLengthSqr > (A.radius + B.radius + 0.001)
              * (A.radius + B.radius + 0.001) then none else some ((0 : F), (0 : F)))
        else RaySphere m posA ((velA - velB) * dt) posB (A.radius + B.radius))
        = some (t0, t1))
    (h1 : ¬ t1 * dt < 0) (h2 : ¬ (if t0 * dt < 0 then 0 else t0 * dt) > dt) :
    (SphereSphereDynamic m A B posA posB velA velB dt).isSome = true := by
  unfold SphereSphereDynamic
  simp only [rayDir_eq]
  rw [hhit]
  simp [h1, h2]

/-- The contact of `Intersect` carries the time of impact of `SphereSphereDynamic`. -/
theorem intersect_some (m : Libm F) (refA refB : Nat) (a b : Body F) (dt : F)
    (c : Contact F) (a2 b2 : Body F) (h : Intersect m refA refB a b dt = (some c, a2, b2)) :
    ∃ ptA ptB : Vec3 F,
      SphereSphereDynamic m a.shape b.shape a.position b.position a.linearVelocity
        b.linearVelocity dt = some (ptA, ptB, c.timeOfImpact) ∧
      c.ptOnAWorldSpace = ptA ∧ c.ptOnBWorldSpace = ptB ∧
      c.normal = ((a.Update m c.timeOfImpact).position
        - (b.Update m c.timeOfImpact).position).Normalize m ∧
      a2 = (a.Update m c.timeOfImpact).Update m (-c.timeOfImpact) ∧
      b2 = (b.Update m c.timeOfImpact).Update m (-c.timeOfImpact) := by
  unfold Intersect at h
  simp only [ShapeSphere.GetType, and_self, if_true] at h
  split at h
  · rename_i ptA ptB toi hs
    simp only [Prod.mk.injEq, Option.some.injEq] at h
    obtain ⟨hc, ha, hb⟩ := h
    subst hc
    exact ⟨ptA, ptB, hs, rfl, rfl, rfl, ha.symm, hb.symm⟩
  · simp at h

/-- Exact-arithmetic form of C2, for `float` read as an ordered field (binary32 rounding,
overflow and NaN are outside it): for `dt > 0`, whenever `Intersections::SphereSphereDynamic` reports a hit the
reported time of impact satisfies `0 ≤ timeOfImpact ≤ dt`, and on the short-ray fallback
(squared relative displacement below `1e-6`) it is exactly 0; the same bounds hold for the
time of impact of every contact returned by `Intersections::Intersect`. -/
theorem timeOfImpact_within_step (m : Libm F) (A B : ShapeSphere F)
    (posA posB velA velB ptA ptB : Vec3 F) (dt toi : F) (_hdt : 0 < dt)
    (h : SphereSphereDynamic m A B posA posB velA velB dt = some (ptA, ptB, toi)) :
    0 ≤ toi ∧ toi ≤ dt ∧
    (((velA - velB) * dt).GetLengthSqr < 0.001 * 0.001 → toi = 0) ∧
    (∀ (refA refB : Nat) (a b a2 b2 : Body F) (c : Contact F),
      Intersect m refA refB a b dt = (some c, a2, b2) →
        0 ≤ c.timeOfImpact ∧ c.timeOfImpact ≤ dt) := by
  have key : ∀ (A B : ShapeSphere F) (posA posB velA velB ptA ptB : Vec3 F) (toi : F),
      SphereSphereDynamic m A B posA posB velA velB dt = some (ptA, ptB, toi) →
        0 ≤ toi ∧ toi ≤ dt ∧
        (((velA - velB) * dt).GetLengthSqr < 0.001 * 0.001 → toi = 0) := by
    intro A B posA posB velA velB ptA ptB toi h
    obtain ⟨t0, t1, hhit, _, htoi, hle, _, _⟩ :=
      sphereSphereDynamic_some m A B posA posB velA velB dt ptA ptB toi h
    refine ⟨?_, not_lt.mp hle, ?_⟩
    · rw [htoi]
      split
      · exact le_refl 0
      · rename_i h0
        exact not_lt.mp h0
    · intro hshort
      rw [if_pos hshort] at hhit
      split at hhit
      · exact absurd hhit (by simp)
      · simp only [Option.some.injEq, Prod.mk.injEq] at hhit
        rw [htoi, ← hhit.1]
        simp
  obtain ⟨k1, k2, k3⟩ := key A B posA posB velA velB ptA ptB toi h
  refine ⟨k1, k2, k3, ?_⟩
  intro refA refB a b a2 b2 c h
  obtain ⟨ptA, ptB, hs, _⟩ := intersect_some m refA refB a b dt c a2 b2 h
  have := key _ _ _ _ _ _ _ _ _ hs
  exact ⟨this.1, this.2.1⟩

/-- Witness for C2 over the reals: two unit spheres at rest, one unit apart, overlap from
the start of a step of length 1, so the short-ray fallback reports a hit at time 0. -/
theorem timeOfImpact_within_step_witness :
    (0 : ℝ) < 1 ∧
    SphereSphereDynamic (Libm.mk Real.sqrt Real.sin Real.cos) ⟨1⟩ ⟨1⟩ ⟨0, 0, 0⟩ ⟨1, 0, 0⟩
      ⟨0, 0, 0⟩ ⟨0, 0, 0⟩ (1 : ℝ) = some (⟨1, 0, 0⟩, ⟨0, 0, 0⟩, 0) ∧
    (0 : ℝ) ≤ 0 ∧ (0 : ℝ) ≤ 1 :=
  have h : SphereSphereDynamic (Libm.mk Real.sqrt Real.sin Real.cos) ⟨1⟩ ⟨1⟩ ⟨0, 0, 0⟩
      ⟨1, 0, 0⟩ ⟨0, 0, 0⟩ ⟨0, 0, 0⟩ (1 : ℝ) = some (⟨1, 0, 0⟩, ⟨0, 0, 0⟩, 0) := by
    norm_num [SphereSphereDynamic, Vec3.GetLengthSqr, Vec3.Dot, Vec3.Normalize,
      Vec3.GetMagnitude]
  have r := timeOfImpact_within_step (Libm.mk Real.sqrt Real.sin Real.cos) ⟨1⟩ ⟨1⟩
    ⟨0, 0, 0⟩ ⟨1, 0, 0⟩ ⟨0, 0, 0⟩ ⟨0, 0, 0⟩ ⟨1, 0, 0⟩ ⟨0, 0, 0⟩ 1 0 one_pos h
  ⟨one_pos, h, r.1, r.2.1⟩

end SweepProofs

section FirstTouchProofs

variable {F : Type} [LinearOrderedField F]

/-- With an exact square root, a length is at most `R ≥ 0` exactly when the squared length
is at most `R²`. -/
theorem Vec3.magnitude_le_iff (m : Libm F) (hm : m.SqrtExact) (v : Vec3 F) (R : F)
    (hR : 0 ≤ R) : v.GetMagnitude m ≤ R ↔ v.GetLengthSqr ≤ R * R := by
  obtain ⟨h0, h1⟩ := hm v.GetLengthSqr (Vec3.lengthSqr_nonneg v)
  unfold Vec3.GetMagnitude
  constructor
  · intro h
    rw [← h1]
    exact mul_self_le_mul_self h0 h
  · intro h
    rw [← h1] at h
    by_contra hc
    have hlt : R < m.sqrtf v.GetLengthSqr := not_le.mp hc
    have := mul_self_lt_mul_self hR hlt
    exact absurd h (not_le.mpr this)

/-- The separation of the two centres at time `τ` of the step is the point of the ray of
`SphereSphereDynamic` at parameter `τ / dt`, seen from the centre of B. -/
theorem separation_eq_ray (posA posB velA velB : Vec3 F) (dt τ : F) (hdt : dt ≠ 0) :
    (posA + velA * τ) - (posB + velB * τ)
      = posA + ((velA - velB) * dt) * (τ * (1 / dt)) - posB := by
  rw [Vec3.ext_iff3]
  simp only [Vec3.add_x, Vec3.add_y, Vec3.add_z, Vec3.sub_x, Vec3.sub_y, Vec3.sub_z,
    Vec3.scale_x, Vec3.scale_y, Vec3.scale_z]
  refine ⟨?_, ?_, ?_⟩ <;> field_simp <;> ring

/-- The centres are within `R` of each other at time `τ` exactly when the quadratic of
`RaySphere` is non-positive at `τ / dt`. -/
theorem separation_le_iff (m : Libm F) (hm : m.SqrtExact) (posA posB velA velB : Vec3 F)
    (R dt τ : F) (hR : 0 ≤ R) (hdt : 0 < dt)
    (ha : 0 < ((velA - velB) * dt).Dot ((velA - velB) * dt)) :
    ((posA + velA * τ) - (posB + velB * τ)).GetMagnitude m ≤ R ↔
      (((velA - velB) * dt).Dot ((velA - velB) * dt) * (τ * (1 / dt))
          - (posB - posA).Dot ((velA - velB) * dt))
        * (((velA - velB) * dt).Dot ((velA - velB) * dt) * (τ * (1 / dt))
          - (posB - posA).Dot ((velA - velB) * dt))
        - ((posB - posA).Dot ((velA - velB) * dt) * (posB - posA).Dot ((velA - velB) * dt)
            - ((velA - velB) * dt).Dot ((velA - velB) * dt)
              * ((posB - posA).Dot (posB - posA) - R * R)) ≤ 0 := by
  rw [Vec3.magnitude_le_iff m hm _ R hR, separation_eq_ray posA posB velA velB dt τ
    (ne_of_gt hdt), ← raySphere_quadratic posA ((velA - velB) * dt) posB R (τ * (1 / dt))]
  constructor
  · intro h
    exact mul_nonpos_of_nonneg_of_nonpos (le_of_lt ha) (sub_nonpos.mpr h)
  · intro h
    by_contra hc
    have : 0 < (posA + (velA - velB) * dt * (τ * (1 / dt)) - posB).GetLengthSqr - R * R :=
      sub_pos.mpr (not_le.mp hc)
    exact absurd h (not_le.mpr (mul_pos ha this))

/-- The rejection tests of `SphereSphereDynamic` on a contact window: when the spheres are in
contact exactly during `[t0 * dt, t1 * dt]`, the two tests pass exactly when the window
meets `[0, dt]`, and then `max (t0 * dt) 0` is the first time of contact in the step. -/
theorem window_first_time (P : F → Prop) (t0 t1 dt : F) (h01 : t0 ≤ t1) (hdt : 0 < dt)
    (hP : ∀ τ : F, P τ ↔ t0 * dt ≤ τ ∧ τ ≤ t1 * dt) :
    ((¬ t1 * dt < 0 ∧ ¬ (if t0 * dt < 0 then 0 else t0 * dt) > dt) ↔
        ∃ τ : F, 0 ≤ τ ∧ τ ≤ dt ∧ P τ) ∧
    (¬ t1 * dt < 0 → ¬ (if t0 * dt < 0 then 0 else t0 * dt) > dt →
        P (if t0 * dt < 0 then 0 else t0 * dt) ∧
        ∀ τ : F, 0 ≤ τ → τ ≤ dt → P τ → (if t0 * dt < 0 then 0 else t0 * dt) ≤ τ) := by
  have h01dt : t0 * dt ≤ t1 * dt := mul_le_mul_of_nonneg_right h01 (le_of_lt hdt)
  constructor
  · constructor
    · rintro ⟨h1, h2⟩
      refine ⟨if t0 * dt < 0 then 0 else t0 * dt, ?_, not_lt.mp h2, ?_⟩
      · split
        · exact le_refl 0
        · rename_i h; exact not_lt.mp h
      · rw [hP]
        split
        · rename_i h; exact ⟨le_of_lt h, not_lt.mp h1⟩
        · exact ⟨le_refl _, h01dt⟩
    · rintro ⟨τ, hτ0, hτ1, hτ⟩
      rw [hP] at hτ
      refine ⟨not_lt.mpr (le_trans hτ0 hτ.2), not_lt.mpr ?_⟩
      split
      · exact le_of_lt hdt
      · exact le_trans hτ.1 hτ1
  · intro h1 _
    constructor
    · rw [hP]
      split
      · rename_i h; exact ⟨le_of_lt h, not_lt.mp h1⟩
      · exact ⟨le_refl _, h01dt⟩
    · intro τ hτ0 _ hτ
      rw [hP] at hτ
      split
      · exact hτ0
      · exact hτ.1

/-- A hit of `SphereSphereDynamic` on the long-ray path, for `rA + rB ≥ 0`: the step has
positive length and at the reported time the centres are within `rA + rB`. -/
theorem long_hit_within (m : Libm F) (hm : m.SqrtExact)
    (A B : ShapeSphere F) (posA posB velA velB ptA ptB : Vec3 F) (dt toi : F)
    (hr : 0 ≤ A.radius + B.radius)
    (hlong : 0.001 * 0.001 ≤ ((velA - velB) * dt).GetLengthSqr)
    (h : SphereSphereDynamic m A B posA posB velA velB dt = some (ptA, ptB, toi)) :
    ((posA + velA * toi) - (posB + velB * toi)).GetLengthSqr
      ≤ (A.radius + B.radius) * (A.radius + B.radius) := by
  have ha : 0 < ((velA - velB) * dt).Dot ((velA - velB) * dt) :=
    lt_of_lt_of_le (by norm_num) hlong
  obtain ⟨t0, t1, hhit, h1, htoi, h2, _, _⟩ :=
    sphereSphereDynamic_some m A B posA posB velA velB dt ptA ptB toi h
  have htoi0 : 0 ≤ toi := by
    rw [htoi]
    split
    · exact le_refl 0
    · rename_i h0; exact not_lt.mp h0
  have hdt : 0 < dt := by
    rcases lt_trichotomy dt 0 with hneg | hz | hpos
    · exact absurd (lt_of_lt_of_le hneg htoi0) h2
    · exfalso
      rw [hz] at hlong
      simp [Vec3.GetLengthSqr, Vec3.Dot] at hlong
      norm_num at hlong
    · exact hpos
  rw [← Vec3.magnitude_le_iff m hm _ _ hr,
    separation_le_iff m hm posA posB velA velB _ dt toi hr hdt ha]
  simp only [if_neg (not_lt.mpr hlong), raySphere_eq] at hhit
  split at hhit
  · exact absurd hhit (by simp)
  · rename_i hd
    obtain ⟨hs0, hss⟩ := hm _ (not_lt.mp hd)
    simp only [Option.some.injEq, Prod.mk.injEq] at hhit
    obtain ⟨e0, e1⟩ := hhit
    have h01 : t0 ≤ t1 := by
      rw [← e0, ← e1]
      apply mul_le_mul_of_nonneg_right _ (le_of_lt (one_div_pos.mpr ha))
      linarith
    have hq := quadratic_nonpos_iff (((velA - velB) * dt).Dot ((velA - velB) * dt))
      ((posB - posA).Dot ((velA - velB) * dt)) (m.sqrtf _) (toi * (1 / dt)) ha hs0
    rw [hss] at hq
    rw [hq, e0, e1, mul_one_div toi dt, le_div_iff₀ hdt, div_le_iff₀ hdt]
    rw [htoi]
    split
    · rename_i h0
      exact ⟨le_of_lt h0, not_lt.mp h1⟩
    · exact ⟨le_refl _, mul_le_mul_of_nonneg_right h01 (le_of_lt hdt)⟩

/-- Exact-arithmetic form of C1, for `float` read as an ordered field (binary32 rounding,
overflow and NaN are outside it): for radii with `rA + rB > 0`, `dt > 0` and a relative sweep that is not short
(squared length of `(velA - velB) * dt` at least `1e-6`), `SphereSphereDynamic` returns true
if and only if at some time `τ` in `[0, dt]` the centres `posA + velA * τ` and
`posB + velB * τ` are at distance at most `rA + rB`; and when it returns true the time of
impact is the least such `τ`. -/
theorem SphereSphereDynamic_first_touch (m : Libm F) (hm : m.SqrtExact)
    (A B : ShapeSphere F) (posA posB velA velB : Vec3 F) (dt : F)
    (hr : 0 < A.radius + B.radius) (hdt : 0 < dt)
    (hlong : 0.001 * 0.001 ≤ ((velA - velB) * dt).GetLengthSqr) :
    ((SphereSphereDynamic m A B posA posB velA velB dt).isSome = true ↔
      ∃ τ : F, 0 ≤ τ ∧ τ ≤ dt ∧
        ((posA + velA * τ) - (posB + velB * τ)).GetMagnitude m ≤ A.radius + B.radius) ∧
    (∀ (ptA ptB : Vec3 F) (toi : F),
      SphereSphereDynamic m A B posA posB velA velB dt = some (ptA, ptB, toi) →
        0 ≤ toi ∧ toi ≤ dt ∧
        ((posA + velA * toi) - (posB + velB * toi)).GetMagnitude m ≤ A.radius + B.radius ∧
        ∀ τ : F, 0 ≤ τ → τ ≤ dt →
          ((posA + velA * τ) - (posB + velB * τ)).GetMagnitude m ≤ A.radius + B.radius →
          toi ≤ τ) := by
  have ha : 0 < ((velA - velB) * dt).Dot ((velA - velB) * dt) :=
    lt_of_lt_of_le (by norm_num) hlong
  have hsep := fun τ : F => separation_le_iff m hm posA posB velA velB
    (A.radius + B.radius) dt τ (le_of_lt hr) hdt ha
  have hsome := sphereSphereDynamic_some m A B posA posB velA velB dt
  have hisSome := sphereSphereDynamic_isSome m A B posA posB velA velB dt
  simp only [if_neg (not_lt.mpr hlong), raySphere_eq] at hsome hisSome
  generalize hδ : (posB - posA).Dot ((velA - velB) * dt) * (posB - posA).Dot ((velA - velB) * dt)
      - ((velA - velB) * dt).Dot ((velA - velB) * dt)
        * ((posB - posA).Dot (posB - posA)
            - (A.radius + B.radius) * (A.radius + B.radius)) = delta at hsep hsome hisSome
  generalize (posB - posA).Dot ((velA - velB) * dt) = b at hsep hsome hisSome
  generalize ((velA - velB) * dt).Dot ((velA - velB) * dt) = a at hsep hsome hisSome ha
  by_cases hd : delta < 0
  · -- no real root: no hit and no contact
    simp only [if_pos hd] at hsome hisSome
    have hnone : SphereSphereDynamic m A B posA posB velA velB dt = none := by
      cases hres : SphereSphereDynamic m A B posA posB velA velB dt with
      | none => rfl
      | some r =>
        obtain ⟨ptA, ptB, toi⟩ := r
        obtain ⟨t0, t1, h, _⟩ := hsome ptA ptB toi hres
        exact absurd h (by simp)
    constructor
    · rw [hnone]
      constructor
      · intro h; simp at h
      · rintro ⟨τ, _, _, hτ⟩
        rw [hsep] at hτ
        nlinarith [mul_self_nonneg (a * (τ * (1 / dt)) - b)]
    · intro ptA ptB toi h
      rw [hnone] at h
      simp at h
  · obtain ⟨hs0, hss⟩ := hm delta (not_lt.mp hd)
    simp only [if_neg hd] at hsome hisSome
    have h01 : (b - m.sqrtf delta) * (1 / a) ≤ (b + m.sqrtf delta) * (1 / a) := by
      apply mul_le_mul_of_nonneg_right _ (le_of_lt (one_div_pos.mpr ha))
      linarith
    have hP : ∀ τ : F,
        ((posA + velA * τ) - (posB + velB * τ)).GetMagnitude m ≤ A.radius + B.radius ↔
          (b - m.sqrtf delta) * (1 / a) * dt ≤ τ ∧ τ ≤ (b + m.sqrtf delta) * (1 / a) * dt := by
      intro τ
      have hq := quadratic_nonpos_iff a b (m.sqrtf delta) (τ * (1 / dt)) ha hs0
      rw [hss] at hq
      rw [hsep, hq, mul_one_div τ dt, le_div_iff₀ hdt, div_le_iff₀ hdt]
    obtain ⟨hw1, hw2⟩ := window_first_time
      (fun τ => ((posA + velA * τ) - (posB + velB * τ)).GetMagnitude m
        ≤ A.radius + B.radius) _ _ dt h01 hdt hP
    constructor
    · rw [← hw1]
      constructor
      · intro h
        cases hres : SphereSphereDynamic m A B posA posB velA velB dt with
        | none => rw [hres] at h; simp at h
        | some r =>
          obtain ⟨ptA, ptB, toi⟩ := r
          obtain ⟨t0, t1, h, h1, htoi, h2, _⟩ := hsome ptA ptB toi hres
          simp only [Option.some.injEq, Prod.mk.injEq] at h
          obtain ⟨e0, e1⟩ := h
          subst e0 e1
          rw [htoi] at h2
          exact ⟨h1, h2⟩
      · rintro ⟨h1, h2⟩
        exact hisSome _ _ rfl h1 h2
    · intro ptA ptB toi hres
      obtain ⟨t0, t1, h, h1, htoi, h2, _⟩ := hsome ptA ptB toi hres
      simp only [Option.some.injEq, Prod.mk.injEq] at h
      obtain ⟨e0, e1⟩ := h
      subst e0 e1
      have h2' := h2
      rw [htoi] at h2'
      obtain ⟨k1, k2⟩ := hw2 h1 h2'
      rw [← htoi] at k1 k2
      refine ⟨?_, not_lt.mp h2, k1, k2⟩
      rw [htoi]
      split
      · exact le_refl 0
      · rename_i h0; exact not_lt.mp h0

/-- Witness for C1 over the reals (scenario 4 of the spec): A with radius 0.5 at (-3, 0, 0)
and velocity (500, 0, 0), B with radius 0.5 at rest at the origin, `dt = 1/60`.  The hit is
reported at time 1/250, strictly inside the step, at the point (-0.5, 0, 0), and no earlier
time of the step has the centres within distance 1. -/
theorem SphereSphereDynamic_first_touch_witness :
    (Libm.mk Real.sqrt Real.sin Real.cos).SqrtExact ∧
    (0 : ℝ) < 1 / 2 + 1 / 2 ∧ (0 : ℝ) < 1 / 60 ∧
    (0.001 : ℝ) * 0.001
      ≤ (((Vec3.mk 500 0 0 : Vec3 ℝ) - (Vec3.mk 0 0 0 : Vec3 ℝ)) * (1 / 60 : ℝ)).GetLengthSqr ∧
    SphereSphereDynamic (Libm.mk Real.sqrt Real.sin Real.cos) ⟨1 / 2⟩ ⟨1 / 2⟩ ⟨-3, 0, 0⟩
      ⟨0, 0, 0⟩ ⟨500, 0, 0⟩ ⟨0, 0, 0⟩ (1 / 60 : ℝ)
        = some (⟨-1 / 2, 0, 0⟩, ⟨-1 / 2, 0, 0⟩, 1 / 250) ∧
    (0 : ℝ) < 1 / 250 ∧ (1 / 250 : ℝ) < 1 / 60 ∧
    (∀ τ : ℝ, 0 ≤ τ → τ ≤ 1 / 60 →
      (((Vec3.mk (-3) 0 0 : Vec3 ℝ) + (Vec3.mk 500 0 0 : Vec3 ℝ) * τ)
        - ((Vec3.mk 0 0 0 : Vec3 ℝ) + (Vec3.mk 0 0 0 : Vec3 ℝ) * τ)).GetMagnitude
          (Libm.mk Real.sqrt Real.sin Real.cos) ≤ 1 / 2 + 1 / 2 →
      1 / 250 ≤ τ) := by
  have h625 : Real.sqrt 625 = 25 := real_sqrt_eq _ _ (by norm_num) (by norm_num)
  have h9 : Real.sqrt 9 = 3 := real_sqrt_eq _ _ (by norm_num) (by norm_num)
  have hr : (0 : ℝ) < 1 / 2 + 1 / 2 := by norm_num
  have hdt : (0 : ℝ) < 1 / 60 := by norm_num
  have hlong : (0.001 : ℝ) * 0.001
      ≤ (((Vec3.mk 500 0 0 : Vec3 ℝ) - (Vec3.mk 0 0 0 : Vec3 ℝ))
          * (1 / 60 : ℝ)).GetLengthSqr := by
    norm_num [Vec3.GetLengthSqr, Vec3.Dot]
  have hhit : SphereSphereDynamic (Libm.mk Real.sqrt Real.sin Real.cos) ⟨1 / 2⟩ ⟨1 / 2⟩
      ⟨-3, 0, 0⟩ ⟨0, 0, 0⟩ ⟨500, 0, 0⟩ ⟨0, 0, 0⟩ (1 / 60 : ℝ)
        = some (⟨-1 / 2, 0, 0⟩, ⟨-1 / 2, 0, 0⟩, 1 / 250) := by
    norm_num [SphereSphereDynamic, RaySphere, Vec3.GetLengthSqr, Vec3.Dot, Vec3.Normalize,
      Vec3.GetMagnitude, h625, h9]
  have key := (SphereSphereDynamic_first_touch (Libm.mk Real.sqrt Real.sin Real.cos)
    real_sqrtExact ⟨1 / 2⟩ ⟨1 / 2⟩ ⟨-3, 0, 0⟩ ⟨0, 0, 0⟩ ⟨500, 0, 0⟩ ⟨0, 0, 0⟩ (1 / 60)
    hr hdt hlong).2 _ _ _ hhit
  exact ⟨real_sqrtExact, hr, hdt, hlong, hhit, by norm_num, by norm_num, key.2.2.2⟩

end FirstTouchProofs

/-! ## Contact::CompareContact -/

section CompareContactProofs

/-- C7 (the code departs from the claim): `Contact::CompareContact` reads both of its
contacts through `p1`, so it answers 0 for every two contacts.  For a contact with time of
impact 1/5 compared with one with time of impact 2/5 the answer is 0, not negative, and
sorting the later contact followed by the earlier one with this comparator leaves the later
one first. -/
theorem CompareContact_reads_first_twice :
    (∀ (F : Type) [LinearOrderedField F] (a b : Contact F), CompareContact a b = 0) ∧
    CompareContact
      (Contact.mk (Vec3.mk 0 0 0) (Vec3.mk 0 0 0) (Vec3.mk 0 0 0) (Vec3.mk 0 0 0)
        (Vec3.mk 1 0 0) 0 (1 / 5 : ℚ) 0 1)
      (Contact.mk (Vec3.mk 0 0 0) (Vec3.mk 0 0 0) (Vec3.mk 0 0 0) (Vec3.mk 0 0 0)
        (Vec3.mk 1 0 0) 0 (2 / 5 : ℚ) 1 2) = 0 ∧
    sortContacts
      [Contact.mk (Vec3.mk 0 0 0) (Vec3.mk 0 0 0) (Vec3.mk 0 0 0) (Vec3.mk 0 0 0)
        (Vec3.mk 1 0 0) 0 (2 / 5 : ℚ) 1 2,
       Contact.mk (Vec3.mk 0 0 0) (Vec3.mk 0 0 0) (Vec3.mk 0 0 0) (Vec3.mk 0 0 0)
        (Vec3.mk 1 0 0) 0 (1 / 5 : ℚ) 0 1]
      = [Contact.mk (Vec3.mk 0 0 0) (Vec3.mk 0 0 0) (Vec3.mk 0 0 0) (Vec3.mk 0 0 0)
          (Vec3.mk 1 0 0) 0 (2 / 5 : ℚ) 1 2,
         Contact.mk (Vec3.mk 0 0 0) (Vec3.mk 0 0 0) (Vec3.mk 0 0 0) (Vec3.mk 0 0 0)
          (Vec3.mk 1 0 0) 0 (1 / 5 : ℚ) 0 1] := by
  have h : ∀ (F : Type) [LinearOrderedField F] (a b : Contact F), CompareContact a b = 0 := by
    intro F _ a b
    simp [CompareContact]
  refine ⟨h, h ℚ _ _, ?_⟩
  simp [sortContacts, qsort, h]

end CompareContactProofs

/-! ## Broadphase: the sweep over the sorted endpoints -/

section SweepListProofs

variable {F : Type}

/-- What the inner loop of `BuildPairs` emits for the opener `a`: one pair for each opener
`b` of another body met before the first entry with `a`'s id. -/
theorem mem_scanPairs (a : PseudoBody F) (l : List (PseudoBody F)) (p : CollisionPair) :
    p ∈ scanPairs a l ↔
      ∃ (mid : List (PseudoBody F)) (b : PseudoBody F) (r : List (PseudoBody F)),
        l = mid ++ b :: r ∧ (∀ x ∈ mid, x.id ≠ a.id) ∧ b.id ≠ a.id ∧ b.ismin = true ∧
        p = { a := a.id, b := b.id } := by
  induction l with
  | nil => simp [scanPairs]
  | cons c rest ih =>
    unfold scanPairs
    by_cases hc : c.id = a.id
    · simp only [hc, if_true, List.not_mem_nil, false_iff]
      rintro ⟨mid, b, r, hl, hmid, hb, _, _⟩
      cases mid with
      | nil =>
        simp only [List.nil_append, List.cons.injEq] at hl
        exact hb (hl.1 ▸ hc)
      | cons d mid2 =>
        simp only [List.cons_append, List.cons.injEq] at hl
        exact hmid d (List.mem_cons_self _ _) (hl.1 ▸ hc)
    · simp only [hc, if_false]
      by_cases hm : c.ismin = true
      · simp only [hm, Bool.not_true, Bool.false_eq_true, if_false, List.mem_cons]
        constructor
        · rintro (h | h)
          · exact ⟨[], c, rest, rfl, by simp, hc, hm, h⟩
          · obtain ⟨mid, b, r, hl, hmid, hb, hbm, hp⟩ := ih.mp h
            refine ⟨c :: mid, b, r, by simp [hl], ?_, hb, hbm, hp⟩
            intro x hx
            rcases List.mem_cons.mp hx with h1 | h1
            · exact h1 ▸ hc
            · exact hmid x h1
        · rintro ⟨mid, b, r, hl, hmid, hb, hbm, hp⟩
          cases mid with
          | nil =>
            simp only [List.nil_append, List.cons.injEq] at hl
            left
            rw [hp, hl.1]
          | cons d mid2 =>
            simp only [List.cons_append, List.cons.injEq] at hl
            right
            exact ih.mpr ⟨mid2, b, r, hl.2, fun x hx => hmid x (List.mem_cons_of_mem _ hx),
              hb, hbm, hp⟩
      · have hm2 : c.ismin = false := by simpa using hm
        simp only [hm2, Bool.not_false, if_true]
        rw [ih]
        constructor
        · rintro ⟨mid, b, r, hl, hmid, hb, hbm, hp⟩
          refine ⟨c :: mid, b, r, by simp [hl], ?_, hb, hbm, hp⟩
          intro x hx
          rcases List.mem_cons.mp hx with h1 | h1
          · exact h1 ▸ hc
          · exact hmid x h1
        · rintro ⟨mid, b, r, hl, hmid, hb, hbm, hp⟩
          cases mid with
          | nil =>
            simp only [List.nil_append, List.cons.injEq] at hl
            rw [← hl.1, hm2] at hbm
            exact absurd hbm (by simp)
          | cons d mid2 =>
            simp only [List.cons_append, List.cons.injEq] at hl
            exact ⟨mid2, b, r, hl.2, fun x hx => hmid x (List.mem_cons_of_mem _ hx),
              hb, hbm, hp⟩

/-- What `BuildPairs` emits: the pair `(a.id, b.id)` for every two openers `a` before `b` of
different bodies with no entry of `a`'s body in between. -/
theorem mem_BuildPairs (l : List (PseudoBody F)) (p : CollisionPair) :
    p ∈ BuildPairs l ↔
      ∃ (l1 : List (PseudoBody F)) (a : PseudoBody F) (mid : List (PseudoBody F))
        (b : PseudoBody F) (r : List (PseudoBody F)),
        l = l1 ++ a :: (mid ++ b :: r) ∧ a.ismin = true ∧ (∀ x ∈ mid, x.id ≠ a.id) ∧
        b.id ≠ a.id ∧ b.ismin = true ∧ p = { a := a.id, b := b.id } := by
  induction l with
  | nil => simp [BuildPairs]
  | cons c rest ih =>
    unfold BuildPairs
    constructor
    · intro h
      by_cases hm : c.ismin = true
      · simp only [hm, Bool.not_true, Bool.false_eq_true, if_false, List.mem_append] at h
        rcases h with h | h
        · obtain ⟨mid, b, r, hl, hmid, hb, hbm, hp⟩ := (mem_scanPairs c rest p).mp h
          exact ⟨[], c, mid, b, r, by simp [hl], hm, hmid, hb, hbm, hp⟩
        · obtain ⟨l1, a, mid, b, r, hl, ha, hmid, hb, hbm, hp⟩ := ih.mp h
          exact ⟨c :: l1, a, mid, b, r, by simp [hl], ha, hmid, hb, hbm, hp⟩
      · have hm2 : c.ismin = false := by simpa using hm
        simp only [hm2, Bool.not_false, if_true] at h
        obtain ⟨l1, a, mid, b, r, hl, ha, hmid, hb, hbm, hp⟩ := ih.mp h
        exact ⟨c :: l1, a, mid, b, r, by simp [hl], ha, hmid, hb, hbm, hp⟩
    · rintro ⟨l1, a, mid, b, r, hl, ha, hmid, hb, hbm, hp⟩
      cases l1 with
      | nil =>
        simp only [List.nil_append, List.cons.injEq] at hl
        obtain ⟨h1, h2⟩ := hl
        subst h1
        simp only [ha, Bool.not_true, Bool.false_eq_true, if_false, List.mem_append]
        left
        exact (mem_scanPairs c rest p).mpr ⟨mid, b, r, h2, hmid, hb, hbm, hp⟩
      | cons d l2 =>
        simp only [List.cons_append, List.cons.injEq] at hl
        have hin : p ∈ BuildPairs rest :=
          ih.mpr ⟨l2, a, mid, b, r, hl.2, ha, hmid, hb, hbm, hp⟩
        by_cases hm : c.ismin = true
        · simp only [hm, Bool.not_true, Bool.false_eq_true, if_false, List.mem_append]
          exact Or.inr hin
        · have hm2 : c.ismin = false := by simpa using hm
          simp only [hm2, Bool.not_false, if_true]
          exact hin

end SweepListProofs

/-! ## Broadphase: the sorted endpoints -/

section SortProofs

variable {F : Type} [LinearOrderedField F]

/-- The comparator `CompareSAP` puts `a` in front exactly when its value is smaller. -/
theorem compareSAP_le_zero (a b : PseudoBody F) : CompareSAP a b ≤ 0 ↔ a.value < b.value := by
  unfold CompareSAP
  split <;> simp [*]

/-- Inserting into a list sorted by value keeps it sorted by value. -/
theorem orderedInsert_sorted (a : PseudoBody F) (l : List (PseudoBody F))
    (h : l.Pairwise (fun x y => x.value ≤ y.value)) :
    (l.orderedInsert (fun a b => CompareSAP a b ≤ 0) a).Pairwise
      (fun x y => x.value ≤ y.value) := by
  induction l with
  | nil => simp
  | cons c rest ih =>
    rw [List.orderedInsert]
    rw [List.pairwise_cons] at h
    by_cases hc : CompareSAP a c ≤ 0
    · rw [if_pos hc]
      have hac : a.value < c.value := (compareSAP_le_zero a c).mp hc
      refine List.Pairwise.cons ?_ (List.Pairwise.cons h.1 h.2)
      intro x hx
      rcases List.mem_cons.mp hx with h1 | h1
      · rw [h1]; exact le_of_lt hac
      · exact le_trans (le_of_lt hac) (h.1 x h1)
    · rw [if_neg hc]
      have hca : c.value ≤ a.value := not_lt.mp (fun hlt => hc ((compareSAP_le_zero a c).mpr hlt))
      refine List.Pairwise.cons ?_ (ih h.2)
      intro x hx
      rcases (List.mem_orderedInsert _).mp hx with h1 | h1
      · rw [h1]; exact hca
      · exact h.1 x h1

/-- The array that `qsort` leaves with `CompareSAP` is in ascending order of value. -/
theorem qsort_compareSAP_sorted (l : List (PseudoBody F)) :
    (qsort CompareSAP l).Pairwise (fun x y => x.value ≤ y.value) := by
  unfold qsort
  induction l with
  | nil => simp
  | cons c rest ih =>
    rw [List.insertionSort]
    exact orderedInsert_sorted c _ ih

/-- The array that `qsort` leaves holds the entries it was given. -/
theorem qsort_perm {α : Type} (cmp : α → α → Int) (l : List α) : (qsort cmp l).Perm l :=
  List.perm_insertionSort _ l

end SortProofs

/-! ## Broadphase: the projected bounds -/

section BoundsProofs

variable {F : Type} [LinearOrderedField F]

/-- With an exact square root, `sqrtf 3` is positive. -/
theorem sqrt_three_pos (m : Libm F) (hm : m.SqrtExact) : 0 < m.sqrtf 3 := by
  obtain ⟨h0, h1⟩ := hm 3 (by norm_num)
  rcases lt_or_eq_of_le h0 with h | h
  · exact h
  · rw [← h] at h1
    norm_num at h1

/-- The projection on the sweep axis is the sum of the coordinates over `sqrtf 3`. -/
theorem sweepAxis_dot (m : Libm F) (v : Vec3 F) :
    (sweepAxis m).Dot v = (1 / m.sqrtf 3) * (v.x + v.y + v.z) := by
  have h3 : (1 * 1 + 1 * 1 + 1 * 1 : F) = 3 := by norm_num
  simp only [sweepAxis, Vec3.Normalize, Vec3.GetMagnitude, Vec3.GetLengthSqr, Vec3.Dot,
    Vec3.mk_scale, h3]
  ring

/-- `Bounds::Expand` only lowers `mins`, only raises `maxs`, and encloses the point. -/
theorem expand_bounds (b : Bounds F) (p : Vec3 F) :
    ((b.Expand p).mins.x ≤ b.mins.x ∧ (b.Expand p).mins.x ≤ p.x ∧
      b.maxs.x ≤ (b.Expand p).maxs.x ∧ p.x ≤ (b.Expand p).maxs.x) ∧
    ((b.Expand p).mins.y ≤ b.mins.y ∧ (b.Expand p).mins.y ≤ p.y ∧
      b.maxs.y ≤ (b.Expand p).maxs.y ∧ p.y ≤ (b.Expand p).maxs.y) ∧
    ((b.Expand p).mins.z ≤ b.mins.z ∧ (b.Expand p).mins.z ≤ p.z ∧
      b.maxs.z ≤ (b.Expand p).maxs.z ∧ p.z ≤ (b.Expand p).maxs.z) := by
  simp only [Bounds.Expand]
  refine ⟨⟨?_, ?_, ?_, ?_⟩, ⟨?_, ?_, ?_, ?_⟩, ⟨?_, ?_, ?_, ?_⟩⟩ <;> split <;>
    first
      | exact le_refl _
      | (rename_i h; exact le_of_lt h)
      | (rename_i h; exact not_lt.mp h)

/-- The bounds of `SortBodiesBounds` have `mins` strictly below `maxs` on each axis, and
enclose the sphere at every time `τ` of the step with a margin of 0.01 on each side of each
axis. -/
theorem sweptBounds_facts (body : Body F) (dt : F) :
    ((sweptBounds body dt).mins.x < (sweptBounds body dt).maxs.x ∧
      (sweptBounds body dt).mins.y < (sweptBounds body dt).maxs.y ∧
      (sweptBounds body dt).mins.z < (sweptBounds body dt).maxs.z) ∧
    ∀ τ : F, 0 ≤ τ → τ ≤ dt →
      ((sweptBounds body dt).mins.x
          ≤ body.position.x + body.linearVelocity.x * τ - body.shape.radius - 0.01 ∧
        body.position.x + body.linearVelocity.x * τ + body.shape.radius + 0.01
          ≤ (sweptBounds body dt).maxs.x) ∧
      ((sweptBounds body dt).mins.y
          ≤ body.position.y + body.linearVelocity.y * τ - body.shape.radius - 0.01 ∧
        body.position.y + body.linearVelocity.y * τ + body.shape.radius + 0.01
          ≤ (sweptBounds body dt).maxs.y) ∧
      ((sweptBounds body dt).mins.z
          ≤ body.position.z + body.linearVelocity.z * τ - body.shape.radius - 0.01 ∧
        body.position.z + body.linearVelocity.z * τ + body.shape.radius + 0.01
          ≤ (sweptBounds body dt).maxs.z) := by
  simp only [sweptBounds]
  generalize hb0 : body.shape.GetBounds body.position body.orientation = b0
  have e0 : b0.mins = Vec3.splat (-body.shape.radius) + body.position
      ∧ b0.maxs = Vec3.splat body.shape.radius + body.position := by
    rw [← hb0]; exact ⟨rfl, rfl⟩
  generalize hb1 : b0.Expand (b0.mins + body.linearVelocity * dt) = b1
  generalize hb2 : b1.Expand (b1.maxs + body.linearVelocity * dt) = b2
  generalize hb3 : b2.Expand (b2.mins + (Vec3.mk (-1) (-1) (-1) : Vec3 F) * (0.01 : F)) = b3
  generalize hb4 : b3.Expand (b3.maxs + (Vec3.mk 1 1 1 : Vec3 F) * (0.01 : F)) = b4
  have k1 := expand_bounds b0 (b0.mins + body.linearVelocity * dt)
  have k2 := expand_bounds b1 (b1.maxs + body.linearVelocity * dt)
  have k3 := expand_bounds b2 (b2.mins + (Vec3.mk (-1) (-1) (-1) : Vec3 F) * (0.01 : F))
  have k4 := expand_bounds b3 (b3.maxs + (Vec3.mk 1 1 1 : Vec3 F) * (0.01 : F))
  rw [hb1] at k1
  rw [hb2] at k2
  rw [hb3] at k3
  rw [hb4] at k4
  have e : (0.01 : F) = 1 / 100 := by norm_num
  simp only [e0.1, e0.2, Vec3.add_x, Vec3.add_y, Vec3.add_z, Vec3.scale_x, Vec3.scale_y,
    Vec3.scale_z, Vec3.splat, e] at k1 k2 k3 k4
  obtain ⟨⟨x11, x12, x13, x14⟩, ⟨y11, y12, y13, y14⟩, ⟨z11, z12, z13, z14⟩⟩ := k1
  obtain ⟨⟨x21, x22, x23, x24⟩, ⟨y21, y22, y23, y24⟩, ⟨z21, z22, z23, z24⟩⟩ := k2
  obtain ⟨⟨x31, x32, x33, x34⟩, ⟨y31, y32, y33, y34⟩, ⟨z31, z32, z33, z34⟩⟩ := k3
  obtain ⟨⟨x41, x42, x43, x44⟩, ⟨y41, y42, y43, y44⟩, ⟨z41, z42, z43, z44⟩⟩ := k4
  simp only [e]
  refine ⟨⟨by linarith only [x41, x32, x34, x44], by linarith only [y41, y32, y34, y44],
    by linarith only [z41, z32, z34, z44]⟩, ?_⟩
  intro τ h0 h1
  have hv : ∀ v : F, (0 ≤ v * τ ∧ v * τ ≤ v * dt) ∨ (v * dt ≤ v * τ ∧ v * τ ≤ 0) := by
    intro v
    rcases le_total 0 v with h | h
    · exact Or.inl ⟨mul_nonneg h h0, mul_le_mul_of_nonneg_left h1 h⟩
    · exact Or.inr ⟨mul_le_mul_of_nonpos_left h1 h, mul_nonpos_of_nonpos_of_nonneg h h0⟩
  refine ⟨?_, ?_, ?_⟩
  · rcases hv body.linearVelocity.x with ⟨c1, c2⟩ | ⟨c1, c2⟩ <;> constructor <;>
      linarith only [x11, x12, x13, x21, x23, x24, x31, x32, x33, x41, x43, x44,
        c1, c2]
  · rcases hv body.linearVelocity.y with ⟨c1, c2⟩ | ⟨c1, c2⟩ <;> constructor <;>
      linarith only [y11, y12, y13, y21, y23, y24, y31, y32, y33, y41, y43, y44,
        c1, c2]
  · rcases hv body.linearVelocity.z with ⟨c1, c2⟩ | ⟨c1, c2⟩ <;> constructor <;>
      linarith only [z11, z12, z13, z21, z23, z24, z31, z32, z33, z41, z43, z44,
        c1, c2]

end BoundsProofs

/-! ## Broadphase: the entries of the sorted array -/

section EndpointProofs

variable {F : Type} [LinearOrderedField F]

/-- The entries written by the loop of `SortBodiesBounds`: for each body, at its index, the
two ends of its interval on the sweep axis. -/
theorem mem_fillBounds (m : Libm F) (dt : F) (k : Nat) (bodies : List (Body F))
    (x : PseudoBody F) :
    x ∈ fillBounds m dt k bodies ↔
      ∃ (i : Nat) (body : Body F), bodies[i]? = some body ∧
        (x = { id := ((k + i : Nat) : Int), value := projectedMin m body dt, ismin := true } ∨
         x = { id := ((k + i : Nat) : Int), value := projectedMax m body dt,
               ismin := false }) := by
  induction bodies generalizing k with
  | nil => simp [fillBounds]
  | cons b rest ih =>
    simp only [fillBounds, List.mem_cons]
    rw [ih (k + 1)]
    constructor
    · rintro (h | h | ⟨i, body, hb, h⟩)
      · exact ⟨0, b, by simp, Or.inl (by rw [h]; rfl)⟩
      · exact ⟨0, b, by simp, Or.inr (by rw [h]; rfl)⟩
      · refine ⟨i + 1, body, by simpa using hb, ?_⟩
        have e : k + 1 + i = k + (i + 1) := by omega
        rw [← e]
        exact h
    · rintro ⟨i, body, hb, h⟩
      cases i with
      | zero =>
        simp only [List.getElem?_cons_zero, Option.some.injEq] at hb
        subst hb
        rcases h with h | h
        · exact Or.inl (by rw [h]; rfl)
        · exact Or.inr (Or.inl (by rw [h]; rfl))
      | succ i =>
        right; right
        refine ⟨i, body, by simpa using hb, ?_⟩
        have e : k + 1 + i = k + (i + 1) := by omega
        rw [e]
        exact h

/-- The loop of `SortBodiesBounds` writes no entry twice. -/
theorem fillBounds_nodup (m : Libm F) (dt : F) (k : Nat) (bodies : List (Body F)) :
    (fillBounds m dt k bodies).Nodup := by
  induction bodies generalizing k with
  | nil => simp [fillBounds]
  | cons b rest ih =>
    simp only [fillBounds, List.nodup_cons, List.mem_cons, not_or]
    refine ⟨⟨by simp, ?_⟩, ?_, ih (k + 1)⟩
    · intro h
      obtain ⟨i, body, _, h | h⟩ := (mem_fillBounds m dt (k + 1) rest _).mp h
      · have := congrArg PseudoBody.id h
        simp only [Nat.cast_inj] at this
        omega
      · have := congrArg PseudoBody.ismin h
        simp at this
    · intro h
      obtain ⟨i, body, _, h | h⟩ := (mem_fillBounds m dt (k + 1) rest _).mp h
      · have := congrArg PseudoBody.ismin h
        simp at this
      · have := congrArg PseudoBody.id h
        simp only [Nat.cast_inj] at this
        omega

/-- The entries of the array sorted by `SortBodiesBounds`. -/
theorem mem_SortBodiesBounds (m : Libm F) (bodies : List (Body F)) (dt : F)
    (x : PseudoBody F) :
    x ∈ SortBodiesBounds m bodies dt ↔
      ∃ (i : Nat) (body : Body F), bodies[i]? = some body ∧
        (x = { id := (i : Int), value := projectedMin m body dt, ismin := true } ∨
         x = { id := (i : Int), value := projectedMax m body dt, ismin := false }) := by
  unfold SortBodiesBounds
  rw [(qsort_perm CompareSAP _).mem_iff, mem_fillBounds]
  simp only [Nat.zero_add]

/-- The array sorted by `SortBodiesBounds` holds no entry twice. -/
theorem SortBodiesBounds_nodup (m : Libm F) (bodies : List (Body F)) (dt : F) :
    (SortBodiesBounds m bodies dt).Nodup :=
  (qsort_perm CompareSAP _).nodup_iff.mpr (fillBounds_nodup m dt 0 bodies)

end EndpointProofs

/-! ## Broadphase: which pairs the sweep emits -/

section SweepPairProofs

variable {F : Type} [LinearOrderedField F]

/-- When the opener of body `i` comes before the opener of body `j` in the sorted array and
the interval of `i` ends after the interval of `j` starts, `BuildPairs` emits `(i, j)`. -/
theorem sweep_emits (m : Libm F) (bodies : List (Body F)) (dt : F)
    (i j : Nat) (bi bj : Body F) (hi : bodies[i]? = some bi) (hij : i ≠ j)
    (l1 mid r : List (PseudoBody F))
    (hL : SortBodiesBounds m bodies dt
      = l1 ++ { id := (i : Int), value := projectedMin m bi dt, ismin := true }
          :: (mid ++ { id := (j : Int), value := projectedMin m bj dt, ismin := true } :: r))
    (h : projectedMin m bj dt < projectedMax m bi dt) :
    ({ a := (i : Int), b := (j : Int) } : CollisionPair) ∈ BroadPhase m bodies dt := by
  have hS := qsort_compareSAP_sorted (fillBounds m dt 0 bodies)
  have hN := SortBodiesBounds_nodup m bodies dt
  have hmem := mem_SortBodiesBounds m bodies dt
  change (SortBodiesBounds m bodies dt).Pairwise _ at hS
  unfold BroadPhase SweepAndPrune1D
  simp only []
  rw [hL] at hS hN
  refine (mem_BuildPairs _ _).mpr ⟨l1, _, mid, _, r, hL, rfl, ?_, ?_, rfl, rfl⟩
  · intro x hx hid
    have hxL : x ∈ SortBodiesBounds m bodies dt := by
      rw [hL]; simp [hx]
    obtain ⟨k, body, hk, hx2⟩ := (hmem x).mp hxL
    have hki : k = i := by
      rcases hx2 with h2 | h2 <;> (rw [h2] at hid; simpa using hid)
    subst hki
    rw [hi] at hk
    simp only [Option.some.injEq] at hk
    subst hk
    rcases hx2 with h2 | h2
    · -- the opener of `i` would occur twice
      rw [List.nodup_append] at hN
      have := (List.nodup_cons.mp hN.2.1).1
      apply this
      rw [← h2]
      simp [hx]
    · -- the end of `i` before the opener of `j`
      rw [List.pairwise_append] at hS
      have h3 := hS.2.1
      rw [List.pairwise_cons, List.pairwise_append] at h3
      have h4 := h3.2.2.2 x hx _ (List.mem_cons_self _ _)
      rw [h2] at h4
      exact absurd h (not_lt.mpr h4)
  · simpa using fun h : j = i => hij h.symm

/-- When the intervals of two bodies on the sweep axis overlap strictly, `BroadPhase` emits
the pair, in one order or the other. -/
theorem sweep_complete (m : Libm F) (bodies : List (Body F)) (dt : F)
    (i j : Nat) (bi bj : Body F) (hi : bodies[i]? = some bi) (hj : bodies[j]? = some bj)
    (hij : i ≠ j) (h1 : projectedMin m bi dt < projectedMax m bj dt)
    (h2 : projectedMin m bj dt < projectedMax m bi dt) :
    ({ a := (i : Int), b := (j : Int) } : CollisionPair) ∈ BroadPhase m bodies dt ∨
    ({ a := (j : Int), b := (i : Int) } : CollisionPair) ∈ BroadPhase m bodies dt := by
  have hmem := mem_SortBodiesBounds m bodies dt
  have hmi : ({ id := (i : Int), value := projectedMin m bi dt, ismin := true }
      : PseudoBody F) ∈ SortBodiesBounds m bodies dt :=
    (hmem _).mpr ⟨i, bi, hi, Or.inl rfl⟩
  have hmj : ({ id := (j : Int), value := projectedMin m bj dt, ismin := true }
      : PseudoBody F) ∈ SortBodiesBounds m bodies dt :=
    (hmem _).mpr ⟨j, bj, hj, Or.inl rfl⟩
  obtain ⟨l1, l2, hL⟩ := List.append_of_mem hmi
  rw [hL, List.mem_append, List.mem_cons] at hmj
  rcases hmj with h | h | h
  · obtain ⟨l1a, mid, hl1⟩ := List.append_of_mem h
    right
    refine sweep_emits m bodies dt j i bj bi hj (Ne.symm hij) l1a mid l2 ?_ h1
    rw [hL, hl1]
    simp
  · exfalso
    have := congrArg PseudoBody.id h
    simp only [Nat.cast_inj] at this
    exact hij this.symm
  · obtain ⟨mid, r, hl2⟩ := List.append_of_mem h
    left
    refine sweep_emits m bodies dt i j bi bj hi hij l1 mid r ?_ h2
    rw [hL, hl2]

end SweepPairProofs

/-! ## BroadPhase: the emitted pairs -/

section BroadPhaseProofs

variable {F : Type} [LinearOrderedField F]

/-- Each coordinate of a vector of squared length at most `R²`, `R ≥ 0`, is within `R`. -/
theorem coords_within (x y z R : F) (hR : 0 ≤ R) (h : x * x + y * y + z * z ≤ R * R) :
    (-R ≤ x ∧ x ≤ R) ∧ (-R ≤ y ∧ y ≤ R) ∧ (-R ≤ z ∧ z ≤ R) := by
  have key : ∀ u : F, u * u ≤ R * R → -R ≤ u ∧ u ≤ R := by
    intro u hu
    constructor
    · by_contra hc
      have h1 : R < -u := by linarith [not_le.mp hc]
      have := mul_self_lt_mul_self hR h1
      linarith
    · by_contra hc
      have := mul_self_lt_mul_self hR (not_le.mp hc)
      linarith
  refine ⟨key x ?_, key y ?_, key z ?_⟩
  · linarith [mul_self_nonneg y, mul_self_nonneg z]
  · linarith [mul_self_nonneg x, mul_self_nonneg z]
  · linarith [mul_self_nonneg x, mul_self_nonneg y]

/-- Two spheres whose centres are within `rA + rB + 0.001` at some time of the step have
intervals on the sweep axis that overlap strictly. -/
theorem near_projected_overlap (m : Libm F) (hm : m.SqrtExact) (bi bj : Body F) (dt τ : F)
    (h0 : 0 ≤ τ) (h1 : τ ≤ dt) (hr : 0 ≤ bi.shape.radius + bj.shape.radius)
    (hnear : ((bi.position + bi.linearVelocity * τ)
        - (bj.position + bj.linearVelocity * τ)).GetLengthSqr
      ≤ (bi.shape.radius + bj.shape.radius + 0.001)
        * (bi.shape.radius + bj.shape.radius + 0.001)) :
    projectedMin m bi dt < projectedMax m bj dt ∧
    projectedMin m bj dt < projectedMax m bi dt := by
  obtain ⟨_, hbi⟩ := sweptBounds_facts bi dt
  obtain ⟨_, hbj⟩ := sweptBounds_facts bj dt
  obtain ⟨⟨ix1, ix2⟩, ⟨iy1, iy2⟩, ⟨iz1, iz2⟩⟩ := hbi τ h0 h1
  obtain ⟨⟨jx1, jx2⟩, ⟨jy1, jy2⟩, ⟨jz1, jz2⟩⟩ := hbj τ h0 h1
  have e1 : (0.001 : F) = 1 / 1000 := by norm_num
  have e2 : (0.01 : F) = 1 / 100 := by norm_num
  rw [e1] at hnear
  rw [e2] at ix1 ix2 iy1 iy2 iz1 iz2 jx1 jx2 jy1 jy2 jz1 jz2
  simp only [Vec3.GetLengthSqr, Vec3.Dot, Vec3.sub_x, Vec3.sub_y, Vec3.sub_z, Vec3.add_x,
    Vec3.add_y, Vec3.add_z, Vec3.scale_x, Vec3.scale_y, Vec3.scale_z] at hnear
  obtain ⟨⟨dx1, dx2⟩, ⟨dy1, dy2⟩, ⟨dz1, dz2⟩⟩ :=
    coords_within _ _ _ _ (by linarith) hnear
  have hk : (0 : F) < 1 / m.sqrtf 3 := one_div_pos.mpr (sqrt_three_pos m hm)
  unfold projectedMin projectedMax
  rw [sweepAxis_dot, sweepAxis_dot, sweepAxis_dot, sweepAxis_dot]
  constructor
  · apply mul_lt_mul_of_pos_left _ hk
    linarith only [ix1, iy1, iz1, jx2, jy2, jz2, dx2, dy2, dz2]
  · apply mul_lt_mul_of_pos_left _ hk
    linarith only [jx1, jy1, jz1, ix2, iy2, iz2, dx1, dy1, dz1]

/-- Exact-arithmetic form of C5, for `float` read as an ordered field (binary32 rounding,
overflow and NaN are outside it): for sphere bodies with `rA + rB ≥ 0` and `dt > 0`, every two distinct bodies that
overlap geometrically (centres at distance at most `rA + rB`), or for which
`SphereSphereDynamic` reports a hit within `dt` from their positions and linear velocities,
appear as a pair, in one order or the other, in the output of `BroadPhase`. -/
theorem BroadPhase_keeps_hits (m : Libm F) (hm : m.SqrtExact)
    (bodies : List (Body F)) (dt : F) (i j : Nat) (bi bj : Body F)
    (hi : bodies[i]? = some bi) (hj : bodies[j]? = some bj) (hij : i ≠ j)
    (hdt : 0 < dt) (hr : 0 ≤ bi.shape.radius + bj.shape.radius)
    (h : (bi.position - bj.position).GetMagnitude m ≤ bi.shape.radius + bj.shape.radius ∨
      (SphereSphereDynamic m bi.shape bj.shape bi.position bj.position bi.linearVelocity
        bj.linearVelocity dt).isSome = true) :
    ({ a := (i : Int), b := (j : Int) } : CollisionPair) ∈ BroadPhase m bodies dt ∨
    ({ a := (j : Int), b := (i : Int) } : CollisionPair) ∈ BroadPhase m bodies dt := by
  have e1 : (0.001 : F) = 1 / 1000 := by norm_num
  have hRR : (bi.shape.radius + bj.shape.radius) * (bi.shape.radius + bj.shape.radius)
      ≤ (bi.shape.radius + bj.shape.radius + 0.001)
        * (bi.shape.radius + bj.shape.radius + 0.001) := by
    rw [e1]; nlinarith
  have hnear : ∃ τ : F, 0 ≤ τ ∧ τ ≤ dt ∧
      ((bi.position + bi.linearVelocity * τ)
        - (bj.position + bj.linearVelocity * τ)).GetLengthSqr
      ≤ (bi.shape.radius + bj.shape.radius + 0.001)
        * (bi.shape.radius + bj.shape.radius + 0.001) := by
    rcases h with h | h
    · refine ⟨0, le_refl 0, le_of_lt hdt, le_trans ?_ hRR⟩
      rw [Vec3.magnitude_le_iff m hm _ _ hr] at h
      have e : bi.position + bi.linearVelocity * (0 : F)
          - (bj.position + bj.linearVelocity * (0 : F)) = bi.position - bj.position := by
        rw [Vec3.ext_iff3]; simp
      rw [e]
      exact h
    · cases hres : SphereSphereDynamic m bi.shape bj.shape bi.position bj.position
          bi.linearVelocity bj.linearVelocity dt with
      | none => rw [hres] at h; simp at h
      | some res =>
        obtain ⟨ptA, ptB, toi⟩ := res
        obtain ⟨t0, t1, hhit, _, htoi, h2, _, _⟩ := sphereSphereDynamic_some m _ _ _ _ _ _ dt
          ptA ptB toi hres
        have htoi0 : 0 ≤ toi := by
          rw [htoi]
          split
          · exact le_refl 0
          · rename_i h0; exact not_lt.mp h0
        refine ⟨toi, htoi0, not_lt.mp h2, ?_⟩
        by_cases hshort : ((bi.linearVelocity - bj.linearVelocity) * dt).GetLengthSqr
            < 0.001 * 0.001
        · rw [if_pos hshort] at hhit
          split at hhit
          · exact absurd hhit (by simp)
          · rename_i hnot
            simp only [Option.some.injEq, Prod.mk.injEq] at hhit
            have ht : toi = 0 := by rw [htoi, ← hhit.1]; simp
            rw [ht]
            have e : (bi.position + bi.linearVelocity * (0 : F)
                - (bj.position + bj.linearVelocity * (0 : F))).GetLengthSqr
                = (bj.position - bi.position).GetLengthSqr := by
              simp only [Vec3.GetLengthSqr, Vec3.Dot, Vec3.sub_x, Vec3.sub_y, Vec3.sub_z,
                Vec3.add_x, Vec3.add_y, Vec3.add_z, Vec3.scale_x, Vec3.scale_y, Vec3.scale_z]
              ring
            rw [e]
            exact not_lt.mp hnot
        · exact le_trans (long_hit_within m hm _ _ _ _ _ _ ptA ptB dt toi hr
            (not_lt.mp hshort) hres) hRR
  obtain ⟨τ, h0, h1, hle⟩ := hnear
  obtain ⟨k1, k2⟩ := near_projected_overlap m hm bi bj dt τ h0 h1 hr hle
  exact sweep_complete m bodies dt i j bi bj hi hj hij k1 k2

/-- Witness for C5 over the reals: two unit spheres at rest at (10, 0, 0) and (11, 0, 0)
overlap, and `BroadPhase` emits the pair for `dt = 1`. -/
theorem BroadPhase_keeps_hits_witness :
    (Libm.mk Real.sqrt Real.sin Real.cos).SqrtExact ∧ (0 : ℝ) < 1 ∧ (0 : ℝ) ≤ 1 + 1 ∧
    ((Vec3.mk 10 0 0 : Vec3 ℝ) - (Vec3.mk 11 0 0 : Vec3 ℝ)).GetMagnitude
      (Libm.mk Real.sqrt Real.sin Real.cos) ≤ 1 + 1 ∧
    (({ a := ((0 : Nat) : Int), b := ((1 : Nat) : Int) } : CollisionPair)
        ∈ BroadPhase (Libm.mk Real.sqrt Real.sin Real.cos)
          [Body.mk ⟨10, 0, 0⟩ ⟨0, 0, 0, 1⟩ ⟨0, 0, 0⟩ ⟨0, 0, 0⟩ 1 (1 / 2) (1 / 2) ⟨1⟩,
           Body.mk ⟨11, 0, 0⟩ ⟨0, 0, 0, 1⟩ ⟨0, 0, 0⟩ ⟨0, 0, 0⟩ 1 (1 / 2) (1 / 2) ⟨1⟩] (1 : ℝ) ∨
     ({ a := ((1 : Nat) : Int), b := ((0 : Nat) : Int) } : CollisionPair)
        ∈ BroadPhase (Libm.mk Real.sqrt Real.sin Real.cos)
          [Body.mk ⟨10, 0, 0⟩ ⟨0, 0, 0, 1⟩ ⟨0, 0, 0⟩ ⟨0, 0, 0⟩ 1 (1 / 2) (1 / 2) ⟨1⟩,
           Body.mk ⟨11, 0, 0⟩ ⟨0, 0, 0, 1⟩ ⟨0, 0, 0⟩ ⟨0, 0, 0⟩ 1 (1 / 2) (1 / 2) ⟨1⟩]
          (1 : ℝ)) := by
  have hmag : ((Vec3.mk 10 0 0 : Vec3 ℝ) - (Vec3.mk 11 0 0 : Vec3 ℝ)).GetMagnitude
      (Libm.mk Real.sqrt Real.sin Real.cos) ≤ 1 + 1 := by
    norm_num [Vec3.GetMagnitude, Vec3.GetLengthSqr, Vec3.Dot]
  exact ⟨real_sqrtExact, one_pos, by norm_num, hmag,
    BroadPhase_keeps_hits (Libm.mk Real.sqrt Real.sin Real.cos) real_sqrtExact
      [Body.mk ⟨10, 0, 0⟩ ⟨0, 0, 0, 1⟩ ⟨0, 0, 0⟩ ⟨0, 0, 0⟩ 1 (1 / 2) (1 / 2) ⟨1⟩,
       Body.mk ⟨11, 0, 0⟩ ⟨0, 0, 0, 1⟩ ⟨0, 0, 0⟩ ⟨0, 0, 0⟩ 1 (1 / 2) (1 / 2) ⟨1⟩] 1 0 1
      (Body.mk ⟨10, 0, 0⟩ ⟨0, 0, 0, 1⟩ ⟨0, 0, 0⟩ ⟨0, 0, 0⟩ 1 (1 / 2) (1 / 2) ⟨1⟩)
      (Body.mk ⟨11, 0, 0⟩ ⟨0, 0, 0, 1⟩ ⟨0, 0, 0⟩ ⟨0, 0, 0⟩ 1 (1 / 2) (1 / 2) ⟨1⟩)
      (by simp) (by simp) (by decide) one_pos (by norm_num) (Or.inl hmag)⟩

end BroadPhaseProofs

/-! ## BroadPhase on the four spheres of scenario 5 -/

section FourSpheresProofs

variable {F : Type} [LinearOrderedField F]

/-- For the four spheres of scenario 5, at rest, every interval on the sweep axis starts
before every interval ends: the first is `[-3.03, 3.03] / sqrt 3` and the other three are
`[1.97, 8.03] / sqrt 3`. -/
theorem four_spheres_overlap (m : Libm F) (hm : m.SqrtExact) (dt : F) :
    ∀ bi bj : Body F,
      bi ∈ [Body.mk ⟨0, 0, 0⟩ ⟨0, 0, 0, 1⟩ ⟨0, 0, 0⟩ ⟨0, 0, 0⟩ 1 (1 / 2) (1 / 2) ⟨1⟩,
           Body.mk ⟨5, 0, 0⟩ ⟨0, 0, 0, 1⟩ ⟨0, 0, 0⟩ ⟨0, 0, 0⟩ 1 (1 / 2) (1 / 2) ⟨1⟩,
           Body.mk ⟨0, 5, 0⟩ ⟨0, 0, 0, 1⟩ ⟨0, 0, 0⟩ ⟨0, 0, 0⟩ 1 (1 / 2) (1 / 2) ⟨1⟩,
           Body.mk ⟨0, 0, 5⟩ ⟨0, 0, 0, 1⟩ ⟨0, 0, 0⟩ ⟨0, 0, 0⟩ 1 (1 / 2) (1 / 2) ⟨(1 : F)⟩] →
      bj ∈ [Body.mk ⟨0, 0, 0⟩ ⟨0, 0, 0, 1⟩ ⟨0, 0, 0⟩ ⟨0, 0, 0⟩ 1 (1 / 2) (1 / 2) ⟨1⟩,
           Body.mk ⟨5, 0, 0⟩ ⟨0, 0, 0, 1⟩ ⟨0, 0, 0⟩ ⟨0, 0, 0⟩ 1 (1 / 2) (1 / 2) ⟨1⟩,
           Body.mk ⟨0, 5, 0⟩ ⟨0, 0, 0, 1⟩ ⟨0, 0, 0⟩ ⟨0, 0, 0⟩ 1 (1 / 2) (1 / 2) ⟨1⟩,
           Body.mk ⟨0, 0, 5⟩ ⟨0, 0, 0, 1⟩ ⟨0, 0, 0⟩ ⟨0, 0, 0⟩ 1 (1 / 2) (1 / 2) ⟨(1 : F)⟩] →
      projectedMin m bi dt < projectedMax m bj dt := by
  have hk : (0 : F) < 1 / m.sqrtf 3 := one_div_pos.mpr (sqrt_three_pos m hm)
  have ends0 :
      projectedMin m (Body.mk ⟨0, 0, 0⟩ ⟨0, 0, 0, 1⟩ ⟨0, 0, 0⟩ ⟨0, 0, 0⟩ 1 (1 / 2) (1 / 2) ⟨1⟩) dt
        = 1 / m.sqrtf 3 * (-303 / 100) ∧
      projectedMax m (Body.mk ⟨0, 0, 0⟩ ⟨0, 0, 0, 1⟩ ⟨0, 0, 0⟩ ⟨0, 0, 0⟩ 1 (1 / 2) (1 / 2) ⟨1⟩) dt
        = 1 / m.sqrtf 3 * (303 / 100) := by
    unfold projectedMin projectedMax
    rw [sweepAxis_dot, sweepAxis_dot]
    simp only [sweptBounds, ShapeSphere.GetBounds, Vec3.splat, Vec3.mk_add_mk, Vec3.mk_scale,
      zero_mul, add_zero]
    simp only [Bounds.Expand]
    norm_num
  have ends1 :
      projectedMin m (Body.mk ⟨5, 0, 0⟩ ⟨0, 0, 0, 1⟩ ⟨0, 0, 0⟩ ⟨0, 0, 0⟩ 1 (1 / 2) (1 / 2) ⟨1⟩) dt
        = 1 / m.sqrtf 3 * (197 / 100) ∧
      projectedMax m (Body.mk ⟨5, 0, 0⟩ ⟨0, 0, 0, 1⟩ ⟨0, 0, 0⟩ ⟨0, 0, 0⟩ 1 (1 / 2) (1 / 2) ⟨1⟩) dt
        = 1 / m.sqrtf 3 * (803 / 100) := by
    unfold projectedMin projectedMax
    rw [sweepAxis_dot, sweepAxis_dot]
    simp only [sweptBounds, ShapeSphere.GetBounds, Vec3.splat, Vec3.mk_add_mk, Vec3.mk_scale,
      zero_mul, add_zero]
    simp only [Bounds.Expand]
    norm_num
  have ends2 :
      projectedMin m (Body.mk ⟨0, 5, 0⟩ ⟨0, 0, 0, 1⟩ ⟨0, 0, 0⟩ ⟨0, 0, 0⟩ 1 (1 / 2) (1 / 2) ⟨1⟩) dt
        = 1 / m.sqrtf 3 * (197 / 100) ∧
      projectedMax m (Body.mk ⟨0, 5, 0⟩ ⟨0, 0, 0, 1⟩ ⟨0, 0, 0⟩ ⟨0, 0, 0⟩ 1 (1 / 2) (1 / 2) ⟨1⟩) dt
        = 1 / m.sqrtf 3 * (803 / 100) := by
    unfold projectedMin projectedMax
    rw [sweepAxis_dot, sweepAxis_dot]
    simp only [sweptBounds, ShapeSphere.GetBounds, Vec3.splat, Vec3.mk_add_mk, Vec3.mk_scale,
      zero_mul, add_zero]
    simp only [Bounds.Expand]
    norm_num
  have ends3 :
      projectedMin m (Body.mk ⟨0, 0, 5⟩ ⟨0, 0, 0, 1⟩ ⟨0, 0, 0⟩ ⟨0, 0, 0⟩ 1 (1 / 2) (1 / 2) ⟨1⟩) dt
        = 1 / m.sqrtf 3 * (197 / 100) ∧
      projectedMax m (Body.mk ⟨0, 0, 5⟩ ⟨0, 0, 0, 1⟩ ⟨0, 0, 0⟩ ⟨0, 0, 0⟩ 1 (1 / 2) (1 / 2) ⟨1⟩) dt
        = 1 / m.sqrtf 3 * (803 / 100) := by
    unfold projectedMin projectedMax
    rw [sweepAxis_dot, sweepAxis_dot]
    simp only [sweptBounds, ShapeSphere.GetBounds, Vec3.splat, Vec3.mk_add_mk, Vec3.mk_scale,
      zero_mul, add_zero]
    simp only [Bounds.Expand]
    norm_num
  intro bi bj hbi hbj
  simp only [List.mem_cons, List.mem_singleton, List.not_mem_nil, or_false] at hbi hbj
  rcases hbi with h | h | h | h <;> rcases hbj with h' | h' | h' | h' <;>
    (rw [h, h']
     simp only [ends0.1, ends0.2, ends1.1, ends1.2, ends2.1, ends2.2, ends3.1, ends3.2]
     apply mul_lt_mul_of_pos_left _ hk
     norm_num)

/-- C6 (amended): for the four spheres of radius 1 at (0,0,0), (5,0,0), (0,5,0), (0,0,5)
with zero velocity and any `dt`, the intervals on the sweep axis all overlap (the first is
`[-3.03, 3.03] / sqrt 3`, the other three are `[1.97, 8.03] / sqrt 3`), and `BroadPhase`
emits a pair for each of the six couples of bodies, in one order or the other. -/
theorem BroadPhase_four_spheres (m : Libm F) (hm : m.SqrtExact) (dt : F) :
    ∀ i j : Fin 4, i ≠ j →
      ({ a := ((i : Nat) : Int), b := ((j : Nat) : Int) } : CollisionPair)
        ∈ BroadPhase m
          [Body.mk ⟨0, 0, 0⟩ ⟨0, 0, 0, 1⟩ ⟨0, 0, 0⟩ ⟨0, 0, 0⟩ 1 (1 / 2) (1 / 2) ⟨1⟩,
           Body.mk ⟨5, 0, 0⟩ ⟨0, 0, 0, 1⟩ ⟨0, 0, 0⟩ ⟨0, 0, 0⟩ 1 (1 / 2) (1 / 2) ⟨1⟩,
           Body.mk ⟨0, 5, 0⟩ ⟨0, 0, 0, 1⟩ ⟨0, 0, 0⟩ ⟨0, 0, 0⟩ 1 (1 / 2) (1 / 2) ⟨1⟩,
           Body.mk ⟨0, 0, 5⟩ ⟨0, 0, 0, 1⟩ ⟨0, 0, 0⟩ ⟨0, 0, 0⟩ 1 (1 / 2) (1 / 2) ⟨1⟩] dt ∨
      ({ a := ((j : Nat) : Int), b := ((i : Nat) : Int) } : CollisionPair)
        ∈ BroadPhase m
          [Body.mk ⟨0, 0, 0⟩ ⟨0, 0, 0, 1⟩ ⟨0, 0, 0⟩ ⟨0, 0, 0⟩ 1 (1 / 2) (1 / 2) ⟨1⟩,
           Body.mk ⟨5, 0, 0⟩ ⟨0, 0, 0, 1⟩ ⟨0, 0, 0⟩ ⟨0, 0, 0⟩ 1 (1 / 2) (1 / 2) ⟨1⟩,
           Body.mk ⟨0, 5, 0⟩ ⟨0, 0, 0, 1⟩ ⟨0, 0, 0⟩ ⟨0, 0, 0⟩ 1 (1 / 2) (1 / 2) ⟨1⟩,
           Body.mk ⟨0, 0, 5⟩ ⟨0, 0, 0, 1⟩ ⟨0, 0, 0⟩ ⟨0, 0, 0⟩ 1 (1 / 2) (1 / 2) ⟨1⟩] dt := by
  have key := four_spheres_overlap m hm dt
  intro i j hij
  have hget : ∀ k : Fin 4, ∃ b : Body F,
      [Body.mk ⟨0, 0, 0⟩ ⟨0, 0, 0, 1⟩ ⟨0, 0, 0⟩ ⟨0, 0, 0⟩ 1 (1 / 2) (1 / 2) ⟨1⟩,
       Body.mk ⟨5, 0, 0⟩ ⟨0, 0, 0, 1⟩ ⟨0, 0, 0⟩ ⟨0, 0, 0⟩ 1 (1 / 2) (1 / 2) ⟨1⟩,
       Body.mk ⟨0, 5, 0⟩ ⟨0, 0, 0, 1⟩ ⟨0, 0, 0⟩ ⟨0, 0, 0⟩ 1 (1 / 2) (1 / 2) ⟨1⟩,
       Body.mk ⟨0, 0, 5⟩ ⟨0, 0, 0, 1⟩ ⟨0, 0, 0⟩ ⟨0, 0, 0⟩ 1 (1 / 2) (1 / 2)
         ⟨(1 : F)⟩][(k : Nat)]? = some b := by
    intro k
    fin_cases k <;> simp
  obtain ⟨bi, hi⟩ := hget i
  obtain ⟨bj, hj⟩ := hget j
  have hij' : (i : Nat) ≠ (j : Nat) := fun h => hij (Fin.ext h)
  exact sweep_complete m _ dt i j bi bj hi hj hij'
    (key bi bj (List.getElem?_mem hi) (List.getElem?_mem hj))
    (key bj bi (List.getElem?_mem hj) (List.getElem?_mem hi))


/-- Witness for the amended C6 over the reals, `dt = 1/60`: the pair of the spheres at
(0,0,0) and (5,0,0) is emitted. -/
theorem BroadPhase_four_spheres_witness :
    (Libm.mk Real.sqrt Real.sin Real.cos).SqrtExact ∧
    (({ a := ((0 : Nat) : Int), b := ((1 : Nat) : Int) } : CollisionPair)
        ∈ BroadPhase (Libm.mk Real.sqrt Real.sin Real.cos)
          [Body.mk ⟨0, 0, 0⟩ ⟨0, 0, 0, 1⟩ ⟨0, 0, 0⟩ ⟨0, 0, 0⟩ 1 (1 / 2) (1 / 2) ⟨1⟩,
           Body.mk ⟨5, 0, 0⟩ ⟨0, 0, 0, 1⟩ ⟨0, 0, 0⟩ ⟨0, 0, 0⟩ 1 (1 / 2) (1 / 2) ⟨1⟩,
           Body.mk ⟨0, 5, 0⟩ ⟨0, 0, 0, 1⟩ ⟨0, 0, 0⟩ ⟨0, 0, 0⟩ 1 (1 / 2) (1 / 2) ⟨1⟩,
           Body.mk ⟨0, 0, 5⟩ ⟨0, 0, 0, 1⟩ ⟨0, 0, 0⟩ ⟨0, 0, 0⟩ 1 (1 / 2) (1 / 2) ⟨1⟩]
          (1 / 60 : ℝ) ∨
     ({ a := ((1 : Nat) : Int), b := ((0 : Nat) : Int) } : CollisionPair)
        ∈ BroadPhase (Libm.mk Real.sqrt Real.sin Real.cos)
          [Body.mk ⟨0, 0, 0⟩ ⟨0, 0, 0, 1⟩ ⟨0, 0, 0⟩ ⟨0, 0, 0⟩ 1 (1 / 2) (1 / 2) ⟨1⟩,
           Body.mk ⟨5, 0, 0⟩ ⟨0, 0, 0, 1⟩ ⟨0, 0, 0⟩ ⟨0, 0, 0⟩ 1 (1 / 2) (1 / 2) ⟨1⟩,
           Body.mk ⟨0, 5, 0⟩ ⟨0, 0, 0, 1⟩ ⟨0, 0, 0⟩ ⟨0, 0, 0⟩ 1 (1 / 2) (1 / 2) ⟨1⟩,
           Body.mk ⟨0, 0, 5⟩ ⟨0, 0, 0, 1⟩ ⟨0, 0, 0⟩ ⟨0, 0, 0⟩ 1 (1 / 2) (1 / 2) ⟨1⟩]
          (1 / 60 : ℝ)) :=
  ⟨real_sqrtExact,
    BroadPhase_four_spheres (Libm.mk Real.sqrt Real.sin Real.cos) real_sqrtExact (1 / 60)
      0 1 (by decide)⟩

/-- C6 (counterexample): over the reals, for the four spheres of radius 1 at (0,0,0),
(5,0,0), (0,5,0), (0,0,5) with zero velocity and `dt = 1/60`, the output of `BroadPhase` is
not empty. -/
theorem BroadPhase_four_spheres_not_empty :
    BroadPhase (Libm.mk Real.sqrt Real.sin Real.cos)
      [Body.mk ⟨0, 0, 0⟩ ⟨0, 0, 0, 1⟩ ⟨0, 0, 0⟩ ⟨0, 0, 0⟩ 1 (1 / 2) (1 / 2) ⟨1⟩,
       Body.mk ⟨5, 0, 0⟩ ⟨0, 0, 0, 1⟩ ⟨0, 0, 0⟩ ⟨0, 0, 0⟩ 1 (1 / 2) (1 / 2) ⟨1⟩,
       Body.mk ⟨0, 5, 0⟩ ⟨0, 0, 0, 1⟩ ⟨0, 0, 0⟩ ⟨0, 0, 0⟩ 1 (1 / 2) (1 / 2) ⟨1⟩,
       Body.mk ⟨0, 0, 5⟩ ⟨0, 0, 0, 1⟩ ⟨0, 0, 0⟩ ⟨0, 0, 0⟩ 1 (1 / 2) (1 / 2) ⟨1⟩]
      (1 / 60 : ℝ) ≠ [] := by
  have key := four_spheres_overlap (Libm.mk Real.sqrt Real.sin Real.cos) real_sqrtExact
    (1 / 60 : ℝ)
  have h := sweep_complete (Libm.mk Real.sqrt Real.sin Real.cos)
    [Body.mk ⟨0, 0, 0⟩ ⟨0, 0, 0, 1⟩ ⟨0, 0, 0⟩ ⟨0, 0, 0⟩ 1 (1 / 2) (1 / 2) ⟨1⟩,
     Body.mk ⟨5, 0, 0⟩ ⟨0, 0, 0, 1⟩ ⟨0, 0, 0⟩ ⟨0, 0, 0⟩ 1 (1 / 2) (1 / 2) ⟨1⟩,
     Body.mk ⟨0, 5, 0⟩ ⟨0, 0, 0, 1⟩ ⟨0, 0, 0⟩ ⟨0, 0, 0⟩ 1 (1 / 2) (1 / 2) ⟨1⟩,
     Body.mk ⟨0, 0, 5⟩ ⟨0, 0, 0, 1⟩ ⟨0, 0, 0⟩ ⟨0, 0, 0⟩ 1 (1 / 2) (1 / 2) ⟨1⟩] (1 / 60 : ℝ) 0 1
    (Body.mk ⟨0, 0, 0⟩ ⟨0, 0, 0, 1⟩ ⟨0, 0, 0⟩ ⟨0, 0, 0⟩ 1 (1 / 2) (1 / 2) ⟨1⟩)
    (Body.mk ⟨5, 0, 0⟩ ⟨0, 0, 0, 1⟩ ⟨0, 0, 0⟩ ⟨0, 0, 0⟩ 1 (1 / 2) (1 / 2) ⟨1⟩)
    (by simp) (by simp) (by decide) (key _ _ (by simp) (by simp)) (key _ _ (by simp) (by simp))
  intro hnil
  rw [hnil] at h
  simp at h

end FourSpheresProofs

/-! ## Body::Update on a sphere -/

theorem Quat.ext_iff4 {F : Type} (p q : Quat F) :
    p = q ↔ p.x = q.x ∧ p.y = q.y ∧ p.z = q.z ∧ p.w = q.w := by
  cases p; cases q; simp

section UpdateProofs

variable {F : Type} [LinearOrderedField F]

@[simp] theorem Quat.mul_x (p q : Quat F) :
    (p * q).x = p.x * q.w + p.w * q.x + p.y * q.z - p.z * q.y := rfl
@[simp] theorem Quat.mul_y (p q : Quat F) :
    (p * q).y = p.y * q.w + p.w * q.y + p.z * q.x - p.x * q.z := rfl
@[simp] theorem Quat.mul_z (p q : Quat F) :
    (p * q).z = p.z * q.w + p.w * q.z + p.x * q.y - p.y * q.x := rfl
@[simp] theorem Quat.mul_w (p q : Quat F) :
    (p * q).w = p.w * q.w - p.x * q.x - p.y * q.y - p.z * q.z := rfl

@[simp] theorem Mat3.mulVec_x (a : Mat3 F) (v : Vec3 F) : (a * v).x = a.rows0.Dot v := rfl
@[simp] theorem Mat3.mulVec_y (a : Mat3 F) (v : Vec3 F) : (a * v).y = a.rows1.Dot v := rfl
@[simp] theorem Mat3.mulVec_z (a : Mat3 F) (v : Vec3 F) : (a * v).z = a.rows2.Dot v := rfl

theorem Mat3.mul_def (a b : Mat3 F) : a * b = Mat3.mul a b := rfl

theorem Mat3.scale_def (a : Mat3 F) (s : F) : a * s = Mat3.scale a s := rfl

/-- Rotating the zero vector gives the zero vector, whatever the quaternion. -/
theorem Quat.rotatePoint_zero (q : Quat F) : q.RotatePoint Vec3.zero = Vec3.zero := by
  rw [Vec3.ext_iff3]
  simp [Quat.RotatePoint, Vec3.zero]

/-- The centre of mass of a sphere body is its position. -/
theorem Body.centerOfMass_eq (b : Body F) : b.GetCenterOfMassWorldSpace = b.position := by
  unfold Body.GetCenterOfMassWorldSpace ShapeSphere.GetCenterOfMass
  simp only [Quat.rotatePoint_zero]
  rw [Vec3.ext_iff3]
  simp [Vec3.zero]

/-- A matrix times the zero vector is the zero vector. -/
theorem Mat3.mulVec_zero (a : Mat3 F) : a * (Vec3.zero : Vec3 F) = Vec3.zero := by
  rw [Vec3.ext_iff3]
  simp [Vec3.Dot, Vec3.zero]

/-- The inertia tensor of a sphere is `2 r² / 5` times the identity. -/
theorem ShapeSphere.inertiaTensor_eq (s : ShapeSphere F) :
    s.InertiaTensor =
      ⟨⟨2 * s.radius * s.radius / 5, 0, 0⟩, ⟨0, 2 * s.radius * s.radius / 5, 0⟩,
       ⟨0, 0, 2 * s.radius * s.radius / 5⟩⟩ := rfl

/-- The rows of the matrix of a quaternion are orthogonal and of equal length. -/
theorem Quat.toMat3_rows (q : Quat F) :
    q.ToMat3.rows0.Dot q.ToMat3.rows0
        = (1 / q.MagnitudeSquared * q.MagnitudeSquared) * (1 / q.MagnitudeSquared * q.MagnitudeSquared) ∧
    q.ToMat3.rows1.Dot q.ToMat3.rows1
        = (1 / q.MagnitudeSquared * q.MagnitudeSquared) * (1 / q.MagnitudeSquared * q.MagnitudeSquared) ∧
    q.ToMat3.rows2.Dot q.ToMat3.rows2
        = (1 / q.MagnitudeSquared * q.MagnitudeSquared) * (1 / q.MagnitudeSquared * q.MagnitudeSquared) ∧
    q.ToMat3.rows0.Dot q.ToMat3.rows1 = 0 ∧
    q.ToMat3.rows0.Dot q.ToMat3.rows2 = 0 ∧
    q.ToMat3.rows1.Dot q.ToMat3.rows2 = 0 := by
  simp only [Quat.ToMat3, Mat3.Transpose, Quat.RotatePoint, Quat.Inverse, Vec3.Dot,
    Quat.mul_x, Quat.mul_y, Quat.mul_z, Quat.mul_w]
  generalize 1 / q.MagnitudeSquared = t
  unfold Quat.MagnitudeSquared
  refine ⟨?_, ?_, ?_, ?_, ?_, ?_⟩ <;> ring

/-- The product `R * D * Rᵀ` for a diagonal `D = c * identity`, in terms of the rows of `R`. -/
theorem Mat3.mul_diag_transpose (r : Mat3 F) (c : F) :
    r * (⟨⟨c, 0, 0⟩, ⟨0, c, 0⟩, ⟨0, 0, c⟩⟩ : Mat3 F) * r.Transpose =
      ⟨⟨c * r.rows0.Dot r.rows0, c * r.rows0.Dot r.rows1, c * r.rows0.Dot r.rows2⟩,
       ⟨c * r.rows0.Dot r.rows1, c * r.rows1.Dot r.rows1, c * r.rows1.Dot r.rows2⟩,
       ⟨c * r.rows0.Dot r.rows2, c * r.rows1.Dot r.rows2, c * r.rows2.Dot r.rows2⟩⟩ := by
  simp only [Mat3.mul_def, Mat3.mul, Mat3.Transpose, Vec3.Dot, Mat3.mk.injEq, Vec3.mk.injEq]
  refine ⟨⟨?_, ?_, ?_⟩, ⟨?_, ?_, ?_⟩, ⟨?_, ?_, ?_⟩⟩ <;> ring

/-- The world inertia tensor of a sphere is a multiple of the identity. -/
theorem inertia_world_eq (q : Quat F) (s : ShapeSphere F) :
    ∃ k : F, q.ToMat3 * s.InertiaTensor * q.ToMat3.Transpose
      = ⟨⟨k, 0, 0⟩, ⟨0, k, 0⟩, ⟨0, 0, k⟩⟩ := by
  obtain ⟨h00, h11, h22, h01, h02, h12⟩ := Quat.toMat3_rows q
  refine ⟨2 * s.radius * s.radius / 5 * ((1 / q.MagnitudeSquared * q.MagnitudeSquared)
    * (1 / q.MagnitudeSquared * q.MagnitudeSquared)), ?_⟩
  rw [ShapeSphere.inertiaTensor_eq, Mat3.mul_diag_transpose, h00, h11, h22, h01, h02, h12]
  simp

/-- The gyroscopic term `ω × I ω` of `Body::Update` vanishes for a sphere. -/
theorem gyroscopic_term_zero (q : Quat F) (s : ShapeSphere F) (w : Vec3 F) :
    w.Cross ((q.ToMat3 * s.InertiaTensor * q.ToMat3.Transpose) * w) = Vec3.zero := by
  obtain ⟨k, hk⟩ := inertia_world_eq q s
  rw [hk, Vec3.ext_iff3]
  simp only [Vec3.Cross, Mat3.mulVec_x, Mat3.mulVec_y, Mat3.mulVec_z, Vec3.Dot, Vec3.zero]
  refine ⟨?_, ?_, ?_⟩ <;> ring

/-- The method `Body::Update` on a sphere: uniform motion of the position, velocities and
the other fields unchanged. -/
theorem Body.update_fields (m : Libm F) (b : Body F) (dt : F) :
    (b.Update m dt).position = b.position + b.linearVelocity * dt ∧
    (b.Update m dt).linearVelocity = b.linearVelocity ∧
    (b.Update m dt).angularVelocity = b.angularVelocity ∧
    (b.Update m dt).inverseMass = b.inverseMass ∧
    (b.Update m dt).elasticity = b.elasticity ∧
    (b.Update m dt).friction = b.friction ∧
    (b.Update m dt).shape = b.shape := by
  refine ⟨?_, rfl, ?_, rfl, rfl, rfl, rfl⟩
  · simp only [Body.Update, Body.centerOfMass_eq]
    rw [Vec3.ext_iff3]
    have hz : b.position + b.linearVelocity * dt - (b.position + b.linearVelocity * dt)
        = Vec3.zero := by
      rw [Vec3.ext_iff3]; simp [Vec3.zero]
    rw [hz, Quat.rotatePoint_zero]
    simp [Vec3.zero]
  · simp only [Body.Update]
    rw [gyroscopic_term_zero, Mat3.mulVec_zero, Vec3.ext_iff3]
    simp [Vec3.zero]

/-- The orientation after `Body::Update` on a sphere. -/
theorem Body.update_orientation (m : Libm F) (b : Body F) (dt : F) :
    (b.Update m dt).orientation
      = (Quat.ofAxisAngle m (b.angularVelocity * dt) ((b.angularVelocity * dt).GetMagnitude m)
          * b.orientation).Normalize m := by
  have hw : b.angularVelocity
      + (b.orientation.ToMat3 * b.shape.InertiaTensor * b.orientation.ToMat3.Transpose).Inverse
          * (b.angularVelocity.Cross
              ((b.orientation.ToMat3 * b.shape.InertiaTensor * b.orientation.ToMat3.Transpose)
                * b.angularVelocity)) * dt = b.angularVelocity := by
    rw [gyroscopic_term_zero, Mat3.mulVec_zero, Vec3.ext_iff3]
    simp [Vec3.zero]
  simp only [Body.Update, hw]

/-- With an exact square root, `sqrtf 1 = 1`. -/
theorem sqrt_one_eq (m : Libm F) (hm : m.SqrtExact) : m.sqrtf 1 = 1 := by
  obtain ⟨h0, h1⟩ := hm 1 zero_le_one
  have h2 : (m.sqrtf 1 - 1) * (m.sqrtf 1 + 1) = 0 := by linear_combination h1
  rcases mul_eq_zero.mp h2 with h | h
  · exact sub_eq_zero.mp h
  · linarith

/-- Normalizing a unit quaternion leaves it as it is. -/
theorem Quat.normalize_unit (m : Libm F) (hm : m.SqrtExact) (q : Quat F)
    (hq : q.MagnitudeSquared = 1) : q.Normalize m = q := by
  rw [Quat.ext_iff4]
  simp [Quat.Normalize, Quat.GetMagnitude, hq, sqrt_one_eq m hm]

/-- The squared magnitude of a product of quaternions is the product of the squared
magnitudes. -/
theorem Quat.magnitudeSquared_mul (p q : Quat F) :
    (p * q).MagnitudeSquared = p.MagnitudeSquared * q.MagnitudeSquared := by
  simp only [Quat.MagnitudeSquared, Quat.mul_x, Quat.mul_y, Quat.mul_z, Quat.mul_w]
  ring

/-- The rotation quaternion that `Body::Update` builds from the rotation vector is a unit
quaternion. -/
theorem Quat.ofAxisAngle_unit (m : Libm F) (hm : m.SqrtExact) (ht : m.TrigExact)
    (u : Vec3 F) : (Quat.ofAxisAngle m u (u.GetMagnitude m)).MagnitudeSquared = 1 := by
  obtain ⟨h0, h1⟩ := hm u.GetLengthSqr (Vec3.lengthSqr_nonneg u)
  simp only [Quat.ofAxisAngle, Quat.MagnitudeSquared, Vec3.Normalize, Vec3.GetMagnitude,
    Vec3.scale_x, Vec3.scale_y, Vec3.scale_z]
  by_cases hz : m.sqrtf u.GetLengthSqr = 0
  · rw [hz]
    simp [ht.2]
  · have hn : u.x * (1 / m.sqrtf u.GetLengthSqr) * (u.x * (1 / m.sqrtf u.GetLengthSqr))
        + u.y * (1 / m.sqrtf u.GetLengthSqr) * (u.y * (1 / m.sqrtf u.GetLengthSqr))
        + u.z * (1 / m.sqrtf u.GetLengthSqr) * (u.z * (1 / m.sqrtf u.GetLengthSqr)) = 1 := by
      have e : u.x * u.x + u.y * u.y + u.z * u.z
          = m.sqrtf u.GetLengthSqr * m.sqrtf u.GetLengthSqr := by
        rw [h1]; rfl
      field_simp
      linear_combination e
    have hsc := ht.1 (1 / 2 * m.sqrtf u.GetLengthSqr)
    linear_combination
      (m.sinf (1 / 2 * m.sqrtf u.GetLengthSqr) * m.sinf (1 / 2 * m.sqrtf u.GetLengthSqr)) * hn
        + hsc

/-- Reversing the rotation vector conjugates the rotation quaternion of `Body::Update`. -/
theorem Quat.ofAxisAngle_reverse (m : Libm F) (w : Vec3 F) (t : F) :
    Quat.ofAxisAngle m (w * (-t)) ((w * (-t)).GetMagnitude m)
      = ⟨-(Quat.ofAxisAngle m (w * t) ((w * t).GetMagnitude m)).x,
         -(Quat.ofAxisAngle m (w * t) ((w * t).GetMagnitude m)).y,
         -(Quat.ofAxisAngle m (w * t) ((w * t).GetMagnitude m)).z,
         (Quat.ofAxisAngle m (w * t) ((w * t).GetMagnitude m)).w⟩ := by
  have e : (w * (-t)).GetLengthSqr = (w * t).GetLengthSqr := by
    simp only [Vec3.GetLengthSqr, Vec3.Dot, Vec3.scale_x, Vec3.scale_y, Vec3.scale_z]
    ring
  rw [Quat.ext_iff4]
  simp only [Quat.ofAxisAngle, Vec3.Normalize, Vec3.GetMagnitude, e, Vec3.scale_x,
    Vec3.scale_y, Vec3.scale_z]
  refine ⟨?_, ?_, ?_, trivial⟩ <;> ring

/-- The conjugate of a unit quaternion undoes the multiplication by it. -/
theorem Quat.conj_mul_cancel (p q : Quat F) (hp : p.MagnitudeSquared = 1) :
    (⟨-p.x, -p.y, -p.z, p.w⟩ : Quat F) * (p * q) = q := by
  unfold Quat.MagnitudeSquared at hp
  rw [Quat.ext_iff4]
  simp only [Quat.mul_x, Quat.mul_y, Quat.mul_z, Quat.mul_w]
  refine ⟨?_, ?_, ?_, ?_⟩
  · linear_combination q.x * hp
  · linear_combination q.y * hp
  · linear_combination q.z * hp
  · linear_combination q.w * hp

/-- On a sphere with a unit orientation, `Update(-t)` undoes `Update(t)`. -/
theorem Body.update_undo (m : Libm F) (hm : m.SqrtExact) (ht : m.TrigExact) (b : Body F)
    (t : F) (hq : b.orientation.MagnitudeSquared = 1) :
    (b.Update m t).Update m (-t) = b := by
  obtain ⟨p1, v1, w1, i1, e1, f1, s1⟩ := Body.update_fields m b t
  obtain ⟨p2, v2, w2, i2, e2, f2, s2⟩ := Body.update_fields m (b.Update m t) (-t)
  have hdq := Quat.ofAxisAngle_unit m hm ht (b.angularVelocity * t)
  have hq1 : (b.Update m t).orientation
      = Quat.ofAxisAngle m (b.angularVelocity * t) ((b.angularVelocity * t).GetMagnitude m)
          * b.orientation := by
    rw [Body.update_orientation, Quat.normalize_unit m hm]
    rw [Quat.magnitudeSquared_mul, hdq, hq, one_mul]
  have hq2 : ((b.Update m t).Update m (-t)).orientation = b.orientation := by
    rw [Body.update_orientation, w1, hq1, Quat.ofAxisAngle_reverse,
      Quat.conj_mul_cancel _ _ hdq, Quat.normalize_unit m hm _ hq]
  have hp : ((b.Update m t).Update m (-t)).position = b.position := by
    rw [p2, p1, v1, Vec3.ext_iff3]
    simp
  generalize (b.Update m t).Update m (-t) = b2 at *
  cases b
  cases b2
  simp only [Body.mk.injEq]
  simp only at hp hq2 v1 v2 w1 w2 i1 i2 e1 e2 f1 f2 s1 s2
  exact ⟨hp, hq2, by rw [v2, v1], by rw [w2, w1], by rw [i2, i1], by rw [e2, e1],
    by rw [f2, f1], by rw [s2, s1]⟩

end UpdateProofs

/-! ## Intersections::Intersect -/

section IntersectProofs

variable {F : Type} [LinearOrderedField F]

/-- The real sine and cosine are exact in the sense of `Libm.TrigExact`. -/
theorem real_trigExact : (Libm.mk Real.sqrt Real.sin Real.cos).TrigExact := by
  refine ⟨fun x => ?_, Real.cos_zero⟩
  have := Real.sin_sq_add_cos_sq x
  simpa [sq] using this

/-- A hit of `SphereSphereDynamic` on the bodies makes `Intersect` return a contact with
that time of impact. -/
theorem intersect_of_hit (m : Libm F) (refA refB : Nat) (a b : Body F) (dt : F)
    (ptA ptB : Vec3 F) (toi : F)
    (h : SphereSphereDynamic m a.shape b.shape a.position b.position a.linearVelocity
      b.linearVelocity dt = some (ptA, ptB, toi)) :
    ∃ (c : Contact F) (a2 b2 : Body F),
      Intersect m refA refB a b dt = (some c, a2, b2) ∧ c.timeOfImpact = toi := by
  unfold Intersect
  simp only [ShapeSphere.GetType, and_self, if_true]
  rw [h]
  exact ⟨_, _, _, rfl, rfl⟩

/-- Normalizing the opposite vector gives the opposite of the normalized vector. -/
theorem Vec3.normalize_reverse (m : Libm F) (u v : Vec3 F) :
    (u - v).Normalize m = (v - u).Normalize m * (-1 : F) := by
  have e : (u - v).GetLengthSqr = (v - u).GetLengthSqr := by
    simp only [Vec3.GetLengthSqr, Vec3.Dot, Vec3.sub_x, Vec3.sub_y, Vec3.sub_z]
    ring
  rw [Vec3.ext_iff3]
  simp only [Vec3.Normalize, Vec3.GetMagnitude, e, Vec3.scale_x, Vec3.scale_y, Vec3.scale_z,
    Vec3.sub_x, Vec3.sub_y, Vec3.sub_z]
  refine ⟨?_, ?_, ?_⟩ <;> ring

/-- C8 (the code departs from the claim): the normal of every contact returned by
`Intersections::Intersect` is the normalized vector from the centre of B to the centre of A
at the time of impact, `normalize(posA_toi - posB_toi)`: the opposite of the vector from A to
B, `normalize(posB_toi - posA_toi)`, that the claim states. -/
theorem Intersect_normal_points_from_B_to_A (m : Libm F) (refA refB : Nat)
    (a b a2 b2 : Body F) (dt : F) (c : Contact F)
    (h : Intersect m refA refB a b dt = (some c, a2, b2)) :
    c.normal = ((a.position + a.linearVelocity * c.timeOfImpact)
        - (b.position + b.linearVelocity * c.timeOfImpact)).Normalize m ∧
    c.normal = ((b.position + b.linearVelocity * c.timeOfImpact)
        - (a.position + a.linearVelocity * c.timeOfImpact)).Normalize m * (-1 : F) := by
  obtain ⟨_, _, _, _, _, hn, _, _⟩ := intersect_some m refA refB a b dt c a2 b2 h
  have e : c.normal = ((a.position + a.linearVelocity * c.timeOfImpact)
      - (b.position + b.linearVelocity * c.timeOfImpact)).Normalize m := by
    rw [hn, (Body.update_fields m a c.timeOfImpact).1, (Body.update_fields m b c.timeOfImpact).1]
  exact ⟨e, by rw [e, Vec3.normalize_reverse]⟩

/-- Witness for C8 over the reals: A and B are unit spheres at rest at (0,0,0) and (1,0,0),
`dt = 1`.  `Intersect` returns a contact at time 0 whose normal is (-1, 0, 0), while the unit
vector from A to B is (1, 0, 0). -/
theorem Intersect_normal_points_from_B_to_A_witness :
    ∃ (c : Contact ℝ) (a2 b2 : Body ℝ),
      Intersect (Libm.mk Real.sqrt Real.sin Real.cos) 0 1
        (Body.mk ⟨0, 0, 0⟩ ⟨0, 0, 0, 1⟩ ⟨0, 0, 0⟩ ⟨0, 0, 0⟩ 1 (1 / 2) (1 / 2) ⟨1⟩)
        (Body.mk ⟨1, 0, 0⟩ ⟨0, 0, 0, 1⟩ ⟨0, 0, 0⟩ ⟨0, 0, 0⟩ 1 (1 / 2) (1 / 2) ⟨1⟩) (1 : ℝ)
        = (some c, a2, b2) ∧
      c.timeOfImpact = 0 ∧
      c.normal = ⟨-1, 0, 0⟩ ∧
      (((Vec3.mk 1 0 0 : Vec3 ℝ) + (Vec3.mk 0 0 0 : Vec3 ℝ) * (0 : ℝ))
        - ((Vec3.mk 0 0 0 : Vec3 ℝ) + (Vec3.mk 0 0 0 : Vec3 ℝ) * (0 : ℝ))).Normalize
          (Libm.mk Real.sqrt Real.sin Real.cos) = ⟨1, 0, 0⟩ := by
  have hs : SphereSphereDynamic (Libm.mk Real.sqrt Real.sin Real.cos) ⟨1⟩ ⟨1⟩ ⟨0, 0, 0⟩
      ⟨1, 0, 0⟩ ⟨0, 0, 0⟩ ⟨0, 0, 0⟩ (1 : ℝ) = some (⟨1, 0, 0⟩, ⟨0, 0, 0⟩, 0) := by
    norm_num [SphereSphereDynamic, Vec3.GetLengthSqr, Vec3.Dot, Vec3.Normalize,
      Vec3.GetMagnitude]
  obtain ⟨c, a2, b2, hI, htoi⟩ := intersect_of_hit (Libm.mk Real.sqrt Real.sin Real.cos) 0 1
    (Body.mk ⟨0, 0, 0⟩ ⟨0, 0, 0, 1⟩ ⟨0, 0, 0⟩ ⟨0, 0, 0⟩ 1 (1 / 2) (1 / 2) ⟨1⟩)
    (Body.mk ⟨1, 0, 0⟩ ⟨0, 0, 0, 1⟩ ⟨0, 0, 0⟩ ⟨0, 0, 0⟩ 1 (1 / 2) (1 / 2) ⟨1⟩) (1 : ℝ)
    ⟨1, 0, 0⟩ ⟨0, 0, 0⟩ 0 hs
  have hn := (Intersect_normal_points_from_B_to_A _ 0 1 _ _ a2 b2 1 c hI).1
  refine ⟨c, a2, b2, hI, htoi, ?_, ?_⟩
  · rw [hn, htoi]
    norm_num [Vec3.Normalize, Vec3.GetMagnitude, Vec3.GetLengthSqr, Vec3.Dot]
  · norm_num [Vec3.Normalize, Vec3.GetMagnitude, Vec3.GetLengthSqr, Vec3.Dot]

/-- Exact-arithmetic form of C9, for `float` read as an ordered field (binary32 rounding,
overflow and NaN are outside it): for two sphere bodies with radius > 0 and unit orientation and every `dt`,
`Intersections::Intersect` leaves both bodies as they were, whether it returns true or
false: position, orientation, linear and angular velocity (and every other field) are those
before the call, `Update(-toi)` undoing `Update(toi)`. -/
theorem Intersect_restores_bodies (m : Libm F) (hm : m.SqrtExact) (ht : m.TrigExact)
    (refA refB : Nat) (a b : Body F) (dt : F)
    (_hra : 0 < a.shape.radius) (_hrb : 0 < b.shape.radius)
    (hqa : a.orientation.MagnitudeSquared = 1) (hqb : b.orientation.MagnitudeSquared = 1) :
    (Intersect m refA refB a b dt).2.1 = a ∧ (Intersect m refA refB a b dt).2.2 = b := by
  unfold Intersect
  simp only [ShapeSphere.GetType, and_self, if_true]
  split
  · rename_i ptA ptB toi _
    exact ⟨Body.update_undo m hm ht a toi hqa, Body.update_undo m hm ht b toi hqb⟩
  · exact ⟨rfl, rfl⟩

/-- Witness for C9 over the reals: two overlapping unit spheres with the identity
orientation, for which `Intersect` returns a contact. -/
theorem Intersect_restores_bodies_witness :
    (Libm.mk Real.sqrt Real.sin Real.cos).SqrtExact ∧
    (Libm.mk Real.sqrt Real.sin Real.cos).TrigExact ∧
    (0 : ℝ) < 1 ∧ (Quat.mk 0 0 0 1 : Quat ℝ).MagnitudeSquared = 1 ∧
    (Intersect (Libm.mk Real.sqrt Real.sin Real.cos) 0 1
        (Body.mk ⟨0, 0, 0⟩ ⟨0, 0, 0, 1⟩ ⟨0, 0, 0⟩ ⟨0, 0, 3⟩ 1 (1 / 2) (1 / 2) ⟨1⟩)
        (Body.mk ⟨1, 0, 0⟩ ⟨0, 0, 0, 1⟩ ⟨0, 0, 0⟩ ⟨0, 0, 0⟩ 1 (1 / 2) (1 / 2) ⟨1⟩)
        (1 : ℝ)).2.1
      = Body.mk ⟨0, 0, 0⟩ ⟨0, 0, 0, 1⟩ ⟨0, 0, 0⟩ ⟨0, 0, 3⟩ 1 (1 / 2) (1 / 2) ⟨1⟩ ∧
    (Intersect (Libm.mk Real.sqrt Real.sin Real.cos) 0 1
        (Body.mk ⟨0, 0, 0⟩ ⟨0, 0, 0, 1⟩ ⟨0, 0, 0⟩ ⟨0, 0, 3⟩ 1 (1 / 2) (1 / 2) ⟨1⟩)
        (Body.mk ⟨1, 0, 0⟩ ⟨0, 0, 0, 1⟩ ⟨0, 0, 0⟩ ⟨0, 0, 0⟩ 1 (1 / 2) (1 / 2) ⟨1⟩)
        (1 : ℝ)).2.2
      = Body.mk ⟨1, 0, 0⟩ ⟨0, 0, 0, 1⟩ ⟨0, 0, 0⟩ ⟨0, 0, 0⟩ 1 (1 / 2) (1 / 2) ⟨1⟩ := by
  have hq : (Quat.mk 0 0 0 1 : Quat ℝ).MagnitudeSquared = 1 := by
    norm_num [Quat.MagnitudeSquared]
  have key := Intersect_restores_bodies (Libm.mk Real.sqrt Real.sin Real.cos) real_sqrtExact
    real_trigExact 0 1
    (Body.mk ⟨0, 0, 0⟩ ⟨0, 0, 0, 1⟩ ⟨0, 0, 0⟩ ⟨0, 0, 3⟩ 1 (1 / 2) (1 / 2) ⟨1⟩)
    (Body.mk ⟨1, 0, 0⟩ ⟨0, 0, 0, 1⟩ ⟨0, 0, 0⟩ ⟨0, 0, 0⟩ 1 (1 / 2) (1 / 2) ⟨1⟩) (1 : ℝ)
    one_pos one_pos hq hq
  exact ⟨real_sqrtExact, real_trigExact, one_pos, hq, key.1, key.2⟩

end IntersectProofs

/-! ## Scene::Update and the static bodies -/

section StaticProofs

variable {F : Type} [LinearOrderedField F]

/-- `Body::Update` keeps a static body at rest where it is. -/
theorem Body.update_static (m : Libm F) (b : Body F) (p : Vec3 F) (dt : F)
    (h : b.StaticAt p) : (b.Update m dt).StaticAt p := by
  obtain ⟨hm0, hv, hw, hp⟩ := h
  obtain ⟨p1, v1, w1, i1, _, _, _⟩ := Body.update_fields m b dt
  refine ⟨by rw [i1, hm0], by rw [v1, hv], by rw [w1, hw], ?_⟩
  rw [p1, hv, ← hp, Vec3.ext_iff3]
  simp [Vec3.zero]

/-- `Body::ApplyImpulse` does nothing to a body of infinite mass. -/
theorem Body.applyImpulse_static (m : Libm F) (b : Body F) (pt impulse : Vec3 F)
    (h : b.inverseMass = 0) : b.ApplyImpulse m pt impulse = b := by
  unfold Body.ApplyImpulse
  rw [if_pos h]

/-- `Body::ApplyImpulseLinear` does nothing to a body of infinite mass. -/
theorem Body.applyImpulseLinear_static (b : Body F) (impulse : Vec3 F)
    (h : b.inverseMass = 0) : b.ApplyImpulseLinear impulse = b := by
  unfold Body.ApplyImpulseLinear
  rw [if_pos h]

/-- `Contact::ResolveContact` keeps a static body A at rest where it is. -/
theorem resolveContact_static_left (m : Libm F) (c : Contact F) (a b : Body F) (p : Vec3 F)
    (h : a.StaticAt p) : (ResolveContact m c a b).1.StaticAt p := by
  obtain ⟨hm0, hv, hw, hp⟩ := h
  unfold ResolveContact
  simp only [Body.applyImpulse_static m a _ _ hm0]
  split
  · refine ⟨hm0, hv, hw, ?_⟩
    rw [← hp, Vec3.ext_iff3]
    simp [hm0]
  · exact ⟨hm0, hv, hw, hp⟩

/-- `Contact::ResolveContact` keeps a static body B at rest where it is. -/
theorem resolveContact_static_right (m : Libm F) (c : Contact F) (a b : Body F) (p : Vec3 F)
    (h : b.StaticAt p) : (ResolveContact m c a b).2.StaticAt p := by
  obtain ⟨hm0, hv, hw, hp⟩ := h
  unfold ResolveContact
  simp only [Body.applyImpulse_static m b _ _ hm0]
  split
  · refine ⟨hm0, hv, hw, ?_⟩
    rw [← hp, Vec3.ext_iff3]
    simp [hm0]
  · exact ⟨hm0, hv, hw, hp⟩

/-- `Intersections::Intersect` keeps static bodies at rest where they are. -/
theorem intersect_static (m : Libm F) (refA refB : Nat) (a b : Body F) (dt : F) (p : Vec3 F) :
    (a.StaticAt p → (Intersect m refA refB a b dt).2.1.StaticAt p) ∧
    (b.StaticAt p → (Intersect m refA refB a b dt).2.2.StaticAt p) := by
  unfold Intersect
  simp only [ShapeSphere.GetType, and_self, if_true]
  split
  · exact ⟨fun h => Body.update_static m _ p _ (Body.update_static m _ p _ h),
      fun h => Body.update_static m _ p _ (Body.update_static m _ p _ h)⟩
  · exact ⟨id, id⟩

/-- Mapping a function that keeps static bodies in place over the array keeps the body at
index `k` in place. -/
theorem staticAtIndex_map (f : Body F → Body F) (bodies : List (Body F)) (k : Nat)
    (p : Vec3 F) (hf : ∀ b : Body F, b.StaticAt p → (f b).StaticAt p)
    (h : StaticAtIndex bodies k p) : StaticAtIndex (bodies.map f) k p := by
  obtain ⟨b, hb, hs⟩ := h
  exact ⟨f b, by simp [hb], hf b hs⟩

/-- Writing back two bodies keeps the body at index `k` in place when each written body
that lands at `k` is a static body at rest at `p`. -/
theorem staticAtIndex_storePair (bodies : List (Body F)) (ia ib k : Nat) (a b : Body F)
    (p : Vec3 F) (h : StaticAtIndex bodies k p)
    (ha : ia = k → a.StaticAt p) (hb : ib = k → b.StaticAt p) :
    StaticAtIndex (storePair bodies ia ib a b) k p := by
  obtain ⟨c, hc, hs⟩ := h
  have hk : k < bodies.length := by
    rcases Nat.lt_or_ge k bodies.length with h | h
    · exact h
    · rw [List.getElem?_eq_none h] at hc
      exact absurd hc (by simp)
  unfold storePair StaticAtIndex
  by_cases hib : ib = k
  · subst hib
    exact ⟨b, by rw [List.getElem?_set_self (by simpa using hk)], hb rfl⟩
  · rw [List.getElem?_set_ne hib]
    by_cases hia : ia = k
    · subst hia
      exact ⟨a, by rw [List.getElem?_set_self hk], ha rfl⟩
    · rw [List.getElem?_set_ne hia]
      exact ⟨c, hc, hs⟩

/-- One iteration of the narrow-phase loop keeps the static body at index `k` in place. -/
theorem narrowPhaseStep_static (m : Libm F) (dt : F) (st : List (Body F) × List (Contact F))
    (pair : CollisionPair) (k : Nat) (p : Vec3 F) (h : StaticAtIndex st.1 k p) :
    StaticAtIndex (narrowPhaseStep m dt st pair).1 k p := by
  unfold narrowPhaseStep
  split
  · rename_i bodyA bodyB hA hB
    split
    · exact h
    · have hI := intersect_static m pair.a.toNat pair.b.toNat bodyA bodyB dt p
      have hsa : pair.a.toNat = k → bodyA.StaticAt p := by
        intro e
        obtain ⟨c, hc, hs⟩ := h
        rw [e, hc] at hA
        simp only [Option.some.injEq] at hA
        exact hA ▸ hs
      have hsb : pair.b.toNat = k → bodyB.StaticAt p := by
        intro e
        obtain ⟨c, hc, hs⟩ := h
        rw [e, hc] at hB
        simp only [Option.some.injEq] at hB
        exact hB ▸ hs
      split
      · rename_i contact a b hres
        rw [hres] at hI
        exact staticAtIndex_storePair _ _ _ _ _ _ _ h (fun e => hI.1 (hsa e))
          (fun e => hI.2 (hsb e))
      · rename_i a b hres
        rw [hres] at hI
        exact staticAtIndex_storePair _ _ _ _ _ _ _ h (fun e => hI.1 (hsa e))
          (fun e => hI.2 (hsb e))
  · exact h

/-- The narrow-phase loop keeps the static body at index `k` in place. -/
theorem narrowPhase_static (m : Libm F) (dt : F) (bodies : List (Body F))
    (pairs : List CollisionPair) (k : Nat) (p : Vec3 F) (h : StaticAtIndex bodies k p) :
    StaticAtIndex (narrowPhase m dt bodies pairs).1 k p := by
  unfold narrowPhase
  have key : ∀ (l : List CollisionPair) (st : List (Body F) × List (Contact F)),
      StaticAtIndex st.1 k p → StaticAtIndex (l.foldl (narrowPhaseStep m dt) st).1 k p := by
    intro l
    induction l with
    | nil => intro st hst; exact hst
    | cons x rest ih =>
      intro st hst
      exact ih _ (narrowPhaseStep_static m dt st x k p hst)
  exact key pairs (bodies, []) h

/-- One iteration of the contact loop keeps the static body at index `k` in place. -/
theorem resolveStep_static (m : Libm F) (st : List (Body F) × F) (contact : Contact F)
    (k : Nat) (p : Vec3 F) (h : StaticAtIndex st.1 k p) :
    StaticAtIndex (resolveStep m st contact).1 k p := by
  unfold resolveStep
  simp only []
  split
  · split
    · exact h
    · have hmap := staticAtIndex_map (fun body => body.Update m (contact.timeOfImpact - st.2))
        st.1 k p (fun b hb => Body.update_static m b p _ hb) h
      split
      · rename_i a b hA hB
        apply staticAtIndex_storePair _ _ _ _ _ _ _ hmap
        · intro e
          obtain ⟨c, hc, hs⟩ := hmap
          rw [e, hc] at hA
          simp only [Option.some.injEq] at hA
          exact resolveContact_static_left m contact a b p (hA ▸ hs)
        · intro e
          obtain ⟨c, hc, hs⟩ := hmap
          rw [e, hc] at hB
          simp only [Option.some.injEq] at hB
          exact resolveContact_static_right m contact a b p (hB ▸ hs)
      · exact hmap
  · exact h

/-- The contact loop keeps the static body at index `k` in place. -/
theorem resolveLoop_static (m : Libm F) (contacts : List (Contact F))
    (st : List (Body F) × F) (k : Nat) (p : Vec3 F) (h : StaticAtIndex st.1 k p) :
    StaticAtIndex (contacts.foldl (resolveStep m) st).1 k p := by
  induction contacts generalizing st with
  | nil => exact h
  | cons x rest ih => exact ih _ (resolveStep_static m st x k p h)

/-- Exact-arithmetic form of C10, for `float` read as an ordered field (binary32 rounding,
overflow and NaN are outside it): for every scene of sphere bodies and every `dt > 0`, a body with `inverseMass = 0`
whose linear and angular velocity are zero before `Scene::Update` has zero linear velocity,
zero angular velocity and the same position after `Scene::Update`, whatever contacts it takes
part in. -/
theorem static_bodies_immovable (m : Libm F) (s : Scene F) (dt : F) (_hdt : 0 < dt)
    (k : Nat) (b : Body F) (hb : s.bodies[k]? = some b) (hmass : b.inverseMass = 0)
    (hv : b.linearVelocity = Vec3.zero) (hw : b.angularVelocity = Vec3.zero) :
    ∃ b2 : Body F, (Scene.Update m s dt).bodies[k]? = some b2 ∧
      b2.linearVelocity = Vec3.zero ∧ b2.angularVelocity = Vec3.zero ∧
      b2.position = b.position ∧ b2.inverseMass = 0 := by
  have h0 : StaticAtIndex s.bodies k b.position := ⟨b, hb, hmass, hv, hw, rfl⟩
  have h1 : StaticAtIndex (applyGravity s.bodies dt) k b.position := by
    unfold applyGravity
    apply staticAtIndex_map _ _ _ _ _ h0
    intro c hc
    simp only []
    rw [Body.applyImpulseLinear_static c _ hc.1]
    exact hc
  have h2 := narrowPhase_static m dt _ (BroadPhase m (applyGravity s.bodies dt) dt) k
    b.position h1
  have h3 := resolveLoop_static m
    (sortContacts (narrowPhase m dt (applyGravity s.bodies dt)
      (BroadPhase m (applyGravity s.bodies dt) dt)).2)
    ((narrowPhase m dt (applyGravity s.bodies dt)
      (BroadPhase m (applyGravity s.bodies dt) dt)).1, (0 : F)) k b.position h2
  have h4 : StaticAtIndex (Scene.Update m s dt).bodies k b.position := by
    unfold Scene.Update
    simp only []
    split
    · exact staticAtIndex_map _ _ _ _ (fun c hc => Body.update_static m c _ _ hc) h3
    · exact h3
  obtain ⟨b2, hb2, hm2, hv2, hw2, hp2⟩ := h4
  exact ⟨b2, hb2, hv2, hw2, hp2, hm2⟩

/-- Witness for C10 over the reals: a unit sphere resting on the static earth sphere of
radius 6000, stepped by `dt = 1/60`; the earth (index 1) stays at rest at (0, 0, -6000). -/
theorem static_bodies_immovable_witness :
    (0 : ℝ) < 1 / 60 ∧
    ∃ b2 : Body ℝ,
      (Scene.Update (Libm.mk Real.sqrt Real.sin Real.cos)
        (Scene.mk
          [Body.mk ⟨0, 0, 1⟩ ⟨0, 0, 0, 1⟩ ⟨0, 0, -1⟩ ⟨0, 0, 0⟩ 1 (1 / 2) (1 / 2) ⟨1⟩,
           Body.mk ⟨0, 0, -6000⟩ ⟨0, 0, 0, 1⟩ ⟨0, 0, 0⟩ ⟨0, 0, 0⟩ 0 1 (1 / 2) ⟨6000⟩])
        (1 / 60 : ℝ)).bodies[1]? = some b2 ∧
      b2.linearVelocity = Vec3.zero ∧ b2.angularVelocity = Vec3.zero ∧
      b2.position = ⟨0, 0, -6000⟩ ∧ b2.inverseMass = 0 :=
  ⟨by norm_num,
    static_bodies_immovable (Libm.mk Real.sqrt Real.sin Real.cos)
      (Scene.mk
        [Body.mk ⟨0, 0, 1⟩ ⟨0, 0, 0, 1⟩ ⟨0, 0, -1⟩ ⟨0, 0, 0⟩ 1 (1 / 2) (1 / 2) ⟨1⟩,
         Body.mk ⟨0, 0, -6000⟩ ⟨0, 0, 0, 1⟩ ⟨0, 0, 0⟩ ⟨0, 0, 0⟩ 0 1 (1 / 2) ⟨6000⟩])
      (1 / 60 : ℝ) (by norm_num) 1
      (Body.mk ⟨0, 0, -6000⟩ ⟨0, 0, 0, 1⟩ ⟨0, 0, 0⟩ ⟨0, 0, 0⟩ 0 1 (1 / 2) ⟨6000⟩)
      (by simp) rfl rfl rfl⟩

end StaticProofs

/-! ## CollisionPair equality -/

section PairProofs

/-- C20: `CollisionPair` equality is unordered: `{a, b} == {b, a}` for all indices; `p == q`
holds exactly when `p` and `q` hold the same two indices in either order; and `p != q` is
the negation of `p == q`. -/
theorem CollisionPair_eq_unordered :
    (∀ a b : Int, (CollisionPair.mk a b).eq (CollisionPair.mk b a) = true) ∧
    (∀ p q : CollisionPair,
      p.eq q = true ↔ (p.a = q.a ∧ p.b = q.b) ∨ (p.a = q.b ∧ p.b = q.a)) ∧
    (∀ p q : CollisionPair, p.ne q = !(p.eq q)) ∧
    (∀ p q : CollisionPair, p.ne q = true ↔ ¬ (p.eq q = true)) := by
  refine ⟨?_, ?_, ?_, ?_⟩
  · intro a b
    simp [CollisionPair.eq]
  · intro p q
    simp [CollisionPair.eq]
  · intro p q
    rfl
  · intro p q
    simp [CollisionPair.ne]

end PairProofs

/-! ## Body: the impulse methods -/

section ImpulseProofs

variable {F : Type} [LinearOrderedField F]

/-- `Body::ApplyImpulseAngular` does nothing to a body of infinite mass. -/
theorem Body.applyImpulseAngular_static (m : Libm F) (b : Body F) (impulse : Vec3 F)
    (h : b.inverseMass = 0) : b.ApplyImpulseAngular m impulse = b := by
  unfold Body.ApplyImpulseAngular
  rw [if_pos h]

/-- C13: for a body with `inverseMass = 0`, every impulse and every application point,
`Body::ApplyImpulse`, `Body::ApplyImpulseLinear` and `Body::ApplyImpulseAngular` each leave
the body as it is: position, orientation, linear and angular velocity and every other field
are unchanged. -/
theorem impulse_on_static_body_is_noop (m : Libm F) (b : Body F) (impulsePoint impulse : Vec3 F)
    (h : b.inverseMass = 0) :
    b.ApplyImpulse m impulsePoint impulse = b ∧
    b.ApplyImpulseLinear impulse = b ∧
    b.ApplyImpulseAngular m impulse = b := by
  refine ⟨?_, ?_, ?_⟩
  · unfold Body.ApplyImpulse
    rw [if_pos h]
  · unfold Body.ApplyImpulseLinear
    rw [if_pos h]
  · unfold Body.ApplyImpulseAngular
    rw [if_pos h]

/-- Witness for C13 over the reals: the static earth sphere of the default scene, with an
impulse (1, 2, 3) applied at (0, 0, 0). -/
theorem impulse_on_static_body_is_noop_witness :
    (Body.mk ⟨0, 0, -6000⟩ ⟨0, 0, 0, 1⟩ ⟨0, 0, 0⟩ ⟨0, 0, 0⟩ (0 : ℝ) 1 (1 / 2) ⟨6000⟩).inverseMass
      = 0 ∧
    (Body.mk ⟨0, 0, -6000⟩ ⟨0, 0, 0, 1⟩ ⟨0, 0, 0⟩ ⟨0, 0, 0⟩ (0 : ℝ) 1 (1 / 2) ⟨6000⟩).ApplyImpulse
        (Libm.mk Real.sqrt Real.sin Real.cos) ⟨0, 0, 0⟩ ⟨1, 2, 3⟩
      = Body.mk ⟨0, 0, -6000⟩ ⟨0, 0, 0, 1⟩ ⟨0, 0, 0⟩ ⟨0, 0, 0⟩ (0 : ℝ) 1 (1 / 2) ⟨6000⟩ ∧
    (Body.mk ⟨0, 0, -6000⟩ ⟨0, 0, 0, 1⟩ ⟨0, 0, 0⟩ ⟨0, 0, 0⟩ (0 : ℝ) 1 (1 / 2)
        ⟨6000⟩).ApplyImpulseLinear ⟨1, 2, 3⟩
      = Body.mk ⟨0, 0, -6000⟩ ⟨0, 0, 0, 1⟩ ⟨0, 0, 0⟩ ⟨0, 0, 0⟩ (0 : ℝ) 1 (1 / 2) ⟨6000⟩ ∧
    (Body.mk ⟨0, 0, -6000⟩ ⟨0, 0, 0, 1⟩ ⟨0, 0, 0⟩ ⟨0, 0, 0⟩ (0 : ℝ) 1 (1 / 2)
        ⟨6000⟩).ApplyImpulseAngular (Libm.mk Real.sqrt Real.sin Real.cos) ⟨1, 2, 3⟩
      = Body.mk ⟨0, 0, -6000⟩ ⟨0, 0, 0, 1⟩ ⟨0, 0, 0⟩ ⟨0, 0, 0⟩ (0 : ℝ) 1 (1 / 2) ⟨6000⟩ :=
  ⟨rfl,
    impulse_on_static_body_is_noop (Libm.mk Real.sqrt Real.sin Real.cos)
      (Body.mk ⟨0, 0, -6000⟩ ⟨0, 0, 0, 1⟩ ⟨0, 0, 0⟩ ⟨0, 0, 0⟩ (0 : ℝ) 1 (1 / 2) ⟨6000⟩)
      ⟨0, 0, 0⟩ ⟨1, 2, 3⟩ rfl⟩

/-- C14: for a body with `inverseMass ≠ 0` and every impulse `J`, `Body::ApplyImpulseLinear`
sets `linearVelocity` to `linearVelocity + J * inverseMass` and changes no other field:
position, orientation, angular velocity, inverse mass, elasticity, friction and shape are
those of the body before the call. -/
theorem ApplyImpulseLinear_dynamic (b : Body F) (impulse : Vec3 F) (h : b.inverseMass ≠ 0) :
    (b.ApplyImpulseLinear impulse).linearVelocity
      = b.linearVelocity + impulse * b.inverseMass ∧
    (b.ApplyImpulseLinear impulse).position = b.position ∧
    (b.ApplyImpulseLinear impulse).orientation = b.orientation ∧
    (b.ApplyImpulseLinear impulse).angularVelocity = b.angularVelocity ∧
    (b.ApplyImpulseLinear impulse).inverseMass = b.inverseMass ∧
    (b.ApplyImpulseLinear impulse).elasticity = b.elasticity ∧
    (b.ApplyImpulseLinear impulse).friction = b.friction ∧
    (b.ApplyImpulseLinear impulse).shape = b.shape := by
  unfold Body.ApplyImpulseLinear
  rw [if_neg h]
  exact ⟨rfl, rfl, rfl, rfl, rfl, rfl, rfl, rfl⟩

/-- Witness for C14 over the reals: a body of inverse mass 2 moving at (1, 0, 0) takes the
impulse (1, 2, 3) and moves at (3, 4, 6). -/
theorem ApplyImpulseLinear_dynamic_witness :
    (2 : ℝ) ≠ 0 ∧
    ((Body.mk ⟨0, 0, 10⟩ ⟨0, 0, 0, 1⟩ ⟨1, 0, 0⟩ ⟨0, 0, 0⟩ (2 : ℝ) (1 / 2) (1 / 2)
        ⟨1⟩).ApplyImpulseLinear ⟨1, 2, 3⟩).linearVelocity = ⟨3, 4, 6⟩ := by
  have h := (ApplyImpulseLinear_dynamic
    (Body.mk ⟨0, 0, 10⟩ ⟨0, 0, 0, 1⟩ ⟨1, 0, 0⟩ ⟨0, 0, 0⟩ (2 : ℝ) (1 / 2) (1 / 2) ⟨1⟩)
    ⟨1, 2, 3⟩ (by norm_num)).1
  refine ⟨by norm_num, ?_⟩
  rw [h]
  norm_num

/-- An angular velocity above the limit, once normalized and scaled by 30, has length
exactly 30. -/
theorem clamp_lengthSqr (m : Libm F) (hm : m.SqrtExact) (w : Vec3 F)
    (h : w.GetLengthSqr > 30 * 30) : (w.Normalize m * (30 : F)).GetLengthSqr = 30 * 30 := by
  obtain ⟨_, h1⟩ := hm w.GetLengthSqr (Vec3.lengthSqr_nonneg w)
  have hs : m.sqrtf w.GetLengthSqr ≠ 0 := by
    intro hz
    rw [hz] at h1
    rw [← h1] at h
    norm_num at h
  have e : w.x * w.x + w.y * w.y + w.z * w.z
      = m.sqrtf w.GetLengthSqr * m.sqrtf w.GetLengthSqr := by
    rw [h1]; rfl
  simp only [Vec3.Normalize, Vec3.GetMagnitude, Vec3.scale_x, Vec3.scale_y, Vec3.scale_z]
  generalize m.sqrtf w.GetLengthSqr = s at hs e
  simp only [Vec3.GetLengthSqr, Vec3.Dot, Vec3.scale_x, Vec3.scale_y, Vec3.scale_z]
  field_simp
  linear_combination 900 * e

/-- What `Body::ApplyImpulseAngular` does to a dynamic body, in the terms of the source:
the test is on the squared length. -/
theorem Body.applyImpulseAngular_dynamic (m : Libm F) (b : Body F) (impulse : Vec3 F)
    (h : b.inverseMass ≠ 0) :
    b.ApplyImpulseAngular m impulse =
      if (b.angularVelocity + b.GetInverseInertiaTensorWorldSpace * impulse).GetLengthSqr
          > 30 * 30 then
        { b with angularVelocity :=
            (b.angularVelocity + b.GetInverseInertiaTensorWorldSpace * impulse).Normalize m
              * (30 : F) }
      else
        { b with angularVelocity :=
            b.angularVelocity + b.GetInverseInertiaTensorWorldSpace * impulse } := by
  unfold Body.ApplyImpulseAngular
  rw [if_neg h]

/-- After `Body::ApplyImpulseAngular` the squared angular speed is at most `30²`, provided
it was so before when the body is static. -/
theorem Body.applyImpulseAngular_bound (m : Libm F) (hm : m.SqrtExact) (b : Body F)
    (impulse : Vec3 F) (h : b.angularVelocity.GetLengthSqr ≤ 30 * 30) :
    (b.ApplyImpulseAngular m impulse).angularVelocity.GetLengthSqr ≤ 30 * 30 := by
  by_cases hs : b.inverseMass = 0
  · rw [Body.applyImpulseAngular_static m b impulse hs]
    exact h
  · rw [Body.applyImpulseAngular_dynamic m b impulse hs]
    split
    · rename_i hgt
      exact le_of_eq (clamp_lengthSqr m hm _ hgt)
    · rename_i hle
      exact not_lt.mp hle

/-- Exact-arithmetic form of C12, for `float` read as an ordered field (binary32 rounding,
overflow and NaN are outside it): for a dynamic body (`inverseMass ≠ 0`) and every angular impulse, with
`w = angularVelocity + GetInverseInertiaTensorWorldSpace() * impulse`,
`Body::ApplyImpulseAngular` sets the angular velocity to `w` when `‖w‖ ≤ 30` and to
`w * (30 / ‖w‖)` when `‖w‖ > 30`, changing no other field; hence the angular speed is at
most 30 after the call, whatever it was before. -/
theorem ApplyImpulseAngular_clamps (m : Libm F) (hm : m.SqrtExact) (b : Body F)
    (impulse : Vec3 F) (h : b.inverseMass ≠ 0) :
    ((b.angularVelocity + b.GetInverseInertiaTensorWorldSpace * impulse).GetMagnitude m ≤ 30 →
      b.ApplyImpulseAngular m impulse =
        { b with angularVelocity :=
            b.angularVelocity + b.GetInverseInertiaTensorWorldSpace * impulse }) ∧
    (30 < (b.angularVelocity + b.GetInverseInertiaTensorWorldSpace * impulse).GetMagnitude m →
      b.ApplyImpulseAngular m impulse =
        { b with angularVelocity :=
            (b.angularVelocity + b.GetInverseInertiaTensorWorldSpace * impulse)
              * (30 / (b.angularVelocity
                  + b.GetInverseInertiaTensorWorldSpace * impulse).GetMagnitude m) }) ∧
    (b.ApplyImpulseAngular m impulse).angularVelocity.GetMagnitude m ≤ 30 := by
  have hiff := Vec3.magnitude_le_iff m hm
    (b.angularVelocity + b.GetInverseInertiaTensorWorldSpace * impulse) 30 (by norm_num)
  rw [Body.applyImpulseAngular_dynamic m b impulse h]
  refine ⟨?_, ?_, ?_⟩
  · intro hle
    rw [if_neg (not_lt.mpr (hiff.mp hle))]
  · intro hgt
    have hgt2 : (b.angularVelocity + b.GetInverseInertiaTensorWorldSpace * impulse).GetLengthSqr
        > 30 * 30 := by
      by_contra hc
      exact absurd (hiff.mpr (not_lt.mp hc)) (not_le.mpr hgt)
    rw [if_pos hgt2]
    have e : (b.angularVelocity + b.GetInverseInertiaTensorWorldSpace * impulse).Normalize m
          * (30 : F)
        = (b.angularVelocity + b.GetInverseInertiaTensorWorldSpace * impulse)
          * (30 / (b.angularVelocity
              + b.GetInverseInertiaTensorWorldSpace * impulse).GetMagnitude m) := by
      rw [Vec3.ext_iff3]
      simp only [Vec3.Normalize, Vec3.scale_x, Vec3.scale_y, Vec3.scale_z]
      refine ⟨?_, ?_, ?_⟩ <;> ring
    rw [e]
  · rw [Vec3.magnitude_le_iff m hm _ 30 (by norm_num)]
    split
    · rename_i hgt
      exact le_of_eq (clamp_lengthSqr m hm _ hgt)
    · rename_i hle
      exact not_lt.mp hle

/-- Witness for C12 over the reals: a unit sphere of inverse mass 1 spinning at 40 rad/s
about the z axis takes the angular impulse (0, 0, 5); its angular speed is at most 30
afterwards. -/
theorem ApplyImpulseAngular_clamps_witness :
    (Libm.mk Real.sqrt Real.sin Real.cos).SqrtExact ∧ (1 : ℝ) ≠ 0 ∧
    ((Body.mk ⟨0, 0, 10⟩ ⟨0, 0, 0, 1⟩ ⟨0, 0, 0⟩ ⟨0, 0, 40⟩ (1 : ℝ) (1 / 2) (1 / 2)
        ⟨1⟩).ApplyImpulseAngular (Libm.mk Real.sqrt Real.sin Real.cos)
        ⟨0, 0, 5⟩).angularVelocity.GetMagnitude (Libm.mk Real.sqrt Real.sin Real.cos) ≤ 30 :=
  ⟨real_sqrtExact, one_ne_zero,
    (ApplyImpulseAngular_clamps (Libm.mk Real.sqrt Real.sin Real.cos) real_sqrtExact
      (Body.mk ⟨0, 0, 10⟩ ⟨0, 0, 0, 1⟩ ⟨0, 0, 0⟩ ⟨0, 0, 40⟩ (1 : ℝ) (1 / 2) (1 / 2) ⟨1⟩)
      ⟨0, 0, 5⟩ one_ne_zero).2.2⟩

end ImpulseProofs

/-! ## Body: body space and world space -/

section FrameProofs

variable {F : Type} [LinearOrderedField F]

/-- The inverse of a unit quaternion is its conjugate. -/
theorem Quat.inverse_unit (q : Quat F) (hq : q.MagnitudeSquared = 1) :
    q.Inverse = ⟨-q.x, -q.y, -q.z, q.w⟩ := by
  rw [Quat.ext_iff4]
  simp [Quat.Inverse, hq]

/-- The conjugate of a unit quaternion is a unit quaternion whose inverse is the
quaternion. -/
theorem Quat.inverse_conj_unit (q : Quat F) (hq : q.MagnitudeSquared = 1) :
    (⟨-q.x, -q.y, -q.z, q.w⟩ : Quat F).Inverse = q := by
  have hc : (⟨-q.x, -q.y, -q.z, q.w⟩ : Quat F).MagnitudeSquared = 1 := by
    unfold Quat.MagnitudeSquared at hq ⊢
    simp only [neg_mul_neg]
    exact hq
  rw [Quat.ext_iff4]
  simp [Quat.Inverse, hc]

/-- For a unit quaternion, rotating by the inverse undoes the rotation, and the rotation
undoes rotating by the inverse. -/
theorem Quat.rotate_inverse_cancel (q : Quat F) (hq : q.MagnitudeSquared = 1) (p : Vec3 F) :
    q.Inverse.RotatePoint (q.RotatePoint p) = p ∧
    q.RotatePoint (q.Inverse.RotatePoint p) = p := by
  rw [Quat.inverse_unit q hq]
  unfold Quat.MagnitudeSquared at hq
  constructor
  · rw [Vec3.ext_iff3]
    simp only [Quat.RotatePoint, Quat.inverse_conj_unit q hq, Quat.inverse_unit q hq,
      Quat.mul_x, Quat.mul_y, Quat.mul_z, Quat.mul_w]
    refine ⟨?_, ?_, ?_⟩
    · linear_combination
        (p.x * (q.x * q.x + q.y * q.y + q.z * q.z + q.w * q.w + 1)) * hq
    · linear_combination
        (p.y * (q.x * q.x + q.y * q.y + q.z * q.z + q.w * q.w + 1)) * hq
    · linear_combination
        (p.z * (q.x * q.x + q.y * q.y + q.z * q.z + q.w * q.w + 1)) * hq
  · rw [Vec3.ext_iff3]
    simp only [Quat.RotatePoint, Quat.inverse_conj_unit q hq, Quat.inverse_unit q hq,
      Quat.mul_x, Quat.mul_y, Quat.mul_z, Quat.mul_w]
    refine ⟨?_, ?_, ?_⟩
    · linear_combination
        (p.x * (q.x * q.x + q.y * q.y + q.z * q.z + q.w * q.w + 1)) * hq
    · linear_combination
        (p.y * (q.x * q.x + q.y * q.y + q.z * q.z + q.w * q.w + 1)) * hq
    · linear_combination
        (p.z * (q.x * q.x + q.y * q.y + q.z * q.z + q.w * q.w + 1)) * hq

/-- Exact-arithmetic form of C15, for `float` read as an ordered field (binary32 rounding,
overflow and NaN are outside it): for a body with a unit orientation quaternion and every point `p`,
`WorldSpaceToBodySpace(BodySpaceToWorldSpace(p)) = p` and
`BodySpaceToWorldSpace(WorldSpaceToBodySpace(p)) = p`. -/
theorem body_world_roundtrip (b : Body F) (p : Vec3 F)
    (hq : b.orientation.MagnitudeSquared = 1) :
    b.WorldSpaceToBodySpace (b.BodySpaceToWorldSpace p) = p ∧
    b.BodySpaceToWorldSpace (b.WorldSpaceToBodySpace p) = p := by
  have h1 := (Quat.rotate_inverse_cancel b.orientation hq p).1
  have h2 := (Quat.rotate_inverse_cancel b.orientation hq (p - b.position)).2
  unfold Body.WorldSpaceToBodySpace Body.BodySpaceToWorldSpace
  simp only [Body.centerOfMass_eq]
  constructor
  · have e : b.position + b.orientation.RotatePoint p - b.position
        = b.orientation.RotatePoint p := by
      rw [Vec3.ext_iff3]; simp
    rw [e, h1]
  · rw [h2, Vec3.ext_iff3]
    simp

/-- Witness for C15 over the reals: a body at (1, 2, 3) turned by the unit quaternion
(3/5, 0, 0, 4/5), and the point (1, 1, 1). -/
theorem body_world_roundtrip_witness :
    (Quat.mk (3 / 5) 0 0 (4 / 5) : Quat ℝ).MagnitudeSquared = 1 ∧
    (Body.mk ⟨1, 2, 3⟩ ⟨3 / 5, 0, 0, 4 / 5⟩ ⟨0, 0, 0⟩ ⟨0, 0, 0⟩ (1 : ℝ) (1 / 2) (1 / 2)
        ⟨1⟩).WorldSpaceToBodySpace
      ((Body.mk ⟨1, 2, 3⟩ ⟨3 / 5, 0, 0, 4 / 5⟩ ⟨0, 0, 0⟩ ⟨0, 0, 0⟩ (1 : ℝ) (1 / 2) (1 / 2)
        ⟨1⟩).BodySpaceToWorldSpace ⟨1, 1, 1⟩) = ⟨1, 1, 1⟩ ∧
    (Body.mk ⟨1, 2, 3⟩ ⟨3 / 5, 0, 0, 4 / 5⟩ ⟨0, 0, 0⟩ ⟨0, 0, 0⟩ (1 : ℝ) (1 / 2) (1 / 2)
        ⟨1⟩).BodySpaceToWorldSpace
      ((Body.mk ⟨1, 2, 3⟩ ⟨3 / 5, 0, 0, 4 / 5⟩ ⟨0, 0, 0⟩ ⟨0, 0, 0⟩ (1 : ℝ) (1 / 2) (1 / 2)
        ⟨1⟩).WorldSpaceToBodySpace ⟨1, 1, 1⟩) = ⟨1, 1, 1⟩ := by
  have hq : (Quat.mk (3 / 5) 0 0 (4 / 5) : Quat ℝ).MagnitudeSquared = 1 := by
    norm_num [Quat.MagnitudeSquared]
  exact ⟨hq, body_world_roundtrip
    (Body.mk ⟨1, 2, 3⟩ ⟨3 / 5, 0, 0, 4 / 5⟩ ⟨0, 0, 0⟩ ⟨0, 0, 0⟩ (1 : ℝ) (1 / 2) (1 / 2) ⟨1⟩)
    ⟨1, 1, 1⟩ hq⟩

end FrameProofs

/-! ## Scene::Update: the gravity phase -/

section GravityProofs

variable {F : Type} [LinearOrderedField F]

/-- What the gravity loop of `Scene::Update` does to one body: a dynamic body gains the
velocity `(0, 0, -10 dt)`, a static body is left as it is. -/
theorem gravity_on_body (b : Body F) (dt : F) :
    b.ApplyImpulseLinear ((Vec3.mk 0 0 (-10) : Vec3 F) * (1 / b.inverseMass) * dt)
      = if b.inverseMass = 0 then b
        else { b with linearVelocity := b.linearVelocity + ⟨0, 0, -10 * dt⟩ } := by
  unfold Body.ApplyImpulseLinear
  split
  · rfl
  · rename_i h
    have e : (Vec3.mk 0 0 (-10) : Vec3 F) * (1 / b.inverseMass) * dt * b.inverseMass
        = ⟨0, 0, -10 * dt⟩ := by
      rw [Vec3.ext_iff3]
      simp only [Vec3.scale_x, Vec3.scale_y, Vec3.scale_z]
      refine ⟨by ring, by ring, ?_⟩
      field_simp
    rw [e]

/-- Exact-arithmetic form of C17, for `float` read as an ordered field (binary32 rounding,
overflow and NaN are outside it): the gravity phase of `Scene::Update` changes the linear velocity of every dynamic
body (`inverseMass ≠ 0`, in particular `inverseMass > 0`) by exactly `(0, 0, -10 dt_sec)`,
whatever the mass, leaves the linear velocity of a static body as it is, and changes no
other field of any body nor the number of bodies. -/
theorem gravity_phase (bodies : List (Body F)) (dt : F) (k : Nat) (b : Body F)
    (hb : bodies[k]? = some b) :
    ∃ b2 : Body F, (applyGravity bodies dt)[k]? = some b2 ∧
      (b.inverseMass ≠ 0 → b2.linearVelocity = b.linearVelocity + ⟨0, 0, -10 * dt⟩) ∧
      (b.inverseMass = 0 → b2.linearVelocity = b.linearVelocity) ∧
      b2.position = b.position ∧ b2.orientation = b.orientation ∧
      b2.angularVelocity = b.angularVelocity ∧ b2.inverseMass = b.inverseMass ∧
      b2.elasticity = b.elasticity ∧ b2.friction = b.friction ∧ b2.shape = b.shape ∧
      (applyGravity bodies dt).length = bodies.length := by
  refine ⟨b.ApplyImpulseLinear ((Vec3.mk 0 0 (-10) : Vec3 F) * (1 / b.inverseMass) * dt),
    ?_, ?_⟩
  · unfold applyGravity
    simp [hb]
  · rw [gravity_on_body]
    by_cases h : b.inverseMass = 0
    · rw [if_pos h]
      refine ⟨fun hn => absurd h hn, fun _ => rfl, rfl, rfl, rfl, rfl, rfl, rfl, rfl, ?_⟩
      simp [applyGravity]
    · rw [if_neg h]
      refine ⟨fun _ => rfl, fun hz => absurd hz h, rfl, rfl, rfl, rfl, rfl, rfl, rfl, ?_⟩
      simp [applyGravity]

/-- Witness for C17 over the reals: the default scene stepped by `dt = 1/60`; the dynamic
sphere (index 0, inverse mass 1, at rest) leaves the gravity phase with velocity
(0, 0, -1/6). -/
theorem gravity_phase_witness :
    ∃ b2 : Body ℝ,
      (applyGravity
        [Body.mk ⟨0, 0, 10⟩ ⟨0, 0, 0, 1⟩ ⟨0, 0, 0⟩ ⟨0, 0, 0⟩ (1 : ℝ) (1 / 2) (1 / 2) ⟨1⟩,
         Body.mk ⟨0, 0, -6000⟩ ⟨0, 0, 0, 1⟩ ⟨0, 0, 0⟩ ⟨0, 0, 0⟩ 0 1 (1 / 2) ⟨6000⟩]
        (1 / 60 : ℝ))[0]? = some b2 ∧
      b2.linearVelocity = ⟨0, 0, -(1 / 6)⟩ ∧ b2.position = ⟨0, 0, 10⟩ := by
  obtain ⟨b2, h1, h2, _, h3, _⟩ := gravity_phase
    [Body.mk ⟨0, 0, 10⟩ ⟨0, 0, 0, 1⟩ ⟨0, 0, 0⟩ ⟨0, 0, 0⟩ (1 : ℝ) (1 / 2) (1 / 2) ⟨1⟩,
     Body.mk ⟨0, 0, -6000⟩ ⟨0, 0, 0, 1⟩ ⟨0, 0, 0⟩ ⟨0, 0, 0⟩ 0 1 (1 / 2) ⟨6000⟩]
    (1 / 60 : ℝ) 0
    (Body.mk ⟨0, 0, 10⟩ ⟨0, 0, 0, 1⟩ ⟨0, 0, 0⟩ ⟨0, 0, 0⟩ (1 : ℝ) (1 / 2) (1 / 2) ⟨1⟩)
    (by simp)
  refine ⟨b2, h1, ?_, h3⟩
  rw [h2 (by norm_num)]
  norm_num

end GravityProofs

/-! ## Contact::ResolveContact: head-on elastic collision -/

section HeadOnProofs

variable {F : Type} [LinearOrderedField F]

/-- A zero angular impulse leaves a sphere that does not spin as it is. -/
theorem Body.applyImpulseAngular_zero (m : Libm F) (b : Body F)
    (hw : b.angularVelocity = Vec3.zero) : b.ApplyImpulseAngular m Vec3.zero = b := by
  unfold Body.ApplyImpulseAngular
  split
  · rfl
  · simp only [Mat3.mulVec_zero, hw]
    have e2 : (Vec3.zero : Vec3 F) + Vec3.zero = Vec3.zero := by
      rw [Vec3.ext_iff3]; simp [Vec3.zero]
    rw [e2]
    have e3 : ¬ (Vec3.zero : Vec3 F).GetLengthSqr > 30 * 30 := by
      simp [Vec3.GetLengthSqr, Vec3.Dot, Vec3.zero]
    rw [if_neg e3]
    cases b
    simp only [Body.mk.injEq, true_and, and_true] at hw ⊢
    exact hw.symm

/-- An impulse whose line of action passes through the centre of a dynamic sphere that does
not spin changes its linear velocity only. -/
theorem Body.applyImpulse_central (m : Libm F) (b : Body F) (pt impulse : Vec3 F)
    (hdyn : b.inverseMass ≠ 0) (hw : b.angularVelocity = Vec3.zero)
    (hcross : (pt - b.position).Cross impulse = Vec3.zero) :
    b.ApplyImpulse m pt impulse
      = { b with linearVelocity := b.linearVelocity + impulse * b.inverseMass } := by
  unfold Body.ApplyImpulse
  rw [if_neg hdyn]
  simp only [Body.centerOfMass_eq]
  have e1 : (b.ApplyImpulseLinear impulse)
      = { b with linearVelocity := b.linearVelocity + impulse * b.inverseMass } := by
    unfold Body.ApplyImpulseLinear
    rw [if_neg hdyn]
  rw [e1]
  simp only [hcross]
  exact Body.applyImpulseAngular_zero m _ hw

/-- The function `Contact::ResolveContact` in terms of its two impulses: the collision
impulse and then the friction impulse are applied to both bodies at the contact points, and
the positions are shifted when the time of impact is 0. -/
theorem resolveContact_eq (m : Libm F) (c : Contact F) (a b : Body F) :
    ResolveContact m c a b =
      if c.timeOfImpact = 0 then
        ({ (a.ApplyImpulse m c.ptOnAWorldSpace (contactImpulse c a b * (-1 : F))).ApplyImpulse m
              c.ptOnAWorldSpace
              (contactImpulseFriction m c a b
                (a.ApplyImpulse m c.ptOnAWorldSpace (contactImpulse c a b * (-1 : F)))
                (b.ApplyImpulse m c.ptOnBWorldSpace (contactImpulse c a b * (1 : F)))
                * (-1 : F)) with
            position :=
              ((a.ApplyImpulse m c.ptOnAWorldSpace (contactImpulse c a b * (-1 : F))).ApplyImpulse
                m c.ptOnAWorldSpace
                (contactImpulseFriction m c a b
                  (a.ApplyImpulse m c.ptOnAWorldSpace (contactImpulse c a b * (-1 : F)))
                  (b.ApplyImpulse m c.ptOnBWorldSpace (contactImpulse c a b * (1 : F)))
                  * (-1 : F))).position
              + (c.ptOnBWorldSpace - c.ptOnAWorldSpace)
                * (a.inverseMass / (a.inverseMass + b.inverseMass)) },
         { (b.ApplyImpulse m c.ptOnBWorldSpace (contactImpulse c a b * (1 : F))).ApplyImpulse m
              c.ptOnBWorldSpace
              (contactImpulseFriction m c a b
                (a.ApplyImpulse m c.ptOnAWorldSpace (contactImpulse c a b * (-1 : F)))
                (b.ApplyImpulse m c.ptOnBWorldSpace (contactImpulse c a b * (1 : F)))
                * (1 : F)) with
            position :=
              ((b.ApplyImpulse m c.ptOnBWorldSpace (contactImpulse c a b * (1 : F))).ApplyImpulse
                m c.ptOnBWorldSpace
                (contactImpulseFriction m c a b
                  (a.ApplyImpulse m c.ptOnAWorldSpace (contactImpulse c a b * (-1 : F)))
                  (b.ApplyImpulse m c.ptOnBWorldSpace (contactImpulse c a b * (1 : F)))
                  * (1 : F))).position
              - (c.ptOnBWorldSpace - c.ptOnAWorldSpace)
                * (b.inverseMass / (a.inverseMass + b.inverseMass)) })
      else
        ((a.ApplyImpulse m c.ptOnAWorldSpace (contactImpulse c a b * (-1 : F))).ApplyImpulse m
            c.ptOnAWorldSpace
            (contactImpulseFriction m c a b
              (a.ApplyImpulse m c.ptOnAWorldSpace (contactImpulse c a b * (-1 : F)))
              (b.ApplyImpulse m c.ptOnBWorldSpace (contactImpulse c a b * (1 : F)))
              * (-1 : F)),
         (b.ApplyImpulse m c.ptOnBWorldSpace (contactImpulse c a b * (1 : F))).ApplyImpulse m
            c.ptOnBWorldSpace
            (contactImpulseFriction m c a b
              (a.ApplyImpulse m c.ptOnAWorldSpace (contactImpulse c a b * (-1 : F)))
              (b.ApplyImpulse m c.ptOnBWorldSpace (contactImpulse c a b * (1 : F)))
              * (1 : F))) := rfl

/-- The cross product of the zero vector with any vector is the zero vector. -/
theorem Vec3.zero_cross (v : Vec3 F) : (Vec3.zero : Vec3 F).Cross v = Vec3.zero := by
  rw [Vec3.ext_iff3]
  simp [Vec3.Cross, Vec3.zero]

/-- The zero impulse leaves a dynamic sphere that does not spin as it is. -/
theorem Body.applyImpulse_zero (m : Libm F) (b : Body F) (pt : Vec3 F) (k : F)
    (hdyn : b.inverseMass ≠ 0) (hw : b.angularVelocity = Vec3.zero) :
    b.ApplyImpulse m pt ((Vec3.zero : Vec3 F) * k) = b := by
  have hz : (Vec3.zero : Vec3 F) * k = Vec3.zero := by
    rw [Vec3.ext_iff3]; simp [Vec3.zero]
  rw [hz, Body.applyImpulse_central m b pt Vec3.zero hdyn hw]
  · cases b
    simp only [Body.mk.injEq, true_and, and_true]
    rw [Vec3.ext_iff3]
    simp [Vec3.zero]
  · rw [Vec3.ext_iff3]
    simp [Vec3.Cross, Vec3.zero]

/-- Exact-arithmetic form of C19, for `float` read as an ordered field (binary32 rounding,
overflow and NaN are outside it): for two dynamic spheres with equal inverse mass, elasticity product 1, friction
product 0 and zero angular velocity, whose linear velocities are along the unit contact
normal, and a contact with `timeOfImpact > 0` whose points lie on the line through each
centre along the normal (the touching surface points), `Contact::ResolveContact` leaves A
with B's previous linear velocity, B with A's previous linear velocity, and both angular
velocities zero. -/
theorem ResolveContact_head_on_swaps (m : Libm F) (c : Contact F) (a b : Body F)
    (α β ρA ρB : F)
    (hmass : a.inverseMass = b.inverseMass) (hdyn : 0 < a.inverseMass)
    (he : a.elasticity * b.elasticity = 1) (hf : a.friction * b.friction = 0)
    (hwa : a.angularVelocity = Vec3.zero) (hwb : b.angularVelocity = Vec3.zero)
    (hn : c.normal.Dot c.normal = 1)
    (hva : a.linearVelocity = c.normal * α) (hvb : b.linearVelocity = c.normal * β)
    (hpa : c.ptOnAWorldSpace = a.position + c.normal * ρA)
    (hpb : c.ptOnBWorldSpace = b.position + c.normal * ρB)
    (htoi : 0 < c.timeOfImpact) :
    (ResolveContact m c a b).1.linearVelocity = b.linearVelocity ∧
    (ResolveContact m c a b).2.linearVelocity = a.linearVelocity ∧
    (ResolveContact m c a b).1.angularVelocity = Vec3.zero ∧
    (ResolveContact m c a b).2.angularVelocity = Vec3.zero := by
  have hda : a.inverseMass ≠ 0 := ne_of_gt hdyn
  have hdb : b.inverseMass ≠ 0 := hmass ▸ hda
  have hrA : (c.ptOnAWorldSpace - a.position).Cross c.normal = Vec3.zero := by
    rw [hpa, Vec3.ext_iff3]
    simp only [Vec3.Cross, Vec3.sub_x, Vec3.sub_y, Vec3.sub_z, Vec3.add_x, Vec3.add_y,
      Vec3.add_z, Vec3.scale_x, Vec3.scale_y, Vec3.scale_z, Vec3.zero]
    refine ⟨?_, ?_, ?_⟩ <;> ring
  have hrB : (c.ptOnBWorldSpace - b.position).Cross c.normal = Vec3.zero := by
    rw [hpb, Vec3.ext_iff3]
    simp only [Vec3.Cross, Vec3.sub_x, Vec3.sub_y, Vec3.sub_z, Vec3.add_x, Vec3.add_y,
      Vec3.add_z, Vec3.scale_x, Vec3.scale_y, Vec3.scale_z, Vec3.zero]
    refine ⟨?_, ?_, ?_⟩ <;> ring
  unfold Vec3.Dot at hn
  -- the relative velocity at the contact points, and its part along the normal
  have hrel : (a.linearVelocity + a.angularVelocity.Cross (c.ptOnAWorldSpace - a.position)
      - (b.linearVelocity + b.angularVelocity.Cross (c.ptOnBWorldSpace - b.position))).Dot
        c.normal = α - β := by
    rw [hwa, hwb, hva, hvb, Vec3.zero_cross, Vec3.zero_cross]
    simp only [Vec3.Dot, Vec3.sub_x, Vec3.sub_y, Vec3.sub_z, Vec3.add_x, Vec3.add_y,
      Vec3.add_z, Vec3.scale_x, Vec3.scale_y, Vec3.scale_z, Vec3.zero]
    linear_combination (α - β) * hn
  have htan : a.linearVelocity + a.angularVelocity.Cross (c.ptOnAWorldSpace - a.position)
      - (b.linearVelocity + b.angularVelocity.Cross (c.ptOnBWorldSpace - b.position))
      - c.normal * c.normal.Dot
          (a.linearVelocity + a.angularVelocity.Cross (c.ptOnAWorldSpace - a.position)
            - (b.linearVelocity + b.angularVelocity.Cross (c.ptOnBWorldSpace - b.position)))
      = Vec3.zero := by
    rw [hwa, hwb, hva, hvb, Vec3.zero_cross, Vec3.zero_cross, Vec3.ext_iff3]
    simp only [Vec3.Dot, Vec3.sub_x, Vec3.sub_y, Vec3.sub_z, Vec3.add_x, Vec3.add_y,
      Vec3.add_z, Vec3.scale_x, Vec3.scale_y, Vec3.scale_z, Vec3.zero]
    refine ⟨?_, ?_, ?_⟩
    · linear_combination (-(c.normal.x * (α - β))) * hn
    · linear_combination (-(c.normal.y * (α - β))) * hn
    · linear_combination (-(c.normal.z * (α - β))) * hn
  -- the collision impulse
  have hJ : contactImpulse c a b = c.normal * ((α - β) / a.inverseMass) := by
    unfold contactImpulse
    simp only [Body.centerOfMass_eq, hrel, hrA, hrB, Mat3.mulVec_zero, Vec3.zero_cross, he,
      ← hmass]
    have hz : ((Vec3.zero : Vec3 F) + Vec3.zero).Dot c.normal = 0 := by
      simp [Vec3.Dot, Vec3.zero]
    rw [hz]
    congr 1
    field_simp
    ring
  -- the bodies after the collision impulse
  have ha1 : a.ApplyImpulse m c.ptOnAWorldSpace (contactImpulse c a b * (-1 : F))
      = { a with linearVelocity := b.linearVelocity } := by
    rw [hJ, Body.applyImpulse_central m a _ _ hda hwa]
    · cases a
      simp only [Body.mk.injEq, true_and, and_true] at hva hda ⊢
      rw [hva, hvb, Vec3.ext_iff3]
      simp only [Vec3.add_x, Vec3.add_y, Vec3.add_z, Vec3.scale_x, Vec3.scale_y, Vec3.scale_z]
      refine ⟨?_, ?_, ?_⟩ <;> field_simp <;> ring
    · rw [hpa, Vec3.ext_iff3]
      simp only [Vec3.Cross, Vec3.sub_x, Vec3.sub_y, Vec3.sub_z, Vec3.add_x, Vec3.add_y,
        Vec3.add_z, Vec3.scale_x, Vec3.scale_y, Vec3.scale_z, Vec3.zero]
      refine ⟨?_, ?_, ?_⟩ <;> ring
  have hb1 : b.ApplyImpulse m c.ptOnBWorldSpace (contactImpulse c a b * (1 : F))
      = { b with linearVelocity := a.linearVelocity } := by
    rw [hJ, Body.applyImpulse_central m b _ _ hdb hwb]
    · cases b
      simp only [Body.mk.injEq, true_and, and_true] at hvb hdb hmass ⊢
      rw [hva, hvb, ← hmass, Vec3.ext_iff3]
      simp only [Vec3.add_x, Vec3.add_y, Vec3.add_z, Vec3.scale_x, Vec3.scale_y, Vec3.scale_z]
      refine ⟨?_, ?_, ?_⟩ <;> field_simp <;> ring
    · rw [hpb, Vec3.ext_iff3]
      simp only [Vec3.Cross, Vec3.sub_x, Vec3.sub_y, Vec3.sub_z, Vec3.add_x, Vec3.add_y,
        Vec3.add_z, Vec3.scale_x, Vec3.scale_y, Vec3.scale_z, Vec3.zero]
      refine ⟨?_, ?_, ?_⟩ <;> ring
  -- the friction impulse vanishes
  have hfr : ∀ a1 b1 : Body F, contactImpulseFriction m c a b a1 b1
      = (Vec3.zero : Vec3 F) * (1 / (a1.inverseMass + b1.inverseMass + 0))
          * (a1.friction * b1.friction) := by
    intro a1 b1
    unfold contactImpulseFriction
    simp only [Body.centerOfMass_eq, htan]
    rw [Vec3.ext_iff3]
    simp [Vec3.zero]
  rw [resolveContact_eq, if_neg (ne_of_gt htoi), ha1, hb1, hfr]
  have hzz : ∀ k l : F, (Vec3.zero : Vec3 F) * k * l = Vec3.zero := by
    intro k l
    rw [Vec3.ext_iff3]; simp [Vec3.zero]
  have e1 := Body.applyImpulse_zero m ({ a with linearVelocity := b.linearVelocity })
    c.ptOnAWorldSpace (-1) hda hwa
  have e2 := Body.applyImpulse_zero m ({ b with linearVelocity := a.linearVelocity })
    c.ptOnBWorldSpace 1 hdb hwb
  rw [hzz, e1, e2]
  exact ⟨rfl, rfl, hwa, hwb⟩

/-- Witness for C19 over the reals (scenario 3 of the spec at the time of impact): two
unit spheres of mass 1, elasticity 1 and friction 0 touch at the origin, A at (-1, 0, 0)
moving at (1, 0, 0) and B at (1, 0, 0) moving at (-1, 0, 0); after `ResolveContact` A moves
at (-1, 0, 0) and B at (1, 0, 0). -/
theorem ResolveContact_head_on_swaps_witness :
    (0 : ℝ) < 1 ∧ (1 : ℝ) * 1 = 1 ∧ (0 : ℝ) * 0 = 0 ∧ (0 : ℝ) < 2 ∧
    (Vec3.mk 1 0 0 : Vec3 ℝ).Dot ⟨1, 0, 0⟩ = 1 ∧
    (ResolveContact (Libm.mk Real.sqrt Real.sin Real.cos)
      (Contact.mk ⟨0, 0, 0⟩ ⟨1, 0, 0⟩ ⟨0, 0, 0⟩ ⟨-1, 0, 0⟩ ⟨1, 0, 0⟩ 0 (2 : ℝ) 0 1)
      (Body.mk ⟨-1, 0, 0⟩ ⟨0, 0, 0, 1⟩ ⟨1, 0, 0⟩ ⟨0, 0, 0⟩ (1 : ℝ) 1 0 ⟨1⟩)
      (Body.mk ⟨1, 0, 0⟩ ⟨0, 0, 0, 1⟩ ⟨-1, 0, 0⟩ ⟨0, 0, 0⟩ (1 : ℝ) 1 0 ⟨1⟩)).1.linearVelocity = ⟨-1, 0, 0⟩ ∧
    (ResolveContact (Libm.mk Real.sqrt Real.sin Real.cos)
      (Contact.mk ⟨0, 0, 0⟩ ⟨1, 0, 0⟩ ⟨0, 0, 0⟩ ⟨-1, 0, 0⟩ ⟨1, 0, 0⟩ 0 (2 : ℝ) 0 1)
      (Body.mk ⟨-1, 0, 0⟩ ⟨0, 0, 0, 1⟩ ⟨1, 0, 0⟩ ⟨0, 0, 0⟩ (1 : ℝ) 1 0 ⟨1⟩)
      (Body.mk ⟨1, 0, 0⟩ ⟨0, 0, 0, 1⟩ ⟨-1, 0, 0⟩ ⟨0, 0, 0⟩ (1 : ℝ) 1 0 ⟨1⟩)).2.linearVelocity = ⟨1, 0, 0⟩ := by
  have hn : (Vec3.mk 1 0 0 : Vec3 ℝ).Dot ⟨1, 0, 0⟩ = 1 := by norm_num [Vec3.Dot]
  have key := ResolveContact_head_on_swaps (Libm.mk Real.sqrt Real.sin Real.cos)
    (Contact.mk ⟨0, 0, 0⟩ ⟨1, 0, 0⟩ ⟨0, 0, 0⟩ ⟨-1, 0, 0⟩ ⟨1, 0, 0⟩ 0 (2 : ℝ) 0 1)
    (Body.mk ⟨-1, 0, 0⟩ ⟨0, 0, 0, 1⟩ ⟨1, 0, 0⟩ ⟨0, 0, 0⟩ (1 : ℝ) 1 0 ⟨1⟩)
    (Body.mk ⟨1, 0, 0⟩ ⟨0, 0, 0, 1⟩ ⟨-1, 0, 0⟩ ⟨0, 0, 0⟩ (1 : ℝ) 1 0 ⟨1⟩)
    1 (-1) 1 (-1) rfl one_pos (by norm_num) (by norm_num) rfl rfl hn
    (by norm_num) (by norm_num) (by norm_num) (by norm_num) (by norm_num)
  exact ⟨one_pos, by norm_num, by norm_num, by norm_num, hn, key.1, key.2.1⟩

end HeadOnProofs

/-! ## Scene::Update: properties kept by every body -/

/-- Writing back two bodies that have a property into an array whose bodies all have it
gives an array whose bodies all have it. -/
theorem forall_storePair {F : Type} (P : Body F → Prop) (bodies : List (Body F)) (ia ib : Nat)
    (a b : Body F) (h : ∀ x ∈ bodies, P x) (ha : P a) (hb : P b) :
    ∀ x ∈ storePair bodies ia ib a b, P x := by
  intro x hx
  unfold storePair at hx
  rcases List.mem_or_eq_of_mem_set hx with h1 | h1
  · rcases List.mem_or_eq_of_mem_set h1 with h2 | h2
    · exact h x h2
    · exact h2 ▸ ha
  · exact h1 ▸ hb

section SceneInvariantProofs

variable {F : Type} [LinearOrderedField F]

/-- `Intersections::Intersect` returns each body either as it was or updated twice. -/
theorem intersect_bodies (m : Libm F) (refA refB : Nat) (a b : Body F) (dt : F) :
    ((Intersect m refA refB a b dt).2.1 = a ∧ (Intersect m refA refB a b dt).2.2 = b) ∨
    ∃ toi : F, (Intersect m refA refB a b dt).2.1 = (a.Update m toi).Update m (-toi) ∧
      (Intersect m refA refB a b dt).2.2 = (b.Update m toi).Update m (-toi) := by
  unfold Intersect
  simp only [ShapeSphere.GetType, and_self, if_true]
  split
  · rename_i ptA ptB toi _
    exact Or.inr ⟨toi, rfl, rfl⟩
  · exact Or.inl ⟨rfl, rfl⟩

/-- The narrow-phase loop keeps a property of all bodies that `Body::Update` keeps. -/
theorem narrowPhase_forall (m : Libm F) (P : Body F → Prop)
    (hU : ∀ (b : Body F) (t : F), P b → P (b.Update m t))
    (dt : F) (bodies : List (Body F)) (pairs : List CollisionPair)
    (h : ∀ x ∈ bodies, P x) : ∀ x ∈ (narrowPhase m dt bodies pairs).1, P x := by
  have step : ∀ (st : List (Body F) × List (Contact F)) (pair : CollisionPair),
      (∀ x ∈ st.1, P x) → ∀ x ∈ (narrowPhaseStep m dt st pair).1, P x := by
    intro st pair hst
    unfold narrowPhaseStep
    split
    · rename_i bodyA bodyB hA hB
      have hPA : P bodyA := hst _ (List.getElem?_mem hA)
      have hPB : P bodyB := hst _ (List.getElem?_mem hB)
      split
      · exact hst
      · have hI : P (Intersect m pair.a.toNat pair.b.toNat bodyA bodyB dt).2.1 ∧
            P (Intersect m pair.a.toNat pair.b.toNat bodyA bodyB dt).2.2 := by
          rcases intersect_bodies m pair.a.toNat pair.b.toNat bodyA bodyB dt with
            ⟨e1, e2⟩ | ⟨toi, e1, e2⟩
          · rw [e1, e2]; exact ⟨hPA, hPB⟩
          · rw [e1, e2]; exact ⟨hU _ _ (hU _ _ hPA), hU _ _ (hU _ _ hPB)⟩
        split
        · rename_i contact a b hres
          rw [hres] at hI
          exact forall_storePair P _ _ _ _ _ hst hI.1 hI.2
        · rename_i a b hres
          rw [hres] at hI
          exact forall_storePair P _ _ _ _ _ hst hI.1 hI.2
    · exact hst
  unfold narrowPhase
  have key : ∀ (l : List CollisionPair) (st : List (Body F) × List (Contact F)),
      (∀ x ∈ st.1, P x) → ∀ x ∈ (l.foldl (narrowPhaseStep m dt) st).1, P x := by
    intro l
    induction l with
    | nil => intro st hst; exact hst
    | cons p rest ih => intro st hst; exact ih _ (step st p hst)
  exact key pairs (bodies, []) h

/-- One iteration of the contact loop either leaves the bodies and the accumulated time as
they are, or updates every body and resolves the contact: if `Body::Update` turns `P1` into
`P2` and `ResolveContact` keeps `P2`, all bodies have `P2` afterwards. -/
theorem resolveStep_phase (m : Libm F) (P1 P2 : Body F → Prop)
    (hU : ∀ (b : Body F) (t : F), P1 b → P2 (b.Update m t))
    (hR : ∀ (c : Contact F) (a b : Body F), P2 a → P2 b →
      P2 (ResolveContact m c a b).1 ∧ P2 (ResolveContact m c a b).2)
    (st : List (Body F) × F) (contact : Contact F) (h : ∀ x ∈ st.1, P1 x) :
    resolveStep m st contact = st ∨ ∀ x ∈ (resolveStep m st contact).1, P2 x := by
  unfold resolveStep
  simp only []
  split
  · split
    · exact Or.inl rfl
    · right
      have hmap : ∀ x ∈ st.1.map (fun body => body.Update m (contact.timeOfImpact - st.2)),
          P2 x := by
        intro x hx
        obtain ⟨y, hy, hxy⟩ := List.mem_map.mp hx
        exact hxy ▸ hU y _ (h y hy)
      split
      · rename_i a b hA hB
        have hr := hR contact a b (hmap _ (List.getElem?_mem hA)) (hmap _ (List.getElem?_mem hB))
        exact forall_storePair P2 _ _ _ _ _ hmap hr.1 hr.2
      · exact hmap
  · exact Or.inl rfl

/-- The contact loop keeps a property of all bodies that `Body::Update` and
`ResolveContact` keep. -/
theorem resolveLoop_forall (m : Libm F) (P : Body F → Prop)
    (hU : ∀ (b : Body F) (t : F), P b → P (b.Update m t))
    (hR : ∀ (c : Contact F) (a b : Body F), P a → P b →
      P (ResolveContact m c a b).1 ∧ P (ResolveContact m c a b).2)
    (contacts : List (Contact F)) (st : List (Body F) × F) (h : ∀ x ∈ st.1, P x) :
    ∀ x ∈ (contacts.foldl (resolveStep m) st).1, P x := by
  induction contacts generalizing st with
  | nil => exact h
  | cons c rest ih =>
    apply ih
    rcases resolveStep_phase m P P hU hR st c h with e | e
    · rw [e]; exact h
    · exact e

/-- `Scene::Update` keeps a property of all bodies that `Body::ApplyImpulseLinear`,
`Body::Update` and `ResolveContact` keep. -/
theorem sceneUpdate_forall (m : Libm F) (P : Body F → Prop)
    (hG : ∀ (b : Body F) (J : Vec3 F), P b → P (b.ApplyImpulseLinear J))
    (hU : ∀ (b : Body F) (t : F), P b → P (b.Update m t))
    (hR : ∀ (c : Contact F) (a b : Body F), P a → P b →
      P (ResolveContact m c a b).1 ∧ P (ResolveContact m c a b).2)
    (s : Scene F) (dt : F) (h : ∀ x ∈ s.bodies, P x) :
    ∀ x ∈ (Scene.Update m s dt).bodies, P x := by
  have h1 : ∀ x ∈ applyGravity s.bodies dt, P x := by
    intro x hx
    unfold applyGravity at hx
    obtain ⟨y, hy, hxy⟩ := List.mem_map.mp hx
    exact hxy ▸ hG y _ (h y hy)
  have h2 := narrowPhase_forall m P hU dt _ (BroadPhase m (applyGravity s.bodies dt) dt) h1
  have h3 := resolveLoop_forall m P hU hR
    (sortContacts (narrowPhase m dt (applyGravity s.bodies dt)
      (BroadPhase m (applyGravity s.bodies dt) dt)).2)
    ((narrowPhase m dt (applyGravity s.bodies dt)
      (BroadPhase m (applyGravity s.bodies dt) dt)).1, (0 : F)) h2
  unfold Scene.Update
  simp only []
  split
  · intro x hx
    obtain ⟨y, hy, hxy⟩ := List.mem_map.mp hx
    exact hxy ▸ hU y _ (h3 y hy)
  · exact h3

/-- After `Body::ApplyImpulse` the squared angular speed is at most `30²` if it was so
before. -/
theorem Body.applyImpulse_bound (m : Libm F) (hm : m.SqrtExact) (b : Body F)
    (pt impulse : Vec3 F) (h : b.angularVelocity.GetLengthSqr ≤ 30 * 30) :
    (b.ApplyImpulse m pt impulse).angularVelocity.GetLengthSqr ≤ 30 * 30 := by
  unfold Body.ApplyImpulse
  split
  · exact h
  · apply Body.applyImpulseAngular_bound m hm
    unfold Body.ApplyImpulseLinear
    split <;> exact h

/-- `Contact::ResolveContact` keeps the squared angular speed of both bodies at most
`30²`. -/
theorem resolveContact_bound (m : Libm F) (hm : m.SqrtExact) (c : Contact F) (a b : Body F)
    (ha : a.angularVelocity.GetLengthSqr ≤ 30 * 30)
    (hb : b.angularVelocity.GetLengthSqr ≤ 30 * 30) :
    (ResolveContact m c a b).1.angularVelocity.GetLengthSqr ≤ 30 * 30 ∧
    (ResolveContact m c a b).2.angularVelocity.GetLengthSqr ≤ 30 * 30 := by
  have ka := fun (p1 p2 J1 J2 : Vec3 F) =>
    Body.applyImpulse_bound m hm _ p2 J2 (Body.applyImpulse_bound m hm a p1 J1 ha)
  have kb := fun (p1 p2 J1 J2 : Vec3 F) =>
    Body.applyImpulse_bound m hm _ p2 J2 (Body.applyImpulse_bound m hm b p1 J1 hb)
  rw [resolveContact_eq]
  split
  · exact ⟨ka _ _ _ _, kb _ _ _ _⟩
  · exact ⟨ka _ _ _ _, kb _ _ _ _⟩

/-- Exact-arithmetic form of C11, for `float` read as an ordered field (binary32 rounding,
overflow and NaN are outside it): for every scene of sphere bodies (radius > 0) in which every body has angular speed
at most 30 before `Scene::Update`, and every `dt` in `(0, 0.033]`, every body, dynamic or
static, has angular speed at most 30 after `Scene::Update`. -/
theorem angular_speed_bound_kept (m : Libm F) (hm : m.SqrtExact) (s : Scene F) (dt : F)
    (_hr : ∀ b ∈ s.bodies, 0 < b.shape.radius) (_hdt0 : 0 < dt) (_hdt1 : dt ≤ 0.033)
    (h : ∀ b ∈ s.bodies, b.angularVelocity.GetMagnitude m ≤ 30) :
    ∀ b ∈ (Scene.Update m s dt).bodies, b.angularVelocity.GetMagnitude m ≤ 30 := by
  have hiff := fun v : Vec3 F => Vec3.magnitude_le_iff m hm v 30 (by norm_num)
  have h0 : ∀ b ∈ s.bodies, b.angularVelocity.GetLengthSqr ≤ 30 * 30 :=
    fun b hb => (hiff _).mp (h b hb)
  have key := sceneUpdate_forall m (fun b => b.angularVelocity.GetLengthSqr ≤ 30 * 30)
    (by
      intro b J hb
      unfold Body.ApplyImpulseLinear
      split <;> exact hb)
    (by
      intro b t hb
      show (b.Update m t).angularVelocity.GetLengthSqr ≤ 30 * 30
      rw [(Body.update_fields m b t).2.2.1]
      exact hb)
    (fun c a b ha hb => resolveContact_bound m hm c a b ha hb) s dt h0
  intro b hb
  exact (hiff _).mpr (key b hb)

/-- Witness for C11 over the reals: a unit sphere spinning at 30 rad/s resting on the static
earth sphere, stepped by `dt = 1/60`. -/
theorem angular_speed_bound_kept_witness :
    (Libm.mk Real.sqrt Real.sin Real.cos).SqrtExact ∧ (0 : ℝ) < 1 / 60 ∧
    (1 / 60 : ℝ) ≤ 0.033 ∧
    (Vec3.mk 0 0 30 : Vec3 ℝ).GetMagnitude (Libm.mk Real.sqrt Real.sin Real.cos) ≤ 30 ∧
    ∀ b ∈ (Scene.Update (Libm.mk Real.sqrt Real.sin Real.cos)
        (Scene.mk
          [Body.mk ⟨0, 0, 1⟩ ⟨0, 0, 0, 1⟩ ⟨0, 0, -1⟩ ⟨0, 0, 30⟩ 1 (1 / 2) (1 / 2) ⟨1⟩,
           Body.mk ⟨0, 0, -6000⟩ ⟨0, 0, 0, 1⟩ ⟨0, 0, 0⟩ ⟨0, 0, 0⟩ 0 1 (1 / 2) ⟨6000⟩])
        (1 / 60 : ℝ)).bodies,
      b.angularVelocity.GetMagnitude (Libm.mk Real.sqrt Real.sin Real.cos) ≤ 30 := by
  have h30 : (Vec3.mk 0 0 30 : Vec3 ℝ).GetMagnitude (Libm.mk Real.sqrt Real.sin Real.cos)
      ≤ 30 := by
    rw [Vec3.magnitude_le_iff _ real_sqrtExact _ 30 (by norm_num)]
    norm_num [Vec3.GetLengthSqr, Vec3.Dot]
  have h0 : (Vec3.mk 0 0 0 : Vec3 ℝ).GetMagnitude (Libm.mk Real.sqrt Real.sin Real.cos)
      ≤ 30 := by
    rw [Vec3.magnitude_le_iff _ real_sqrtExact _ 30 (by norm_num)]
    norm_num [Vec3.GetLengthSqr, Vec3.Dot]
  refine ⟨real_sqrtExact, by norm_num, by norm_num, h30, ?_⟩
  apply angular_speed_bound_kept (Libm.mk Real.sqrt Real.sin Real.cos) real_sqrtExact
    (Scene.mk
      [Body.mk ⟨0, 0, 1⟩ ⟨0, 0, 0, 1⟩ ⟨0, 0, -1⟩ ⟨0, 0, 30⟩ 1 (1 / 2) (1 / 2) ⟨1⟩,
       Body.mk ⟨0, 0, -6000⟩ ⟨0, 0, 0, 1⟩ ⟨0, 0, 0⟩ ⟨0, 0, 0⟩ 0 1 (1 / 2) ⟨6000⟩])
    (1 / 60 : ℝ)
  · intro b hb
    simp only [List.mem_cons, List.mem_singleton, List.not_mem_nil, or_false] at hb
    rcases hb with h | h <;> rw [h] <;> norm_num
  · norm_num
  · norm_num
  · intro b hb
    simp only [List.mem_cons, List.mem_singleton, List.not_mem_nil, or_false] at hb
    rcases hb with h | h
    · rw [h]; exact h30
    · rw [h]; exact h0

end SceneInvariantProofs

/-! ## Unit orientations -/

section OrientationProofs

variable {F : Type} [LinearOrderedField F]

/-- A non-zero quaternion has a positive squared magnitude. -/
theorem Quat.magnitudeSquared_pos (q : Quat F) (hq : q ≠ ⟨0, 0, 0, 0⟩) :
    0 < q.MagnitudeSquared := by
  unfold Quat.MagnitudeSquared
  by_contra hn
  have h0 : q.x * q.x + q.y * q.y + q.z * q.z + q.w * q.w ≤ 0 := not_lt.mp hn
  have sx := mul_self_nonneg q.x
  have sy := mul_self_nonneg q.y
  have sz := mul_self_nonneg q.z
  have sw := mul_self_nonneg q.w
  have hx : q.x = 0 := mul_self_eq_zero.mp (by linarith)
  have hy : q.y = 0 := mul_self_eq_zero.mp (by linarith)
  have hz : q.z = 0 := mul_self_eq_zero.mp (by linarith)
  have hw : q.w = 0 := mul_self_eq_zero.mp (by linarith)
  exact hq ((Quat.ext_iff4 _ _).mpr ⟨hx, hy, hz, hw⟩)

/-- With an exact square root, normalizing a quaternion of positive squared magnitude gives
a unit quaternion. -/
theorem Quat.normalize_is_unit (m : Libm F) (hm : m.SqrtExact) (q : Quat F)
    (hq : 0 < q.MagnitudeSquared) : (q.Normalize m).MagnitudeSquared = 1 := by
  obtain ⟨h0, h1⟩ := hm q.MagnitudeSquared (le_of_lt hq)
  have hs : m.sqrtf q.MagnitudeSquared ≠ 0 := by
    intro hz
    rw [hz] at h1
    simp at h1
    exact absurd h1.symm (ne_of_gt hq)
  have e : q.x * q.x + q.y * q.y + q.z * q.z + q.w * q.w
      = m.sqrtf q.MagnitudeSquared * m.sqrtf q.MagnitudeSquared := by
    rw [h1]; rfl
  simp only [Quat.Normalize, Quat.GetMagnitude]
  generalize m.sqrtf q.MagnitudeSquared = r at hs e
  simp only [Quat.MagnitudeSquared]
  field_simp
  linear_combination e

/-- With an exact square root, a quaternion of squared magnitude 1 has magnitude 1. -/
theorem Quat.magnitude_of_unit (m : Libm F) (hm : m.SqrtExact) (q : Quat F)
    (hq : q.MagnitudeSquared = 1) : q.GetMagnitude m = 1 := by
  unfold Quat.GetMagnitude
  rw [hq]
  exact sqrt_one_eq m hm

/-- `Body::Update` turns an orientation of positive squared magnitude into a unit
quaternion, for every time step. -/
theorem Body.update_unit (m : Libm F) (hm : m.SqrtExact) (ht : m.TrigExact) (b : Body F)
    (t : F) (hq : 0 < b.orientation.MagnitudeSquared) :
    (b.Update m t).orientation.MagnitudeSquared = 1 := by
  rw [Body.update_orientation]
  apply Quat.normalize_is_unit m hm
  rw [Quat.magnitudeSquared_mul, Quat.ofAxisAngle_unit m hm ht, one_mul]
  exact hq

/-- `Body::ApplyImpulse` leaves the orientation as it is. -/
theorem Body.applyImpulse_orientation (m : Libm F) (b : Body F) (pt impulse : Vec3 F) :
    (b.ApplyImpulse m pt impulse).orientation = b.orientation := by
  unfold Body.ApplyImpulse
  split
  · rfl
  · rename_i h
    simp only [Body.ApplyImpulseAngular, Body.ApplyImpulseLinear, h, if_false]
    split <;> rfl

/-- `Contact::ResolveContact` leaves the orientations of both bodies as they are. -/
theorem resolveContact_orientation (m : Libm F) (c : Contact F) (a b : Body F) :
    (ResolveContact m c a b).1.orientation = a.orientation ∧
    (ResolveContact m c a b).2.orientation = b.orientation := by
  have ka := fun (p1 p2 J1 J2 : Vec3 F) =>
    (Body.applyImpulse_orientation m (a.ApplyImpulse m p1 J1) p2 J2).trans
      (Body.applyImpulse_orientation m a p1 J1)
  have kb := fun (p1 p2 J1 J2 : Vec3 F) =>
    (Body.applyImpulse_orientation m (b.ApplyImpulse m p1 J1) p2 J2).trans
      (Body.applyImpulse_orientation m b p1 J1)
  rw [resolveContact_eq]
  split
  · exact ⟨ka _ _ _ _, kb _ _ _ _⟩
  · exact ⟨ka _ _ _ _, kb _ _ _ _⟩

/-- The contact loop on unit orientations: either no contact has been resolved, the
accumulated time is still 0 and the orientations have positive squared magnitude, or every
orientation is a unit quaternion. -/
theorem resolveLoop_unit (m : Libm F) (hm : m.SqrtExact) (ht : m.TrigExact)
    (contacts : List (Contact F)) (st : List (Body F) × F)
    (h : (st.2 = 0 ∧ ∀ x ∈ st.1, 0 < x.orientation.MagnitudeSquared) ∨
      ∀ x ∈ st.1, x.orientation.MagnitudeSquared = 1) :
    ((contacts.foldl (resolveStep m) st).2 = 0 ∧
      ∀ x ∈ (contacts.foldl (resolveStep m) st).1, 0 < x.orientation.MagnitudeSquared) ∨
    ∀ x ∈ (contacts.foldl (resolveStep m) st).1, x.orientation.MagnitudeSquared = 1 := by
  have hR : ∀ (c : Contact F) (a b : Body F), a.orientation.MagnitudeSquared = 1 →
      b.orientation.MagnitudeSquared = 1 →
      (ResolveContact m c a b).1.orientation.MagnitudeSquared = 1 ∧
      (ResolveContact m c a b).2.orientation.MagnitudeSquared = 1 := by
    intro c a b ha hb
    rw [(resolveContact_orientation m c a b).1, (resolveContact_orientation m c a b).2]
    exact ⟨ha, hb⟩
  induction contacts generalizing st with
  | nil => exact h
  | cons c rest ih =>
    apply ih
    rcases h with ⟨h0, h1⟩ | h2
    · rcases resolveStep_phase m (fun x => 0 < x.orientation.MagnitudeSquared)
        (fun x => x.orientation.MagnitudeSquared = 1)
        (fun b t hb => Body.update_unit m hm ht b t hb) hR st c h1 with e | e
      · rw [e]; exact Or.inl ⟨h0, h1⟩
      · exact Or.inr e
    · rcases resolveStep_phase m (fun x => x.orientation.MagnitudeSquared = 1)
        (fun x => x.orientation.MagnitudeSquared = 1)
        (fun b t hb => Body.update_unit m hm ht b t (by rw [hb]; exact zero_lt_one)) hR st c h2
        with e | e
      · rw [e]; exact Or.inr h2
      · exact Or.inr e

/-- Exact-arithmetic form of C16, for `float` read as an ordered field (binary32 rounding,
overflow and NaN are outside it): for every scene of sphere bodies (radius > 0) whose orientations are non-zero
quaternions and every `dt > 0`, after `Scene::Update` every body's orientation is a unit
quaternion (squared magnitude 1 and magnitude 1); and `Body::Update` returns a unit
orientation for every body of the scene and every time step, positive or negative. -/
theorem orientation_unit_after_step (m : Libm F) (hm : m.SqrtExact) (ht : m.TrigExact)
    (s : Scene F) (dt : F) (_hr : ∀ b ∈ s.bodies, 0 < b.shape.radius) (hdt : 0 < dt)
    (hq : ∀ b ∈ s.bodies, b.orientation ≠ ⟨0, 0, 0, 0⟩) :
    (∀ b ∈ (Scene.Update m s dt).bodies,
      b.orientation.MagnitudeSquared = 1 ∧ b.orientation.GetMagnitude m = 1) ∧
    (∀ b ∈ s.bodies, ∀ t : F, (b.Update m t).orientation.MagnitudeSquared = 1 ∧
      (b.Update m t).orientation.GetMagnitude m = 1) := by
  have hpos : ∀ b ∈ s.bodies, 0 < b.orientation.MagnitudeSquared :=
    fun b hb => Quat.magnitudeSquared_pos _ (hq b hb)
  refine ⟨?_, fun b hb t => ⟨Body.update_unit m hm ht b t (hpos b hb),
    Quat.magnitude_of_unit m hm _ (Body.update_unit m hm ht b t (hpos b hb))⟩⟩
  have h1 : ∀ x ∈ applyGravity s.bodies dt, 0 < x.orientation.MagnitudeSquared := by
    intro x hx
    unfold applyGravity at hx
    obtain ⟨y, hy, hxy⟩ := List.mem_map.mp hx
    rw [← hxy]
    simp only [Body.ApplyImpulseLinear]
    split
    · exact hpos y hy
    · exact hpos y hy
  have h2 := narrowPhase_forall m (fun x => 0 < x.orientation.MagnitudeSquared)
    (fun b t hb => by
      show 0 < (b.Update m t).orientation.MagnitudeSquared
      rw [Body.update_unit m hm ht b t hb]; exact zero_lt_one)
    dt _ (BroadPhase m (applyGravity s.bodies dt) dt) h1
  have h3 := resolveLoop_unit m hm ht
    (sortContacts (narrowPhase m dt (applyGravity s.bodies dt)
      (BroadPhase m (applyGravity s.bodies dt) dt)).2)
    ((narrowPhase m dt (applyGravity s.bodies dt)
      (BroadPhase m (applyGravity s.bodies dt) dt)).1, (0 : F)) (Or.inl ⟨rfl, h2⟩)
  have key : ∀ b ∈ (Scene.Update m s dt).bodies, b.orientation.MagnitudeSquared = 1 := by
    unfold Scene.Update
    simp only []
    split
    · intro x hx
      obtain ⟨y, hy, hxy⟩ := List.mem_map.mp hx
      rw [← hxy]
      rcases h3 with ⟨_, h4⟩ | h4
      · exact Body.update_unit m hm ht y _ (h4 y hy)
      · exact Body.update_unit m hm ht y _ (by rw [h4 y hy]; exact zero_lt_one)
    · rename_i hrem
      rcases h3 with ⟨h0, _⟩ | h4
      · rw [h0] at hrem
        exact absurd (by simpa using hdt) hrem
      · exact h4
  intro b hb
  exact ⟨key b hb, Quat.magnitude_of_unit m hm _ (key b hb)⟩

/-- Witness for C16 over the reals: a unit sphere whose orientation is the non-unit
quaternion `(0, 0, 3, 4)`, spinning above the static earth sphere, stepped by `dt = 1/60`. -/
theorem orientation_unit_after_step_witness :
    (Libm.mk Real.sqrt Real.sin Real.cos).SqrtExact ∧
    (Libm.mk Real.sqrt Real.sin Real.cos).TrigExact ∧ (0 : ℝ) < 1 / 60 ∧
    (∀ b ∈ (Scene.Update (Libm.mk Real.sqrt Real.sin Real.cos)
        (Scene.mk
          [Body.mk ⟨0, 0, 1⟩ ⟨0, 0, 3, 4⟩ ⟨0, 0, -1⟩ ⟨0, 0, 2⟩ 1 (1 / 2) (1 / 2) ⟨1⟩,
           Body.mk ⟨0, 0, -6000⟩ ⟨0, 0, 0, 1⟩ ⟨0, 0, 0⟩ ⟨0, 0, 0⟩ 0 1 (1 / 2) ⟨6000⟩])
        (1 / 60 : ℝ)).bodies,
      b.orientation.MagnitudeSquared = 1 ∧
      b.orientation.GetMagnitude (Libm.mk Real.sqrt Real.sin Real.cos) = 1) ∧
    (∀ b ∈ (Scene.mk
          [Body.mk ⟨0, 0, 1⟩ ⟨0, 0, 3, 4⟩ ⟨0, 0, -1⟩ ⟨0, 0, 2⟩ 1 (1 / 2) (1 / 2) ⟨1⟩,
           Body.mk ⟨0, 0, -6000⟩ ⟨0, 0, 0, 1⟩ ⟨0, 0, 0⟩ ⟨0, 0, 0⟩ 0 1 (1 / 2)
             ⟨6000⟩] : Scene ℝ).bodies,
      ∀ t : ℝ,
        (b.Update (Libm.mk Real.sqrt Real.sin Real.cos) t).orientation.MagnitudeSquared = 1 ∧
        (b.Update (Libm.mk Real.sqrt Real.sin Real.cos) t).orientation.GetMagnitude
          (Libm.mk Real.sqrt Real.sin Real.cos) = 1) := by
  refine ⟨real_sqrtExact, real_trigExact, by norm_num, ?_⟩
  apply orientation_unit_after_step (Libm.mk Real.sqrt Real.sin Real.cos) real_sqrtExact
    real_trigExact
    (Scene.mk
      [Body.mk ⟨0, 0, 1⟩ ⟨0, 0, 3, 4⟩ ⟨0, 0, -1⟩ ⟨0, 0, 2⟩ 1 (1 / 2) (1 / 2) ⟨1⟩,
       Body.mk ⟨0, 0, -6000⟩ ⟨0, 0, 0, 1⟩ ⟨0, 0, 0⟩ ⟨0, 0, 0⟩ 0 1 (1 / 2) ⟨6000⟩])
    (1 / 60 : ℝ)
  · intro b hb
    simp only [List.mem_cons, List.mem_singleton, List.not_mem_nil, or_false] at hb
    rcases hb with h | h <;> rw [h] <;> norm_num
  · norm_num
  · intro b hb
    simp only [List.mem_cons, List.mem_singleton, List.not_mem_nil, or_false] at hb
    rcases hb with h | h <;> rw [h] <;> simp [Quat.ext_iff4]

end OrientationProofs

/-! ## Free fall -/

section FreeFallProofs

variable {F : Type} [LinearOrderedField F]

/-- The broad phase of a scene holding a single body reports no pair. -/
theorem broadPhase_single (m : Libm F) (b : Body F) (dt : F) : BroadPhase m [b] dt = [] := by
  simp only [BroadPhase, SweepAndPrune1D, SortBodiesBounds, qsort, fillBounds,
    List.insertionSort, List.orderedInsert]
  split <;> simp [BuildPairs, scanPairs]

/-- One `Scene::Update` of a scene holding a single dynamic body, with a positive time step:
the gravity impulse, then `Body::Update` over the whole step. -/
theorem sceneUpdate_single (m : Libm F) (b : Body F) (dt : F) (hdt : 0 < dt) :
    Scene.Update m ⟨[b]⟩ dt
      = ⟨[(b.ApplyImpulseLinear
            ((Vec3.mk 0 0 (-10) : Vec3 F) * (1 / b.inverseMass) * dt)).Update m dt]⟩ := by
  simp only [Scene.Update, applyGravity, List.map_cons, List.map_nil, broadPhase_single,
    narrowPhase, List.foldl_nil, sortContacts, List.length_nil]
  simp [hdt]

/-- Free fall of a single dynamic sphere from rest, after `n` calls of `Scene::Update`. -/
theorem freeFall_iterate (m : Libm F) (b : Body F) (z0 dt : F) (n : Nat) (hdt : 0 < dt)
    (hdyn : b.inverseMass ≠ 0) (hp : b.position = ⟨0, 0, z0⟩)
    (hv : b.linearVelocity = ⟨0, 0, 0⟩) (hw : b.angularVelocity = ⟨0, 0, 0⟩) :
    ∃ b2 : Body F, (fun s => Scene.Update m s dt)^[n] ⟨[b]⟩ = ⟨[b2]⟩ ∧
      b2.inverseMass = b.inverseMass ∧
      b2.linearVelocity = ⟨0, 0, -10 * (n : F) * dt⟩ ∧
      b2.position = ⟨0, 0, z0 - 10 * dt * dt * ((n : F) * ((n : F) + 1) / 2)⟩ ∧
      b2.angularVelocity = ⟨0, 0, 0⟩ ∧ b2.shape = b.shape := by
  induction n with
  | zero =>
    refine ⟨b, rfl, rfl, ?_, ?_, hw, rfl⟩
    · rw [hv, Vec3.ext_iff3]; simp
    · rw [hp, Vec3.ext_iff3]; simp
  | succ k ih =>
    obtain ⟨b2, hs, hm2, hv2, hp2, hw2, hsh2⟩ := ih
    have hd2 : b2.inverseMass ≠ 0 := by rw [hm2]; exact hdyn
    refine ⟨(b2.ApplyImpulseLinear
      ((Vec3.mk 0 0 (-10) : Vec3 F) * (1 / b2.inverseMass) * dt)).Update m dt, ?_, ?_, ?_, ?_,
      ?_, ?_⟩
    · rw [Function.iterate_succ_apply', hs, sceneUpdate_single m b2 dt hdt]
    · rw [(Body.update_fields m _ dt).2.2.2.1]
      simp only [Body.ApplyImpulseLinear, if_neg hd2]
      exact hm2
    · rw [(Body.update_fields m _ dt).2.1]
      simp only [Body.ApplyImpulseLinear, if_neg hd2]
      rw [hv2, Vec3.ext_iff3]
      simp only [Vec3.add_x, Vec3.add_y, Vec3.add_z, Vec3.scale_x, Vec3.scale_y, Vec3.scale_z]
      push_cast
      refine ⟨by ring, by ring, ?_⟩
      field_simp
      ring
    · rw [(Body.update_fields m _ dt).1]
      simp only [Body.ApplyImpulseLinear, if_neg hd2]
      rw [hv2, hp2, Vec3.ext_iff3]
      simp only [Vec3.add_x, Vec3.add_y, Vec3.add_z, Vec3.scale_x, Vec3.scale_y, Vec3.scale_z]
      push_cast
      refine ⟨by ring, by ring, ?_⟩
      field_simp
      ring
    · rw [(Body.update_fields m _ dt).2.2.1]
      simp only [Body.ApplyImpulseLinear, if_neg hd2]
      exact hw2
    · rw [(Body.update_fields m _ dt).2.2.2.2.2.2]
      simp only [Body.ApplyImpulseLinear, if_neg hd2]
      exact hsh2

/-- Exact-arithmetic form of C18, for `float` read as an ordered field (binary32 rounding,
overflow and NaN are outside it): free fall.  For a scene holding a single dynamic sphere (radius > 0) that starts at
rest at `(0, 0, z0)` with zero angular velocity, after `n` calls of `Scene::Update` with
`dt > 0` the scene holds one body with `linearVelocity = (0, 0, −10·n·dt)`,
`position = (0, 0, z0 − 10·dt²·n(n+1)/2)` and zero angular velocity.  For the spec's values
(r = 1, inverseMass = 1, z0 = 10, dt = 1/120, n = 120) `position.z` is within `5.0 ± 0.05`
and `linearVelocity.z` within `−10 ± 0.1`. -/
theorem free_fall (m : Libm F) (b : Body F) (z0 dt : F) (n : Nat) (hdt : 0 < dt)
    (hdyn : 0 < b.inverseMass) (_hr : 0 < b.shape.radius) (hp : b.position = ⟨0, 0, z0⟩)
    (hv : b.linearVelocity = ⟨0, 0, 0⟩) (hw : b.angularVelocity = ⟨0, 0, 0⟩) :
    ∃ b2 : Body F, ((fun s => Scene.Update m s dt)^[n] ⟨[b]⟩).bodies = [b2] ∧
      b2.linearVelocity = ⟨0, 0, -10 * (n : F) * dt⟩ ∧
      b2.position = ⟨0, 0, z0 - 10 * dt * dt * ((n : F) * ((n : F) + 1) / 2)⟩ ∧
      b2.angularVelocity = ⟨0, 0, 0⟩ ∧
      (b.shape.radius = 1 → b.inverseMass = 1 → z0 = 10 → dt = 1 / 120 → n = 120 →
        |b2.position.z - 5| ≤ 0.05 ∧ |b2.linearVelocity.z - (-10)| ≤ 0.1) := by
  obtain ⟨b2, hs, _, hv2, hp2, hw2, _⟩ :=
    freeFall_iterate m b z0 dt n hdt (ne_of_gt hdyn) hp hv hw
  refine ⟨b2, by rw [hs], hv2, hp2, hw2, ?_⟩
  intro _ _ hz hd hn
  rw [hv2, hp2, hz, hd, hn]
  simp only [Nat.cast_ofNat]
  constructor
  · rw [abs_le]; constructor <;> norm_num
  · rw [abs_le]; constructor <;> norm_num

/-- Witness for C18 over the reals: the spec's sphere (r = 1, inverseMass = 1) dropped from
rest at height 10 and stepped 120 times at `dt = 1/120`. -/
theorem free_fall_witness :
    ∃ b2 : Body ℝ, ((fun s => Scene.Update (Libm.mk Real.sqrt Real.sin Real.cos) s (1 / 120))^[120]
        ⟨[Body.mk ⟨0, 0, 10⟩ ⟨0, 0, 0, 1⟩ ⟨0, 0, 0⟩ ⟨0, 0, 0⟩ 1 (1 / 2) (1 / 2) ⟨1⟩]⟩).bodies
        = [b2] ∧
      b2.linearVelocity = ⟨0, 0, -10⟩ ∧ b2.position = ⟨0, 0, 10 - 121 / 24⟩ ∧
      |b2.position.z - 5| ≤ 0.05 ∧ |b2.linearVelocity.z - (-10)| ≤ 0.1 := by
  obtain ⟨b2, h1, h2, h3, _, h5⟩ := free_fall (Libm.mk Real.sqrt Real.sin Real.cos)
    (Body.mk ⟨0, 0, 10⟩ ⟨0, 0, 0, 1⟩ ⟨0, 0, 0⟩ ⟨0, 0, 0⟩ 1 (1 / 2) (1 / 2) ⟨1⟩) 10 (1 / 120)
    120 (by norm_num) (by norm_num) (by norm_num) rfl rfl rfl
  refine ⟨b2, h1, ?_, ?_, h5 rfl rfl rfl rfl rfl⟩
  · rw [h2, Vec3.ext_iff3]; norm_num
  · rw [h3, Vec3.ext_iff3]; norm_num

end FreeFallProofs

/-! ## Scene::Reset -/

section ResetProofs

variable {F : Type} [LinearOrderedField F]

/-- C21: for every scene state, after `Scene::Reset` the scene holds exactly the default
world, in this order: a dynamic sphere of radius 1 at `(0, 0, 10)` with inverse mass 1,
elasticity 0.5 and friction 0.5, and a static sphere of radius 6000 at `(0, 0, -6000)` with
inverse mass 0, elasticity 1 and friction 0.5, both with orientation `(0, 0, 0, 1)` and at
rest; calling `Reset` twice gives the same state as calling it once. -/
theorem Reset_gives_default_world (s : Scene F) :
    (Scene.Reset s).bodies =
      [{ position := ⟨0, 0, 10⟩, orientation := ⟨0, 0, 0, 1⟩, linearVelocity := ⟨0, 0, 0⟩,
         angularVelocity := ⟨0, 0, 0⟩, inverseMass := 1, elasticity := 0.5, friction := 0.5,
         shape := ⟨1⟩ },
       { position := ⟨0, 0, -6000⟩, orientation := ⟨0, 0, 0, 1⟩, linearVelocity := ⟨0, 0, 0⟩,
         angularVelocity := ⟨0, 0, 0⟩, inverseMass := 0, elasticity := 1, friction := 0.5,
         shape := ⟨6000⟩ }] ∧
    (Scene.Reset s).bodies.length = 2 ∧
    Scene.Reset (Scene.Reset s) = Scene.Reset s := by
  refine ⟨?_, ?_, ?_⟩
  · simp only [Scene.Reset, Scene.Initialize, List.nil_append]
    rfl
  · simp only [Scene.Reset, Scene.Initialize, List.nil_append, List.length_cons,
      List.length_nil]
  · rfl

end ResetProofs

/-! ## Body::Update on a sphere -/

section UpdateProofs

variable {F : Type} [LinearOrderedField F]

/-- Exact-arithmetic form of C26, for `float` read as an ordered field (binary32 rounding,
overflow and NaN are outside it): free integration of a sphere is uniform motion.  For every sphere body (radius > 0)
and every `dt`, positive or negative, `Body::Update(dt)` sets the position to
`position + linearVelocity * dt` (the centre of mass is the position, so the correction
about it is a no-op) and leaves `linearVelocity` and `angularVelocity` unchanged: the
gyroscopic term `I⁻¹ (ω × I ω)` is zero for a sphere. -/
theorem Update_is_uniform_motion (m : Libm F) (b : Body F) (dt : F)
    (_hr : 0 < b.shape.radius) :
    (b.Update m dt).position = b.position + b.linearVelocity * dt ∧
    (b.Update m dt).linearVelocity = b.linearVelocity ∧
    (b.Update m dt).angularVelocity = b.angularVelocity ∧
    b.GetCenterOfMassWorldSpace = b.position ∧
    (b.orientation.ToMat3 * b.shape.InertiaTensor * b.orientation.ToMat3.Transpose).Inverse
      * (b.angularVelocity.Cross
          ((b.orientation.ToMat3 * b.shape.InertiaTensor * b.orientation.ToMat3.Transpose)
            * b.angularVelocity)) = Vec3.zero := by
  obtain ⟨hp, hv, hw, _⟩ := Body.update_fields m b dt
  refine ⟨hp, hv, hw, Body.centerOfMass_eq b, ?_⟩
  rw [gyroscopic_term_zero, Mat3.mulVec_zero]

/-- Witness for C26 over the reals: a spinning unit sphere at (1, 2, 3) moving at
(4, 5, 6), stepped back by `dt = -1/2`. -/
theorem Update_is_uniform_motion_witness :
    ((Body.mk ⟨1, 2, 3⟩ ⟨0, 0, 0, 1⟩ ⟨4, 5, 6⟩ ⟨0, 7, 0⟩ (1 : ℝ) (1 / 2) (1 / 2) ⟨1⟩).Update
        (Libm.mk Real.sqrt Real.sin Real.cos) (-1 / 2)).position = ⟨-1, -1 / 2, 0⟩ ∧
    ((Body.mk ⟨1, 2, 3⟩ ⟨0, 0, 0, 1⟩ ⟨4, 5, 6⟩ ⟨0, 7, 0⟩ (1 : ℝ) (1 / 2) (1 / 2) ⟨1⟩).Update
        (Libm.mk Real.sqrt Real.sin Real.cos) (-1 / 2)).linearVelocity = ⟨4, 5, 6⟩ ∧
    ((Body.mk ⟨1, 2, 3⟩ ⟨0, 0, 0, 1⟩ ⟨4, 5, 6⟩ ⟨0, 7, 0⟩ (1 : ℝ) (1 / 2) (1 / 2) ⟨1⟩).Update
        (Libm.mk Real.sqrt Real.sin Real.cos) (-1 / 2)).angularVelocity = ⟨0, 7, 0⟩ := by
  obtain ⟨hp, hv, hw, _⟩ := Update_is_uniform_motion (Libm.mk Real.sqrt Real.sin Real.cos)
    (Body.mk ⟨1, 2, 3⟩ ⟨0, 0, 0, 1⟩ ⟨4, 5, 6⟩ ⟨0, 7, 0⟩ (1 : ℝ) (1 / 2) (1 / 2) ⟨1⟩) (-1 / 2)
    (by norm_num)
  refine ⟨?_, hv, hw⟩
  rw [hp, Vec3.ext_iff3]
  norm_num

end UpdateProofs

/-! ## Contact::ResolveContact: impulses, positions, momentum -/

section ResolveProofs

variable {F : Type} [LinearOrderedField F]

/-- The fields of a body after `Body::ApplyImpulse`, the angular velocity apart: the linear
velocity gains `impulse * inverseMass`, nothing else changes. -/
theorem Body.applyImpulse_fields (m : Libm F) (b : Body F) (pt impulse : Vec3 F) :
    (b.ApplyImpulse m pt impulse).linearVelocity = b.linearVelocity + impulse * b.inverseMass ∧
    (b.ApplyImpulse m pt impulse).position = b.position ∧
    (b.ApplyImpulse m pt impulse).orientation = b.orientation ∧
    (b.ApplyImpulse m pt impulse).inverseMass = b.inverseMass ∧
    (b.ApplyImpulse m pt impulse).elasticity = b.elasticity ∧
    (b.ApplyImpulse m pt impulse).friction = b.friction ∧
    (b.ApplyImpulse m pt impulse).shape = b.shape := by
  unfold Body.ApplyImpulse
  split
  · rename_i h
    refine ⟨?_, rfl, rfl, rfl, rfl, rfl, rfl⟩
    rw [h, Vec3.ext_iff3]
    simp
  · rename_i h
    simp only [Body.ApplyImpulseAngular, Body.ApplyImpulseLinear, h, if_false]
    split <;> exact ⟨rfl, rfl, rfl, rfl, rfl, rfl, rfl⟩

/-- The collision impulse of `Contact::ResolveContact` is the normal times
`(1 + e) (velAb · n) / (invMassA + invMassB + angularFactor)`. -/
theorem contactImpulse_eq (c : Contact F) (a b : Body F) :
    contactImpulse c a b =
      c.normal * ((1 + a.elasticity * b.elasticity) * (contactVelAb c a b).Dot c.normal
        / (a.inverseMass + b.inverseMass + contactAngularFactor c a b)) := rfl

/-- The friction impulse of `Contact::ResolveContact` is the tangential part of `velAb`
times `1 / (invMassA + invMassB + inverseInertia)` times the product of the friction
coefficients. -/
theorem contactImpulseFriction_eq (m : Libm F) (c : Contact F) (a b a1 b1 : Body F)
    (hma : a1.inverseMass = a.inverseMass) (hmb : b1.inverseMass = b.inverseMass)
    (hfa : a1.friction = a.friction) (hfb : b1.friction = b.friction) :
    contactImpulseFriction m c a b a1 b1 =
      (contactVelAb c a b - c.normal * c.normal.Dot (contactVelAb c a b))
        * (1 / (a.inverseMass + b.inverseMass + contactInverseInertia m c a b))
        * (a.friction * b.friction) := by
  unfold contactImpulseFriction
  rw [hma, hmb, hfa, hfb]
  rfl

/-- The bodies after `Contact::ResolveContact`: both linear velocities in terms of the
collision impulse `J` and the friction impulse `Jf`; the angular velocities are those left
by the two calls of `Body::ApplyImpulse`; the positions are shifted when the time of impact
is 0; the other fields are unchanged. -/
theorem resolveContact_fields (m : Libm F) (c : Contact F) (a b : Body F) :
    ∃ Jf : Vec3 F,
      Jf = (contactVelAb c a b - c.normal * c.normal.Dot (contactVelAb c a b))
        * (1 / (a.inverseMass + b.inverseMass + contactInverseInertia m c a b))
        * (a.friction * b.friction) ∧
      (ResolveContact m c a b).1.linearVelocity
        = a.linearVelocity + contactImpulse c a b * (-1 : F) * a.inverseMass
          + Jf * (-1 : F) * a.inverseMass ∧
      (ResolveContact m c a b).2.linearVelocity
        = b.linearVelocity + contactImpulse c a b * (1 : F) * b.inverseMass
          + Jf * (1 : F) * b.inverseMass ∧
      (ResolveContact m c a b).1.angularVelocity
        = ((a.ApplyImpulse m c.ptOnAWorldSpace (contactImpulse c a b * (-1 : F))).ApplyImpulse
            m c.ptOnAWorldSpace (Jf * (-1 : F))).angularVelocity ∧
      (ResolveContact m c a b).2.angularVelocity
        = ((b.ApplyImpulse m c.ptOnBWorldSpace (contactImpulse c a b * (1 : F))).ApplyImpulse
            m c.ptOnBWorldSpace (Jf * (1 : F))).angularVelocity ∧
      (ResolveContact m c a b).1.position
        = (if c.timeOfImpact = 0 then
            a.position + (c.ptOnBWorldSpace - c.ptOnAWorldSpace)
              * (a.inverseMass / (a.inverseMass + b.inverseMass))
          else a.position) ∧
      (ResolveContact m c a b).2.position
        = (if c.timeOfImpact = 0 then
            b.position - (c.ptOnBWorldSpace - c.ptOnAWorldSpace)
              * (b.inverseMass / (a.inverseMass + b.inverseMass))
          else b.position) ∧
      (ResolveContact m c a b).1.inverseMass = a.inverseMass ∧
      (ResolveContact m c a b).2.inverseMass = b.inverseMass ∧
      (ResolveContact m c a b).1.shape = a.shape ∧
      (ResolveContact m c a b).2.shape = b.shape := by
  have fa := Body.applyImpulse_fields m a c.ptOnAWorldSpace (contactImpulse c a b * (-1 : F))
  have fb := Body.applyImpulse_fields m b c.ptOnBWorldSpace (contactImpulse c a b * (1 : F))
  have hJf := contactImpulseFriction_eq m c a b
    (a.ApplyImpulse m c.ptOnAWorldSpace (contactImpulse c a b * (-1 : F)))
    (b.ApplyImpulse m c.ptOnBWorldSpace (contactImpulse c a b * (1 : F)))
    fa.2.2.2.1 fb.2.2.2.1 fa.2.2.2.2.2.1 fb.2.2.2.2.2.1
  refine ⟨contactImpulseFriction m c a b
    (a.ApplyImpulse m c.ptOnAWorldSpace (contactImpulse c a b * (-1 : F)))
    (b.ApplyImpulse m c.ptOnBWorldSpace (contactImpulse c a b * (1 : F))), hJf, ?_⟩
  have ga := Body.applyImpulse_fields m
    (a.ApplyImpulse m c.ptOnAWorldSpace (contactImpulse c a b * (-1 : F)))
    c.ptOnAWorldSpace (contactImpulseFriction m c a b
      (a.ApplyImpulse m c.ptOnAWorldSpace (contactImpulse c a b * (-1 : F)))
      (b.ApplyImpulse m c.ptOnBWorldSpace (contactImpulse c a b * (1 : F))) * (-1 : F))
  have gb := Body.applyImpulse_fields m
    (b.ApplyImpulse m c.ptOnBWorldSpace (contactImpulse c a b * (1 : F)))
    c.ptOnBWorldSpace (contactImpulseFriction m c a b
      (a.ApplyImpulse m c.ptOnAWorldSpace (contactImpulse c a b * (-1 : F)))
      (b.ApplyImpulse m c.ptOnBWorldSpace (contactImpulse c a b * (1 : F))) * (1 : F))
  rw [fa.1, fa.2.1, fa.2.2.2.1, fa.2.2.2.2.2.2] at ga
  rw [fb.1, fb.2.1, fb.2.2.2.1, fb.2.2.2.2.2.2] at gb
  by_cases ht : c.timeOfImpact = 0
  · have hR : ResolveContact m c a b = _ := resolveContact_eq m c a b
    rw [if_pos ht] at hR
    rw [hR, if_pos ht, if_pos ht]
    exact ⟨ga.1, gb.1, rfl, rfl, by rw [← ga.2.1], by rw [← gb.2.1], ga.2.2.2.1, gb.2.2.2.1,
      ga.2.2.2.2.2.2, gb.2.2.2.2.2.2⟩
  · have hR : ResolveContact m c a b = _ := resolveContact_eq m c a b
    rw [if_neg ht] at hR
    rw [hR, if_neg ht, if_neg ht]
    exact ⟨ga.1, gb.1, rfl, rfl, ga.2.1, gb.2.1, ga.2.2.2.1, gb.2.2.2.1,
      ga.2.2.2.2.2.2, gb.2.2.2.2.2.2⟩

/-- C25: positional depenetration happens only at time of impact 0.  For every contact with
at least one dynamic body, `Contact::ResolveContact` leaves both positions unchanged when
`timeOfImpact ≠ 0`; when `timeOfImpact = 0` it moves A by `+d * tA` and B by `-d * tB` with
`d = ptOnB - ptOnA`, `tA = invMassA / (invMassA + invMassB)` and
`tB = invMassB / (invMassA + invMassB)`; in neither case does it change an orientation. -/
theorem ResolveContact_depenetration (m : Libm F) (c : Contact F) (a b : Body F)
    (_hdyn : a.inverseMass ≠ 0 ∨ b.inverseMass ≠ 0) :
    (c.timeOfImpact ≠ 0 →
      (ResolveContact m c a b).1.position = a.position ∧
      (ResolveContact m c a b).2.position = b.position) ∧
    (c.timeOfImpact = 0 →
      (ResolveContact m c a b).1.position
        = a.position + (c.ptOnBWorldSpace - c.ptOnAWorldSpace)
            * (a.inverseMass / (a.inverseMass + b.inverseMass)) ∧
      (ResolveContact m c a b).2.position
        = b.position - (c.ptOnBWorldSpace - c.ptOnAWorldSpace)
            * (b.inverseMass / (a.inverseMass + b.inverseMass))) ∧
    (ResolveContact m c a b).1.orientation = a.orientation ∧
    (ResolveContact m c a b).2.orientation = b.orientation := by
  obtain ⟨Jf, _, _, _, _, _, hpa, hpb, _⟩ := resolveContact_fields m c a b
  refine ⟨fun ht => ?_, fun ht => ?_, resolveContact_orientation m c a b⟩
  · rw [hpa, hpb, if_neg ht, if_neg ht]
    exact ⟨rfl, rfl⟩
  · rw [hpa, hpb, if_pos ht, if_pos ht]
    exact ⟨rfl, rfl⟩

/-- Witness for C25 over the reals: a unit sphere resting 1/10 deep in a static unit sphere
below it, with time of impact 0: the dynamic sphere is lifted by the whole overlap and the
static one stays. -/
theorem ResolveContact_depenetration_witness :
    (ResolveContact (Libm.mk Real.sqrt Real.sin Real.cos)
        (Contact.mk ⟨0, 0, 9 / 10⟩ ⟨0, 0, -1⟩ ⟨0, 0, 1⟩ ⟨0, 0, 1⟩ ⟨0, 0, 1⟩ (-1 / 10) 0 0 1)
        (Body.mk ⟨0, 0, 19 / 10⟩ ⟨0, 0, 0, 1⟩ ⟨0, 0, 0⟩ ⟨0, 0, 0⟩ (1 : ℝ) (1 / 2) (1 / 2) ⟨1⟩)
        (Body.mk ⟨0, 0, 0⟩ ⟨0, 0, 0, 1⟩ ⟨0, 0, 0⟩ ⟨0, 0, 0⟩ (0 : ℝ) 1 (1 / 2) ⟨1⟩)).1.position
      = ⟨0, 0, 2⟩ ∧
    (ResolveContact (Libm.mk Real.sqrt Real.sin Real.cos)
        (Contact.mk ⟨0, 0, 9 / 10⟩ ⟨0, 0, -1⟩ ⟨0, 0, 1⟩ ⟨0, 0, 1⟩ ⟨0, 0, 1⟩ (-1 / 10) 0 0 1)
        (Body.mk ⟨0, 0, 19 / 10⟩ ⟨0, 0, 0, 1⟩ ⟨0, 0, 0⟩ ⟨0, 0, 0⟩ (1 : ℝ) (1 / 2) (1 / 2) ⟨1⟩)
        (Body.mk ⟨0, 0, 0⟩ ⟨0, 0, 0, 1⟩ ⟨0, 0, 0⟩ ⟨0, 0, 0⟩ (0 : ℝ) 1 (1 / 2) ⟨1⟩)).2.position
      = ⟨0, 0, 0⟩ := by
  have h := (ResolveContact_depenetration (Libm.mk Real.sqrt Real.sin Real.cos)
    (Contact.mk ⟨0, 0, 9 / 10⟩ ⟨0, 0, -1⟩ ⟨0, 0, 1⟩ ⟨0, 0, 1⟩ ⟨0, 0, 1⟩ (-1 / 10) 0 0 1)
    (Body.mk ⟨0, 0, 19 / 10⟩ ⟨0, 0, 0, 1⟩ ⟨0, 0, 0⟩ ⟨0, 0, 0⟩ (1 : ℝ) (1 / 2) (1 / 2) ⟨1⟩)
    (Body.mk ⟨0, 0, 0⟩ ⟨0, 0, 0, 1⟩ ⟨0, 0, 0⟩ ⟨0, 0, 0⟩ (0 : ℝ) 1 (1 / 2) ⟨1⟩)
    (Or.inl (by norm_num))).2.1 rfl
  rw [h.1, h.2]
  constructor
  · rw [Vec3.ext_iff3]; norm_num
  · rw [Vec3.ext_iff3]; norm_num

/-- Exact-arithmetic form of C28, for `float` read as an ordered field (binary32 rounding,
overflow and NaN are outside it): `Contact::ResolveContact` conserves the total linear momentum.  For every contact
between two dynamic bodies (`invMassA > 0`, `invMassB > 0`) the inverse masses are unchanged
and `linearVelocityA / invMassA + linearVelocityB / invMassB` is the same before and after
the call, friction impulse included, whatever happens to the angular velocities. -/
theorem ResolveContact_conserves_momentum (m : Libm F) (c : Contact F) (a b : Body F)
    (ha : 0 < a.inverseMass) (hb : 0 < b.inverseMass) :
    (ResolveContact m c a b).1.inverseMass = a.inverseMass ∧
    (ResolveContact m c a b).2.inverseMass = b.inverseMass ∧
    (ResolveContact m c a b).1.linearVelocity * (1 / (ResolveContact m c a b).1.inverseMass)
        + (ResolveContact m c a b).2.linearVelocity
          * (1 / (ResolveContact m c a b).2.inverseMass)
      = a.linearVelocity * (1 / a.inverseMass) + b.linearVelocity * (1 / b.inverseMass) := by
  obtain ⟨Jf, _, hva, hvb, _, _, _, _, hma, hmb, _⟩ := resolveContact_fields m c a b
  refine ⟨hma, hmb, ?_⟩
  rw [hma, hmb, hva, hvb, Vec3.ext_iff3]
  have ha0 : a.inverseMass ≠ 0 := ne_of_gt ha
  have hb0 : b.inverseMass ≠ 0 := ne_of_gt hb
  simp only [Vec3.add_x, Vec3.add_y, Vec3.add_z, Vec3.scale_x, Vec3.scale_y, Vec3.scale_z]
  refine ⟨?_, ?_, ?_⟩ <;> field_simp <;> ring

/-- Witness for C28 over the reals: scenario 3 with unequal masses, a sphere of inverse mass
1 moving at (1, 0, 0) against one of inverse mass 2 moving at (-1, 0, 0); the momentum
`(1, 0, 0) / 1 + (-1, 0, 0) / 2 = (1/2, 0, 0)` is kept. -/
theorem ResolveContact_conserves_momentum_witness :
    (ResolveContact (Libm.mk Real.sqrt Real.sin Real.cos)
        (Contact.mk ⟨0, 0, 0⟩ ⟨1, 0, 0⟩ ⟨0, 0, 0⟩ ⟨-1, 0, 0⟩ ⟨-1, 0, 0⟩ 0 (1 / 100) 0 1)
        (Body.mk ⟨-1, 0, 0⟩ ⟨0, 0, 0, 1⟩ ⟨1, 0, 0⟩ ⟨0, 0, 0⟩ (1 : ℝ) 1 0 ⟨1⟩)
        (Body.mk ⟨1, 0, 0⟩ ⟨0, 0, 0, 1⟩ ⟨-1, 0, 0⟩ ⟨0, 0, 0⟩ (2 : ℝ) 1 0 ⟨1⟩)).1.linearVelocity
        * (1 / (ResolveContact (Libm.mk Real.sqrt Real.sin Real.cos)
        (Contact.mk ⟨0, 0, 0⟩ ⟨1, 0, 0⟩ ⟨0, 0, 0⟩ ⟨-1, 0, 0⟩ ⟨-1, 0, 0⟩ 0 (1 / 100) 0 1)
        (Body.mk ⟨-1, 0, 0⟩ ⟨0, 0, 0, 1⟩ ⟨1, 0, 0⟩ ⟨0, 0, 0⟩ (1 : ℝ) 1 0 ⟨1⟩)
        (Body.mk ⟨1, 0, 0⟩ ⟨0, 0, 0, 1⟩ ⟨-1, 0, 0⟩ ⟨0, 0, 0⟩ (2 : ℝ) 1 0 ⟨1⟩)).1.inverseMass)
      + (ResolveContact (Libm.mk Real.sqrt Real.sin Real.cos)
        (Contact.mk ⟨0, 0, 0⟩ ⟨1, 0, 0⟩ ⟨0, 0, 0⟩ ⟨-1, 0, 0⟩ ⟨-1, 0, 0⟩ 0 (1 / 100) 0 1)
        (Body.mk ⟨-1, 0, 0⟩ ⟨0, 0, 0, 1⟩ ⟨1, 0, 0⟩ ⟨0, 0, 0⟩ (1 : ℝ) 1 0 ⟨1⟩)
        (Body.mk ⟨1, 0, 0⟩ ⟨0, 0, 0, 1⟩ ⟨-1, 0, 0⟩ ⟨0, 0, 0⟩ (2 : ℝ) 1 0 ⟨1⟩)).2.linearVelocity
        * (1 / (ResolveContact (Libm.mk Real.sqrt Real.sin Real.cos)
        (Contact.mk ⟨0, 0, 0⟩ ⟨1, 0, 0⟩ ⟨0, 0, 0⟩ ⟨-1, 0, 0⟩ ⟨-1, 0, 0⟩ 0 (1 / 100) 0 1)
        (Body.mk ⟨-1, 0, 0⟩ ⟨0, 0, 0, 1⟩ ⟨1, 0, 0⟩ ⟨0, 0, 0⟩ (1 : ℝ) 1 0 ⟨1⟩)
        (Body.mk ⟨1, 0, 0⟩ ⟨0, 0, 0, 1⟩ ⟨-1, 0, 0⟩ ⟨0, 0, 0⟩ (2 : ℝ) 1 0 ⟨1⟩)).2.inverseMass)
      = ⟨1 / 2, 0, 0⟩ := by
  have h := (ResolveContact_conserves_momentum (Libm.mk Real.sqrt Real.sin Real.cos)
    (Contact.mk ⟨0, 0, 0⟩ ⟨1, 0, 0⟩ ⟨0, 0, 0⟩ ⟨-1, 0, 0⟩ ⟨-1, 0, 0⟩ 0 (1 / 100) 0 1)
    (Body.mk ⟨-1, 0, 0⟩ ⟨0, 0, 0, 1⟩ ⟨1, 0, 0⟩ ⟨0, 0, 0⟩ (1 : ℝ) 1 0 ⟨1⟩)
    (Body.mk ⟨1, 0, 0⟩ ⟨0, 0, 0, 1⟩ ⟨-1, 0, 0⟩ ⟨0, 0, 0⟩ (2 : ℝ) 1 0 ⟨1⟩)
    (by norm_num) (by norm_num)).2.2
  rw [h, Vec3.ext_iff3]
  norm_num

/-- After `Body::ApplyImpulse` a dynamic body has squared angular speed at most `30²`. -/
theorem Body.applyImpulse_clamped (m : Libm F) (hm : m.SqrtExact) (b : Body F)
    (pt impulse : Vec3 F) :
    b.inverseMass = 0 ∨ (b.ApplyImpulse m pt impulse).angularVelocity.GetLengthSqr ≤ 30 * 30 := by
  by_cases h : b.inverseMass = 0
  · exact Or.inl h
  · right
    unfold Body.ApplyImpulse
    rw [if_neg h]
    simp only []
    have h1 : (b.ApplyImpulseLinear impulse).inverseMass ≠ 0 := by
      unfold Body.ApplyImpulseLinear
      rw [if_neg h]
      exact h
    rw [Body.applyImpulseAngular_dynamic m _ _ h1]
    split
    · rename_i hgt
      exact le_of_eq (clamp_lengthSqr m hm _ hgt)
    · rename_i hle
      exact not_lt.mp hle

/-- The zero impulse leaves a body as it is, provided the body is static or its squared
angular speed is at most `30²`. -/
theorem Body.applyImpulse_zero_impulse (m : Libm F) (b : Body F) (pt : Vec3 F) (k : F)
    (h : b.inverseMass = 0 ∨ b.angularVelocity.GetLengthSqr ≤ 30 * 30) :
    b.ApplyImpulse m pt ((Vec3.zero : Vec3 F) * k) = b := by
  by_cases hs : b.inverseMass = 0
  · unfold Body.ApplyImpulse
    rw [if_pos hs]
  · have hw : b.angularVelocity.GetLengthSqr ≤ 30 * 30 := h.resolve_left hs
    have hz : (Vec3.zero : Vec3 F) * k = Vec3.zero := by
      rw [Vec3.ext_iff3]; simp [Vec3.zero]
    have e1 : b.ApplyImpulseLinear (Vec3.zero : Vec3 F) = b := by
      unfold Body.ApplyImpulseLinear
      rw [if_neg hs]
      cases b
      simp only [Body.mk.injEq, true_and, and_true]
      rw [Vec3.ext_iff3]
      simp [Vec3.zero]
    have e2 : ∀ v : Vec3 F, v.Cross (Vec3.zero : Vec3 F) = Vec3.zero := by
      intro v
      rw [Vec3.ext_iff3]; simp [Vec3.Cross, Vec3.zero]
    have e3 : b.angularVelocity + (Vec3.zero : Vec3 F) = b.angularVelocity := by
      rw [Vec3.ext_iff3]; simp [Vec3.zero]
    unfold Body.ApplyImpulse
    rw [if_neg hs, hz]
    simp only [e1, e2]
    rw [Body.applyImpulseAngular_dynamic m b _ hs, Mat3.mulVec_zero, e3,
      if_neg (not_lt.mpr hw)]

/-- Exact-arithmetic form of C24, for `float` read as an ordered field (binary32 rounding,
overflow and NaN are outside it): friction is skipped on zero tangential velocity.  For every contact with at least
one dynamic body whose relative contact-point velocity `velAb` has no component tangent to
the normal (`velAb = n * (velAb · n)`), the friction stage of `Contact::ResolveContact`
changes nothing: the linear and angular velocities of both bodies after the call are those
left by the collision impulse `n * impulseValueJ` alone. -/
theorem friction_skipped_without_tangent (m : Libm F) (hm : m.SqrtExact) (c : Contact F)
    (a b : Body F) (_hdyn : a.inverseMass ≠ 0 ∨ b.inverseMass ≠ 0)
    (ht : contactVelAb c a b = c.normal * (contactVelAb c a b).Dot c.normal) :
    (ResolveContact m c a b).1.linearVelocity
      = (a.ApplyImpulse m c.ptOnAWorldSpace (contactImpulse c a b * (-1 : F))).linearVelocity ∧
    (ResolveContact m c a b).1.angularVelocity
      = (a.ApplyImpulse m c.ptOnAWorldSpace (contactImpulse c a b * (-1 : F))).angularVelocity ∧
    (ResolveContact m c a b).2.linearVelocity
      = (b.ApplyImpulse m c.ptOnBWorldSpace (contactImpulse c a b * (1 : F))).linearVelocity ∧
    (ResolveContact m c a b).2.angularVelocity
      = (b.ApplyImpulse m c.ptOnBWorldSpace (contactImpulse c a b * (1 : F))).angularVelocity := by
  obtain ⟨Jf, hJf, hva, hvb, hwa, hwb, _⟩ := resolveContact_fields m c a b
  have hT : contactVelAb c a b - c.normal * c.normal.Dot (contactVelAb c a b)
      = Vec3.zero := by
    have hcomm : c.normal.Dot (contactVelAb c a b) = (contactVelAb c a b).Dot c.normal := by
      simp only [Vec3.Dot]; ring
    rw [hcomm]
    nth_rewrite 1 [ht]
    rw [Vec3.ext_iff3]
    simp [Vec3.zero]
  have hJ0 : Jf = Vec3.zero := by
    rw [hJf, hT, Vec3.ext_iff3]
    simp [Vec3.zero]
  have fa := Body.applyImpulse_fields m a c.ptOnAWorldSpace (contactImpulse c a b * (-1 : F))
  have fb := Body.applyImpulse_fields m b c.ptOnBWorldSpace (contactImpulse c a b * (1 : F))
  have ca : (a.ApplyImpulse m c.ptOnAWorldSpace (contactImpulse c a b * (-1 : F))).inverseMass
        = 0 ∨
      (a.ApplyImpulse m c.ptOnAWorldSpace
        (contactImpulse c a b * (-1 : F))).angularVelocity.GetLengthSqr ≤ 30 * 30 := by
    rw [fa.2.2.2.1]
    exact Body.applyImpulse_clamped m hm a _ _
  have cb : (b.ApplyImpulse m c.ptOnBWorldSpace (contactImpulse c a b * (1 : F))).inverseMass
        = 0 ∨
      (b.ApplyImpulse m c.ptOnBWorldSpace
        (contactImpulse c a b * (1 : F))).angularVelocity.GetLengthSqr ≤ 30 * 30 := by
    rw [fb.2.2.2.1]
    exact Body.applyImpulse_clamped m hm b _ _
  rw [hva, hvb, hwa, hwb, hJ0, Body.applyImpulse_zero_impulse m _ _ _ ca,
    Body.applyImpulse_zero_impulse m _ _ _ cb, fa.1, fb.1]
  refine ⟨?_, rfl, ?_, rfl⟩
  · rw [Vec3.ext_iff3]; simp [Vec3.zero]
  · rw [Vec3.ext_iff3]; simp [Vec3.zero]

/-- Witness for C24 over the reals: two unit spheres with friction 1/2 meeting head-on along
the x axis, so that `velAb = (2, 0, 0)` is along the normal `(-1, 0, 0)`. -/
theorem friction_skipped_without_tangent_witness :
    (Libm.mk Real.sqrt Real.sin Real.cos).SqrtExact ∧
    contactVelAb
        (Contact.mk ⟨0, 0, 0⟩ ⟨1, 0, 0⟩ ⟨0, 0, 0⟩ ⟨-1, 0, 0⟩ ⟨-1, 0, 0⟩ 0 (1 / 100) 0 1)
        (Body.mk ⟨-1, 0, 0⟩ ⟨0, 0, 0, 1⟩ ⟨1, 0, 0⟩ ⟨0, 0, 0⟩ (1 : ℝ) (1 / 2) (1 / 2) ⟨1⟩)
        (Body.mk ⟨1, 0, 0⟩ ⟨0, 0, 0, 1⟩ ⟨-1, 0, 0⟩ ⟨0, 0, 0⟩ (1 : ℝ) (1 / 2) (1 / 2) ⟨1⟩)
      = ⟨2, 0, 0⟩ ∧
    (ResolveContact (Libm.mk Real.sqrt Real.sin Real.cos)
        (Contact.mk ⟨0, 0, 0⟩ ⟨1, 0, 0⟩ ⟨0, 0, 0⟩ ⟨-1, 0, 0⟩ ⟨-1, 0, 0⟩ 0 (1 / 100) 0 1)
        (Body.mk ⟨-1, 0, 0⟩ ⟨0, 0, 0, 1⟩ ⟨1, 0, 0⟩ ⟨0, 0, 0⟩ (1 : ℝ) (1 / 2) (1 / 2) ⟨1⟩)
        (Body.mk ⟨1, 0, 0⟩ ⟨0, 0, 0, 1⟩ ⟨-1, 0, 0⟩ ⟨0, 0, 0⟩ (1 : ℝ) (1 / 2) (1 / 2)
          ⟨1⟩)).1.linearVelocity
      = ((Body.mk ⟨-1, 0, 0⟩ ⟨0, 0, 0, 1⟩ ⟨1, 0, 0⟩ ⟨0, 0, 0⟩ (1 : ℝ) (1 / 2) (1 / 2)
          ⟨1⟩).ApplyImpulse (Libm.mk Real.sqrt Real.sin Real.cos) ⟨0, 0, 0⟩
          (contactImpulse
            (Contact.mk ⟨0, 0, 0⟩ ⟨1, 0, 0⟩ ⟨0, 0, 0⟩ ⟨-1, 0, 0⟩ ⟨-1, 0, 0⟩ 0 (1 / 100) 0 1)
            (Body.mk ⟨-1, 0, 0⟩ ⟨0, 0, 0, 1⟩ ⟨1, 0, 0⟩ ⟨0, 0, 0⟩ (1 : ℝ) (1 / 2) (1 / 2) ⟨1⟩)
            (Body.mk ⟨1, 0, 0⟩ ⟨0, 0, 0, 1⟩ ⟨-1, 0, 0⟩ ⟨0, 0, 0⟩ (1 : ℝ) (1 / 2) (1 / 2) ⟨1⟩)
            * (-1 : ℝ))).linearVelocity := by
  have hV : contactVelAb
        (Contact.mk ⟨0, 0, 0⟩ ⟨1, 0, 0⟩ ⟨0, 0, 0⟩ ⟨-1, 0, 0⟩ ⟨-1, 0, 0⟩ 0 (1 / 100) 0 1)
        (Body.mk ⟨-1, 0, 0⟩ ⟨0, 0, 0, 1⟩ ⟨1, 0, 0⟩ ⟨0, 0, 0⟩ (1 : ℝ) (1 / 2) (1 / 2) ⟨1⟩)
        (Body.mk ⟨1, 0, 0⟩ ⟨0, 0, 0, 1⟩ ⟨-1, 0, 0⟩ ⟨0, 0, 0⟩ (1 : ℝ) (1 / 2) (1 / 2) ⟨1⟩)
      = ⟨2, 0, 0⟩ := by
    simp only [contactVelAb, Body.centerOfMass_eq]
    rw [Vec3.ext_iff3]
    norm_num [Vec3.Cross]
  refine ⟨real_sqrtExact, hV, ?_⟩
  exact (friction_skipped_without_tangent (Libm.mk Real.sqrt Real.sin Real.cos)
    real_sqrtExact
    (Contact.mk ⟨0, 0, 0⟩ ⟨1, 0, 0⟩ ⟨0, 0, 0⟩ ⟨-1, 0, 0⟩ ⟨-1, 0, 0⟩ 0 (1 / 100) 0 1)
    (Body.mk ⟨-1, 0, 0⟩ ⟨0, 0, 0, 1⟩ ⟨1, 0, 0⟩ ⟨0, 0, 0⟩ (1 : ℝ) (1 / 2) (1 / 2) ⟨1⟩)
    (Body.mk ⟨1, 0, 0⟩ ⟨0, 0, 0, 1⟩ ⟨-1, 0, 0⟩ ⟨0, 0, 0⟩ (1 : ℝ) (1 / 2) (1 / 2) ⟨1⟩)
    (Or.inl (by norm_num))
    (by
      rw [hV, Vec3.ext_iff3]
      norm_num [Vec3.Dot])).1

/-- With contact arms parallel to the normal the angular factor of
`Contact::ResolveContact` is zero. -/
theorem contactAngularFactor_parallel (c : Contact F) (a b : Body F) (ρA ρB : F)
    (hrA : c.ptOnAWorldSpace - a.position = c.normal * ρA)
    (hrB : c.ptOnBWorldSpace - b.position = c.normal * ρB) :
    contactAngularFactor c a b = 0 := by
  have hc : ∀ ρ : F, (c.normal * ρ).Cross c.normal = Vec3.zero := by
    intro ρ
    rw [Vec3.ext_iff3]
    simp only [Vec3.Cross, Vec3.scale_x, Vec3.scale_y, Vec3.scale_z, Vec3.zero]
    refine ⟨?_, ?_, ?_⟩ <;> ring
  simp only [contactAngularFactor, Body.centerOfMass_eq, hrA, hrB, hc, Mat3.mulVec_zero,
    Vec3.zero_cross]
  simp [Vec3.Dot, Vec3.zero]

/-- With contact arms parallel to the normal the normal component of `velAb` is that of the
difference of the linear velocities. -/
theorem contactVelAb_dot_parallel (c : Contact F) (a b : Body F) (ρA ρB : F)
    (hrA : c.ptOnAWorldSpace - a.position = c.normal * ρA)
    (hrB : c.ptOnBWorldSpace - b.position = c.normal * ρB) :
    (contactVelAb c a b).Dot c.normal = (a.linearVelocity - b.linearVelocity).Dot c.normal := by
  simp only [contactVelAb, Body.centerOfMass_eq, hrA, hrB, Vec3.Dot, Vec3.Cross, Vec3.add_x,
    Vec3.add_y, Vec3.add_z, Vec3.sub_x, Vec3.sub_y, Vec3.sub_z, Vec3.scale_x, Vec3.scale_y,
    Vec3.scale_z]
  ring

/-- Exact-arithmetic form of C27, for `float` read as an ordered field (binary32 rounding,
overflow and NaN are outside it): restitution law.  For every contact between two sphere bodies with inverse masses
`≥ 0`, at least one of them dynamic, a unit normal `n` and contact arms `rA`, `rB` parallel
to `n`, after `Contact::ResolveContact` the normal component of the relative velocity of
the contact points is `-(eA * eB)` times that of `velAb` before the call: for the velocity
`v + ω × r` of any points on the lines through the centres along `n`, and so for `velAb`
recomputed at the contact points when the positions are not shifted or are shifted along
`n`.  Friction coefficients and angular velocities are arbitrary, so the law holds whether
or not the angular clamp triggers. -/
theorem restitution_law (m : Libm F) (c : Contact F) (a b : Body F) (ρA ρB : F)
    (hA : 0 ≤ a.inverseMass) (hB : 0 ≤ b.inverseMass)
    (hdyn : a.inverseMass ≠ 0 ∨ b.inverseMass ≠ 0)
    (hn : c.normal.Dot c.normal = 1)
    (hrA : c.ptOnAWorldSpace - a.GetCenterOfMassWorldSpace = c.normal * ρA)
    (hrB : c.ptOnBWorldSpace - b.GetCenterOfMassWorldSpace = c.normal * ρB) :
    (∀ σA σB : F,
      (((ResolveContact m c a b).1.linearVelocity
          + (ResolveContact m c a b).1.angularVelocity.Cross (c.normal * σA))
        - ((ResolveContact m c a b).2.linearVelocity
          + (ResolveContact m c a b).2.angularVelocity.Cross (c.normal * σB))).Dot c.normal
        = -(a.elasticity * b.elasticity) * (contactVelAb c a b).Dot c.normal) ∧
    ((c.timeOfImpact ≠ 0 ∨ ∃ δ : F, c.ptOnBWorldSpace - c.ptOnAWorldSpace = c.normal * δ) →
      (contactVelAb c (ResolveContact m c a b).1 (ResolveContact m c a b).2).Dot c.normal
        = -(a.elasticity * b.elasticity) * (contactVelAb c a b).Dot c.normal) := by
  rw [Body.centerOfMass_eq] at hrA hrB
  have hD : a.inverseMass + b.inverseMass ≠ 0 := by
    rcases hdyn with h | h
    · have : 0 < a.inverseMass := lt_of_le_of_ne hA (Ne.symm h)
      exact ne_of_gt (by linarith)
    · have : 0 < b.inverseMass := lt_of_le_of_ne hB (Ne.symm h)
      exact ne_of_gt (by linarith)
  obtain ⟨Jf, hJf, hva, hvb, _, _, hpa, hpb, _⟩ := resolveContact_fields m c a b
  have haf := contactAngularFactor_parallel c a b ρA ρB hrA hrB
  have hVn := contactVelAb_dot_parallel c a b ρA ρB hrA hrB
  have hj : ∃ j : F, contactImpulse c a b = c.normal * j ∧
      j * (a.inverseMass + b.inverseMass)
        = (1 + a.elasticity * b.elasticity) * (contactVelAb c a b).Dot c.normal := by
    refine ⟨_, contactImpulse_eq c a b, ?_⟩
    rw [haf, add_zero]
    field_simp
  obtain ⟨j, hJ, hjD⟩ := hj
  have key : ∀ (w1 w2 : Vec3 F) (σA σB : F),
      (((ResolveContact m c a b).1.linearVelocity + w1.Cross (c.normal * σA))
        - ((ResolveContact m c a b).2.linearVelocity + w2.Cross (c.normal * σB))).Dot c.normal
        = -(a.elasticity * b.elasticity) * (contactVelAb c a b).Dot c.normal := by
    intro w1 w2 σA σB
    rw [hva, hvb, hJ, hJf]
    generalize 1 / (a.inverseMass + b.inverseMass + contactInverseInertia m c a b) = red
    generalize contactVelAb c a b = V at hVn hjD ⊢
    simp only [Vec3.Dot, Vec3.Cross, Vec3.add_x, Vec3.add_y, Vec3.add_z, Vec3.sub_x,
      Vec3.sub_y, Vec3.sub_z, Vec3.scale_x, Vec3.scale_y, Vec3.scale_z] at hn hVn hjD ⊢
    linear_combination (-1 : F) * hVn - hjD
      + (red * (a.friction * b.friction) * (a.inverseMass + b.inverseMass)
          * (V.x * c.normal.x + V.y * c.normal.y + V.z * c.normal.z)
        - j * (a.inverseMass + b.inverseMass)) * hn
  refine ⟨fun σA σB => key _ _ σA σB, ?_⟩
  intro hshift
  have hnew : ∃ τA τB : F,
      c.ptOnAWorldSpace - (ResolveContact m c a b).1.position = c.normal * τA ∧
      c.ptOnBWorldSpace - (ResolveContact m c a b).2.position = c.normal * τB := by
    by_cases ht : c.timeOfImpact = 0
    · obtain ⟨δ, hδ⟩ := hshift.resolve_left (not_not.mpr ht)
      rw [hpa, hpb, if_pos ht, if_pos ht, hδ]
      rw [Vec3.ext_iff3] at hrA hrB
      simp only [Vec3.sub_x, Vec3.sub_y, Vec3.sub_z, Vec3.scale_x, Vec3.scale_y, Vec3.scale_z]
        at hrA hrB
      refine ⟨ρA - δ * (a.inverseMass / (a.inverseMass + b.inverseMass)),
        ρB + δ * (b.inverseMass / (a.inverseMass + b.inverseMass)), ?_, ?_⟩
      · rw [Vec3.ext_iff3]
        simp only [Vec3.sub_x, Vec3.sub_y, Vec3.sub_z, Vec3.add_x, Vec3.add_y, Vec3.add_z,
          Vec3.scale_x, Vec3.scale_y, Vec3.scale_z]
        refine ⟨?_, ?_, ?_⟩
        · linear_combination hrA.1
        · linear_combination hrA.2.1
        · linear_combination hrA.2.2
      · rw [Vec3.ext_iff3]
        simp only [Vec3.sub_x, Vec3.sub_y, Vec3.sub_z, Vec3.add_x, Vec3.add_y, Vec3.add_z,
          Vec3.scale_x, Vec3.scale_y, Vec3.scale_z]
        refine ⟨?_, ?_, ?_⟩
        · linear_combination hrB.1
        · linear_combination hrB.2.1
        · linear_combination hrB.2.2
    · rw [hpa, hpb, if_neg ht, if_neg ht]
      exact ⟨ρA, ρB, hrA, hrB⟩
  obtain ⟨τA, τB, hτA, hτB⟩ := hnew
  have e : contactVelAb c (ResolveContact m c a b).1 (ResolveContact m c a b).2
      = ((ResolveContact m c a b).1.linearVelocity
          + (ResolveContact m c a b).1.angularVelocity.Cross (c.normal * τA))
        - ((ResolveContact m c a b).2.linearVelocity
          + (ResolveContact m c a b).2.angularVelocity.Cross (c.normal * τB)) := by
    simp only [contactVelAb, Body.centerOfMass_eq, hτA, hτB]
  rw [e]
  exact key _ _ τA τB

/-- Witness for C27 over the reals: a spinning unit sphere with elasticity 1/2 and friction
1/2 moving at (1, 0, 0) into a static unit sphere with the same coefficients; the contact
points approach at normal speed `-1` before the call and separate at `1/4` after it. -/
theorem restitution_law_witness :
    (contactVelAb
        (Contact.mk ⟨0, 0, 0⟩ ⟨1, 0, 0⟩ ⟨0, 0, 0⟩ ⟨-1, 0, 0⟩ ⟨-1, 0, 0⟩ 0 (1 / 100) 0 1)
        (Body.mk ⟨-1, 0, 0⟩ ⟨0, 0, 0, 1⟩ ⟨1, 0, 0⟩ ⟨0, 0, 3⟩ (1 : ℝ) (1 / 2) (1 / 2) ⟨1⟩)
        (Body.mk ⟨1, 0, 0⟩ ⟨0, 0, 0, 1⟩ ⟨0, 0, 0⟩ ⟨0, 0, 0⟩ (0 : ℝ) (1 / 2) (1 / 2) ⟨1⟩)).Dot
        (⟨-1, 0, 0⟩ : Vec3 ℝ) = -1 ∧
    (contactVelAb
        (Contact.mk ⟨0, 0, 0⟩ ⟨1, 0, 0⟩ ⟨0, 0, 0⟩ ⟨-1, 0, 0⟩ ⟨-1, 0, 0⟩ 0 (1 / 100) 0 1)
        (ResolveContact (Libm.mk Real.sqrt Real.sin Real.cos)
          (Contact.mk ⟨0, 0, 0⟩ ⟨1, 0, 0⟩ ⟨0, 0, 0⟩ ⟨-1, 0, 0⟩ ⟨-1, 0, 0⟩ 0 (1 / 100) 0 1)
          (Body.mk ⟨-1, 0, 0⟩ ⟨0, 0, 0, 1⟩ ⟨1, 0, 0⟩ ⟨0, 0, 3⟩ (1 : ℝ) (1 / 2) (1 / 2) ⟨1⟩)
          (Body.mk ⟨1, 0, 0⟩ ⟨0, 0, 0, 1⟩ ⟨0, 0, 0⟩ ⟨0, 0, 0⟩ (0 : ℝ) (1 / 2) (1 / 2) ⟨1⟩)).1
        (ResolveContact (Libm.mk Real.sqrt Real.sin Real.cos)
          (Contact.mk ⟨0, 0, 0⟩ ⟨1, 0, 0⟩ ⟨0, 0, 0⟩ ⟨-1, 0, 0⟩ ⟨-1, 0, 0⟩ 0 (1 / 100) 0 1)
          (Body.mk ⟨-1, 0, 0⟩ ⟨0, 0, 0, 1⟩ ⟨1, 0, 0⟩ ⟨0, 0, 3⟩ (1 : ℝ) (1 / 2) (1 / 2) ⟨1⟩)
          (Body.mk ⟨1, 0, 0⟩ ⟨0, 0, 0, 1⟩ ⟨0, 0, 0⟩ ⟨0, 0, 0⟩ (0 : ℝ) (1 / 2) (1 / 2) ⟨1⟩)).2).Dot
        (⟨-1, 0, 0⟩ : Vec3 ℝ) = 1 / 4 := by
  have hV : (contactVelAb
        (Contact.mk ⟨0, 0, 0⟩ ⟨1, 0, 0⟩ ⟨0, 0, 0⟩ ⟨-1, 0, 0⟩ ⟨-1, 0, 0⟩ 0 (1 / 100) 0 1)
        (Body.mk ⟨-1, 0, 0⟩ ⟨0, 0, 0, 1⟩ ⟨1, 0, 0⟩ ⟨0, 0, 3⟩ (1 : ℝ) (1 / 2) (1 / 2) ⟨1⟩)
        (Body.mk ⟨1, 0, 0⟩ ⟨0, 0, 0, 1⟩ ⟨0, 0, 0⟩ ⟨0, 0, 0⟩ (0 : ℝ) (1 / 2) (1 / 2) ⟨1⟩)).Dot
        (⟨-1, 0, 0⟩ : Vec3 ℝ) = -1 := by
    simp only [contactVelAb, Body.centerOfMass_eq]
    norm_num [Vec3.Cross, Vec3.Dot]
  have h := (restitution_law (Libm.mk Real.sqrt Real.sin Real.cos)
    (Contact.mk ⟨0, 0, 0⟩ ⟨1, 0, 0⟩ ⟨0, 0, 0⟩ ⟨-1, 0, 0⟩ ⟨-1, 0, 0⟩ 0 (1 / 100) 0 1)
    (Body.mk ⟨-1, 0, 0⟩ ⟨0, 0, 0, 1⟩ ⟨1, 0, 0⟩ ⟨0, 0, 3⟩ (1 : ℝ) (1 / 2) (1 / 2) ⟨1⟩)
    (Body.mk ⟨1, 0, 0⟩ ⟨0, 0, 0, 1⟩ ⟨0, 0, 0⟩ ⟨0, 0, 0⟩ (0 : ℝ) (1 / 2) (1 / 2) ⟨1⟩)
    (-1) 1 (by norm_num) (by norm_num) (Or.inl (by norm_num))
    (by norm_num [Vec3.Dot])
    (by rw [Body.centerOfMass_eq, Vec3.ext_iff3]; norm_num)
    (by rw [Body.centerOfMass_eq, Vec3.ext_iff3]; norm_num)).2 (Or.inl (by norm_num))
  refine ⟨hV, ?_⟩
  have h2 := h.trans (congrArg (fun t => -((1 / 2 : ℝ) * (1 / 2)) * t) hV)
  rw [h2]
  norm_num

end ResolveProofs

/-! ## SphereSphereDynamic: the short-ray path and the contact points -/

section ContactPointProofs

variable {F : Type} [LinearOrderedField F]

/-- Exact-arithmetic form of C23, for `float` read as an ordered field (binary32 rounding,
overflow and NaN are outside it): short-ray fallback.  For every input with `dt ≥ 0` and
`‖(velA - velB) * dt‖² < 1e-6`, `Intersections::SphereSphereDynamic` returns false exactly
when `‖posB - posA‖² > (rA + rB + 0.001)²`; otherwise it returns true with
`timeOfImpact = 0`, `ptOnA = posA + n * rA` and `ptOnB = posB - n * rB`, where
`n = normalize(posB - posA)`. -/
theorem SphereSphereDynamic_short_ray (m : Libm F) (A B : ShapeSphere F)
    (posA posB velA velB : Vec3 F) (dt : F) (hdt : 0 ≤ dt)
    (hshort : ((velA - velB) * dt).GetLengthSqr < 0.000001) :
    (SphereSphereDynamic m A B posA posB velA velB dt = none ↔
      (posB - posA).GetLengthSqr > (A.radius + B.radius + 0.001) * (A.radius + B.radius + 0.001)) ∧
    (¬ (posB - posA).GetLengthSqr
        > (A.radius + B.radius + 0.001) * (A.radius + B.radius + 0.001) →
      SphereSphereDynamic m A B posA posB velA velB dt
        = some (posA + (posB - posA).Normalize m * A.radius,
                posB - (posB - posA).Normalize m * B.radius, 0)) := by
  have hs : ((velA - velB) * dt).GetLengthSqr < 0.001 * 0.001 := by
    have e : (0.001 : F) * 0.001 = 0.000001 := by norm_num
    rw [e]
    exact hshort
  have hz : ∀ p v : Vec3 F, p + v * (0 : F) = p := by
    intro p v
    rw [Vec3.ext_iff3]
    simp
  have hhit : ¬ (posB - posA).GetLengthSqr
        > (A.radius + B.radius + 0.001) * (A.radius + B.radius + 0.001) →
      SphereSphereDynamic m A B posA posB velA velB dt
        = some (posA + (posB - posA).Normalize m * A.radius,
                posB - (posB - posA).Normalize m * B.radius, 0) := by
    intro hle
    unfold SphereSphereDynamic
    simp only [rayDir_eq]
    rw [if_pos hs, if_neg hle]
    simp only [zero_mul, lt_irrefl, if_false, gt_iff_lt, not_lt.mpr hdt, hz]
  refine ⟨⟨fun hnone => ?_, fun hgt => ?_⟩, hhit⟩
  · by_contra hle
    rw [hhit hle] at hnone
    exact absurd hnone (by simp)
  · unfold SphereSphereDynamic
    simp only [rayDir_eq]
    rw [if_pos hs, if_pos hgt]

/-- Witness for C23 over the reals: two unit spheres at rest with centres 2 apart along the
x axis are reported touching at time 0, at the point (1, 0, 0). -/
theorem SphereSphereDynamic_short_ray_witness :
    SphereSphereDynamic (Libm.mk Real.sqrt Real.sin Real.cos) ⟨1⟩ ⟨1⟩ ⟨0, 0, 0⟩ ⟨2, 0, 0⟩
        ⟨0, 0, 0⟩ ⟨0, 0, 0⟩ (1 / 60 : ℝ)
      = some (⟨1, 0, 0⟩, ⟨1, 0, 0⟩, 0) := by
  have h := (SphereSphereDynamic_short_ray (Libm.mk Real.sqrt Real.sin Real.cos) ⟨1⟩ ⟨1⟩
    ⟨0, 0, 0⟩ ⟨2, 0, 0⟩ ⟨0, 0, 0⟩ ⟨0, 0, 0⟩ (1 / 60 : ℝ) (by norm_num)
    (by norm_num [Vec3.GetLengthSqr, Vec3.Dot])).2
    (by norm_num [Vec3.GetLengthSqr, Vec3.Dot])
  rw [h]
  have e : Real.sqrt 4 = 2 := real_sqrt_eq 4 2 (by norm_num) (by norm_num)
  simp only [Option.some.injEq, Prod.mk.injEq, Vec3.Normalize, Vec3.GetMagnitude,
    Vec3.GetLengthSqr, Vec3.Dot, Vec3.mk_sub_mk, Vec3.ext_iff3, Vec3.add_x, Vec3.add_y,
    Vec3.add_z, Vec3.sub_x, Vec3.sub_y, Vec3.sub_z, Vec3.scale_x, Vec3.scale_y, Vec3.scale_z]
  norm_num [e]

/-- A hit of `SphereSphereDynamic` on the long-ray path, for spheres that do not overlap
at time 0: at the reported time the centres are exactly `rA + rB` apart. -/
theorem long_hit_touching (m : Libm F) (hm : m.SqrtExact)
    (A B : ShapeSphere F) (posA posB velA velB ptA ptB : Vec3 F) (dt toi : F)
    (hr : 0 ≤ A.radius + B.radius)
    (hsep : (A.radius + B.radius) * (A.radius + B.radius) ≤ (posB - posA).GetLengthSqr)
    (hlong : 0.001 * 0.001 ≤ ((velA - velB) * dt).GetLengthSqr)
    (h : SphereSphereDynamic m A B posA posB velA velB dt = some (ptA, ptB, toi)) :
    ((posA + velA * toi) - (posB + velB * toi)).GetLengthSqr
      = (A.radius + B.radius) * (A.radius + B.radius) := by
  have hle := long_hit_within m hm A B posA posB velA velB ptA ptB dt toi hr hlong h
  have ha : 0 < ((velA - velB) * dt).Dot ((velA - velB) * dt) :=
    lt_of_lt_of_le (by norm_num) hlong
  obtain ⟨t0, t1, hhit, h1, htoi, h2, _, _⟩ :=
    sphereSphereDynamic_some m A B posA posB velA velB dt ptA ptB toi h
  have htoi0 : 0 ≤ toi := by
    rw [htoi]
    split
    · exact le_refl 0
    · rename_i h0; exact not_lt.mp h0
  have hdt : 0 < dt := by
    rcases lt_trichotomy dt 0 with hneg | hz | hpos
    · exact absurd (lt_of_lt_of_le hneg htoi0) h2
    · exfalso
      rw [hz] at hlong
      simp [Vec3.GetLengthSqr, Vec3.Dot] at hlong
      norm_num at hlong
    · exact hpos
  by_cases h0 : t0 * dt < 0
  · rw [if_pos h0] at htoi
    apply le_antisymm hle
    rw [htoi]
    have e : ((posA + velA * (0 : F)) - (posB + velB * (0 : F))).GetLengthSqr
        = (posB - posA).GetLengthSqr := by
      simp only [Vec3.GetLengthSqr, Vec3.Dot, Vec3.add_x, Vec3.add_y, Vec3.add_z, Vec3.sub_x,
        Vec3.sub_y, Vec3.sub_z, Vec3.scale_x, Vec3.scale_y, Vec3.scale_z]
      ring
    rw [e]
    exact hsep
  · rw [if_neg h0] at htoi
    simp only [if_neg (not_lt.mpr hlong), raySphere_eq] at hhit
    split at hhit
    · exact absurd hhit (by simp)
    · rename_i hd
      obtain ⟨_, hss⟩ := hm _ (not_lt.mp hd)
      simp only [Option.some.injEq, Prod.mk.injEq] at hhit
      obtain ⟨e0, _⟩ := hhit
      have ht : toi * (1 / dt) = t0 := by
        rw [htoi]
        field_simp
      have hq := raySphere_quadratic posA ((velA - velB) * dt) posB (A.radius + B.radius)
        (toi * (1 / dt))
      rw [separation_eq_ray posA posB velA velB dt toi (ne_of_gt hdt)]
      rw [ht, ← e0] at hq
      rw [ht, ← e0]
      generalize ((velA - velB) * dt).Dot ((velA - velB) * dt) = a at ha hq hss ⊢
      generalize (posB - posA).Dot ((velA - velB) * dt) = b at hq hss ⊢
      generalize m.sqrtf (b * b - a * ((posB - posA).Dot (posB - posA)
        - (A.radius + B.radius) * (A.radius + B.radius))) = s at hq hss ⊢
      have hab : a * ((b - s) * (1 / a)) = b - s := by
        field_simp
      rw [hab] at hq
      have hz : a * ((posA + (velA - velB) * dt * ((b - s) * (1 / a)) - posB).GetLengthSqr
          - (A.radius + B.radius) * (A.radius + B.radius)) = 0 := by
        rw [hq]
        linear_combination hss
      rcases mul_eq_zero.mp hz with hz1 | hz1
      · exact absurd hz1 (ne_of_gt ha)
      · exact sub_eq_zero.mp hz1

/-- With an exact square root, `sqrtf (r * r) = r` for `r ≥ 0`. -/
theorem sqrt_mul_self_eq (m : Libm F) (hm : m.SqrtExact) (r : F) (hr : 0 ≤ r) :
    m.sqrtf (r * r) = r := by
  obtain ⟨h0, h1⟩ := hm (r * r) (mul_self_nonneg r)
  have h2 : (m.sqrtf (r * r) - r) * (m.sqrtf (r * r) + r) = 0 := by linear_combination h1
  rcases mul_eq_zero.mp h2 with h | h
  · exact sub_eq_zero.mp h
  · have hr0 : r = 0 := by linarith
    have hs0 : m.sqrtf (r * r) = 0 := by linarith
    rw [hs0, hr0]

/-- Exact-arithmetic form of C30, for `float` read as an ordered field (binary32 rounding,
overflow and NaN are outside it): at a true time of impact the two contact points coincide.  For every hit reported
by `Intersections::SphereSphereDynamic` on the long-ray path with the spheres not
overlapping at time 0 (`‖posB - posA‖ ≥ rA + rB > 0`), `ptOnA = ptOnB`, and the squared
distance of this point to A's centre at the time of impact is `rA²` and to B's centre
`rB²`: its distance is `rA` from A's centre and `rB` from B's centre, the radii being
non-negative. -/
theorem contact_points_coincide (m : Libm F) (hm : m.SqrtExact)
    (A B : ShapeSphere F) (posA posB velA velB ptA ptB : Vec3 F) (dt toi : F)
    (hR : 0 < A.radius + B.radius)
    (hsep : A.radius + B.radius ≤ (posB - posA).GetMagnitude m)
    (hlong : 0.001 * 0.001 ≤ ((velA - velB) * dt).GetLengthSqr)
    (h : SphereSphereDynamic m A B posA posB velA velB dt = some (ptA, ptB, toi)) :
    ptA = ptB ∧
    (ptA - (posA + velA * toi)).GetLengthSqr = A.radius * A.radius ∧
    (ptB - (posB + velB * toi)).GetLengthSqr = B.radius * B.radius ∧
    (0 ≤ A.radius → (ptA - (posA + velA * toi)).GetMagnitude m = A.radius) ∧
    (0 ≤ B.radius → (ptB - (posB + velB * toi)).GetMagnitude m = B.radius) := by
  have hsep2 : (A.radius + B.radius) * (A.radius + B.radius) ≤ (posB - posA).GetLengthSqr := by
    obtain ⟨_, h1⟩ := hm (posB - posA).GetLengthSqr (Vec3.lengthSqr_nonneg _)
    rw [← h1]
    exact mul_self_le_mul_self (le_of_lt hR) hsep
  have htouch := long_hit_touching m hm A B posA posB velA velB ptA ptB dt toi (le_of_lt hR)
    hsep2 hlong h
  obtain ⟨t0, t1, _, _, _, _, hptA, hptB⟩ :=
    sphereSphereDynamic_some m A B posA posB velA velB dt ptA ptB toi h
  have hD : ((posB + velB * toi) - (posA + velA * toi)).GetLengthSqr
      = (A.radius + B.radius) * (A.radius + B.radius) := by
    rw [← htouch]
    simp only [Vec3.GetLengthSqr, Vec3.Dot, Vec3.add_x, Vec3.add_y, Vec3.add_z, Vec3.sub_x,
      Vec3.sub_y, Vec3.sub_z, Vec3.scale_x, Vec3.scale_y, Vec3.scale_z]
    ring
  have hmag : ((posB + velB * toi) - (posA + velA * toi)).GetMagnitude m
      = A.radius + B.radius := by
    unfold Vec3.GetMagnitude
    rw [hD]
    exact sqrt_mul_self_eq m hm _ (le_of_lt hR)
  have hR0 : A.radius + B.radius ≠ 0 := ne_of_gt hR
  have hsqA : (ptA - (posA + velA * toi)).GetLengthSqr = A.radius * A.radius := by
    rw [hptA]
    simp only [Vec3.Normalize, hmag]
    simp only [Vec3.GetLengthSqr, Vec3.Dot, Vec3.add_x, Vec3.add_y, Vec3.add_z, Vec3.sub_x,
      Vec3.sub_y, Vec3.sub_z, Vec3.scale_x, Vec3.scale_y, Vec3.scale_z] at hD ⊢
    field_simp
    linear_combination A.radius * A.radius * hD
  have hsqB : (ptB - (posB + velB * toi)).GetLengthSqr = B.radius * B.radius := by
    rw [hptB]
    simp only [Vec3.Normalize, hmag]
    simp only [Vec3.GetLengthSqr, Vec3.Dot, Vec3.add_x, Vec3.add_y, Vec3.add_z, Vec3.sub_x,
      Vec3.sub_y, Vec3.sub_z, Vec3.scale_x, Vec3.scale_y, Vec3.scale_z] at hD ⊢
    field_simp
    linear_combination B.radius * B.radius * hD
  refine ⟨?_, hsqA, hsqB, fun hA => ?_, fun hB => ?_⟩
  · rw [hptA, hptB, Vec3.ext_iff3]
    simp only [Vec3.Normalize, hmag, Vec3.add_x, Vec3.add_y, Vec3.add_z, Vec3.sub_x,
      Vec3.sub_y, Vec3.sub_z, Vec3.scale_x, Vec3.scale_y, Vec3.scale_z]
    refine ⟨?_, ?_, ?_⟩ <;> field_simp <;> ring
  · unfold Vec3.GetMagnitude
    rw [hsqA]
    exact sqrt_mul_self_eq m hm _ hA
  · unfold Vec3.GetMagnitude
    rw [hsqB]
    exact sqrt_mul_self_eq m hm _ hB

/-- Witness for C30 over the reals (scenario 4 of the spec): A with radius 0.5 at (-3, 0, 0)
and velocity (500, 0, 0), B with radius 0.5 at rest at the origin, `dt = 1/60`; the hit at
time 1/250 has both contact points at (-0.5, 0, 0), at distance 0.5 from the centre of A,
which is then at (-1, 0, 0). -/
theorem contact_points_coincide_witness :
    SphereSphereDynamic (Libm.mk Real.sqrt Real.sin Real.cos) ⟨1 / 2⟩ ⟨1 / 2⟩ ⟨-3, 0, 0⟩
      ⟨0, 0, 0⟩ ⟨500, 0, 0⟩ ⟨0, 0, 0⟩ (1 / 60 : ℝ)
        = some (⟨-1 / 2, 0, 0⟩, ⟨-1 / 2, 0, 0⟩, 1 / 250) ∧
    ((⟨-1 / 2, 0, 0⟩ : Vec3 ℝ) - ((⟨-3, 0, 0⟩ : Vec3 ℝ) + (⟨500, 0, 0⟩ : Vec3 ℝ) * (1 / 250 : ℝ))).GetMagnitude
      (Libm.mk Real.sqrt Real.sin Real.cos) = 1 / 2 ∧
    ((⟨-1 / 2, 0, 0⟩ : Vec3 ℝ) - ((⟨0, 0, 0⟩ : Vec3 ℝ) + (⟨0, 0, 0⟩ : Vec3 ℝ) * (1 / 250 : ℝ))).GetMagnitude
      (Libm.mk Real.sqrt Real.sin Real.cos) = 1 / 2 := by
  have h625 : Real.sqrt 625 = 25 := real_sqrt_eq _ _ (by norm_num) (by norm_num)
  have h9 : Real.sqrt 9 = 3 := real_sqrt_eq _ _ (by norm_num) (by norm_num)
  have hhit : SphereSphereDynamic (Libm.mk Real.sqrt Real.sin Real.cos) ⟨1 / 2⟩ ⟨1 / 2⟩
      ⟨-3, 0, 0⟩ ⟨0, 0, 0⟩ ⟨500, 0, 0⟩ ⟨0, 0, 0⟩ (1 / 60 : ℝ)
        = some (⟨-1 / 2, 0, 0⟩, ⟨-1 / 2, 0, 0⟩, 1 / 250) := by
    norm_num [SphereSphereDynamic, RaySphere, Vec3.GetLengthSqr, Vec3.Dot, Vec3.Normalize,
      Vec3.GetMagnitude, h625, h9]
  have key := contact_points_coincide (Libm.mk Real.sqrt Real.sin Real.cos) real_sqrtExact
    ⟨1 / 2⟩ ⟨1 / 2⟩ ⟨-3, 0, 0⟩ ⟨0, 0, 0⟩ ⟨500, 0, 0⟩ ⟨0, 0, 0⟩ ⟨-1 / 2, 0, 0⟩ ⟨-1 / 2, 0, 0⟩
    (1 / 60) (1 / 250) (by norm_num)
    (by norm_num [Vec3.GetMagnitude, Vec3.GetLengthSqr, Vec3.Dot, h9])
    (by norm_num [Vec3.GetLengthSqr, Vec3.Dot]) hhit
  exact ⟨hhit, key.2.2.2.1 (by norm_num), key.2.2.2.2 (by norm_num)⟩

end ContactPointProofs

/-! ## Scene::Update: the time over which the bodies are integrated -/

section DurationProofs

variable {F : Type} [LinearOrderedField F]

/-- The function `Scene::Update` from the state its narrow phase leaves: the contacts are
sorted, the contact loop runs, and the bodies are updated over the time that remains. -/
theorem sceneUpdate_narrowed (m : Libm F) (s : Scene F) (dt : F) :
    Scene.Update m s dt =
      if dt - ((sortContacts (Scene.narrowed m s dt).2).foldl (resolveStep m)
          ((Scene.narrowed m s dt).1, (0 : F))).2 > 0 then
        { bodies := ((sortContacts (Scene.narrowed m s dt).2).foldl (resolveStep m)
            ((Scene.narrowed m s dt).1, (0 : F))).1.map fun body =>
              body.Update m (dt - ((sortContacts (Scene.narrowed m s dt).2).foldl
                (resolveStep m) ((Scene.narrowed m s dt).1, (0 : F))).2) }
      else
        { bodies := ((sortContacts (Scene.narrowed m s dt).2).foldl (resolveStep m)
            ((Scene.narrowed m s dt).1, (0 : F))).1 } := rfl

/-- One iteration of the contact loop: either it is passed over, no body is updated and the
state is unchanged, or every body is updated over `timeOfImpact - accumulatedTime` and the
accumulated time becomes the time of impact of the contact. -/
theorem resolveStep_time (m : Libm F) (st : List (Body F) × F) (c : Contact F) :
    (resolveStepDuration st c = none ∧ resolveStep m st c = st) ∨
    (resolveStepDuration st c = some (c.timeOfImpact - st.2) ∧
      (resolveStep m st c).2 = c.timeOfImpact ∧
      ((resolveStep m st c).1 = st.1.map (fun body => body.Update m (c.timeOfImpact - st.2)) ∨
        ∃ a b : Body F, (resolveStep m st c).1
          = storePair (st.1.map (fun body => body.Update m (c.timeOfImpact - st.2))) c.a c.b
              (ResolveContact m c a b).1 (ResolveContact m c a b).2)) := by
  rcases hA : st.1[c.a]? with _ | bodyA
  · left
    simp only [resolveStepDuration, resolveStep, hA]
    exact ⟨trivial, trivial⟩
  · rcases hB : st.1[c.b]? with _ | bodyB
    · left
      simp only [resolveStepDuration, resolveStep, hA, hB]
      exact ⟨trivial, trivial⟩
    · by_cases hs : bodyA.inverseMass = 0 ∧ bodyB.inverseMass = 0
      · left
        simp only [resolveStepDuration, resolveStep, hA, hB, if_pos hs]
        exact ⟨trivial, trivial⟩
      · right
        simp only [resolveStepDuration, resolveStep, hA, hB, if_neg hs]
        refine ⟨trivial, ?_, ?_⟩
        · split <;> simp
        · split
          · rename_i a b _ _
            exact Or.inr ⟨a, b, rfl⟩
          · exact Or.inl rfl

/-- The accumulated time after the contact loop is the accumulated time before it plus the
durations over which the loop updated the bodies. -/
theorem loop_time (m : Libm F) (contacts : List (Contact F)) (st : List (Body F) × F) :
    (contacts.foldl (resolveStep m) st).2 = st.2 + (loopDurations m contacts st).sum := by
  induction contacts generalizing st with
  | nil => simp [loopDurations]
  | cons c rest ih =>
    simp only [List.foldl_cons, loopDurations, List.sum_append]
    rw [ih]
    rcases resolveStep_time m st c with ⟨h1, h2⟩ | ⟨h1, h2, _⟩
    · rw [h1, h2]
      simp
    · rw [h1, h2]
      simp only [Option.toList, List.sum_cons, List.sum_nil]
      ring

/-- With times of impact in `[0, dt]` the accumulated time stays in `[0, dt]` through the
contact loop, in whatever order the contacts come. -/
theorem loop_time_bounds (m : Libm F) (dt : F) (contacts : List (Contact F))
    (st : List (Body F) × F) (h0 : 0 ≤ st.2 ∧ st.2 ≤ dt)
    (hc : ∀ c ∈ contacts, 0 ≤ c.timeOfImpact ∧ c.timeOfImpact ≤ dt) :
    0 ≤ (contacts.foldl (resolveStep m) st).2 ∧ (contacts.foldl (resolveStep m) st).2 ≤ dt := by
  induction contacts generalizing st with
  | nil => exact h0
  | cons c rest ih =>
    simp only [List.foldl_cons]
    apply ih
    · rcases resolveStep_time m st c with ⟨_, h2⟩ | ⟨_, h2, _⟩
      · rw [h2]; exact h0
      · rw [h2]; exact hc c (List.mem_cons_self c rest)
    · intro c2 hc2
      exact hc c2 (List.mem_cons_of_mem c hc2)

/-- The durations of the contact loop and of the update that follows it sum to the step
length, and the time that remains after the loop is not negative. -/
theorem stepDurations_sum (m : Libm F) (bodies : List (Body F)) (contacts : List (Contact F))
    (dt : F) (hdt : 0 < dt)
    (hc : ∀ c ∈ contacts, 0 ≤ c.timeOfImpact ∧ c.timeOfImpact ≤ dt) :
    (stepDurations m bodies contacts dt).sum = dt ∧
    0 ≤ dt - (contacts.foldl (resolveStep m) (bodies, (0 : F))).2 := by
  have hb := loop_time_bounds m dt contacts (bodies, (0 : F)) ⟨le_refl 0, le_of_lt hdt⟩ hc
  have ht := loop_time m contacts (bodies, (0 : F))
  simp only [zero_add] at ht
  refine ⟨?_, by linarith [hb.2]⟩
  simp only [stepDurations, List.sum_append]
  rw [← ht]
  split
  · simp
  · rename_i hrem
    have : dt - (contacts.foldl (resolveStep m) (bodies, (0 : F))).2 ≤ 0 := not_lt.mp hrem
    simp only [List.sum_nil, add_zero]
    linarith [hb.2]

/-- The contacts that the narrow phase of `Scene::Update` collects are contacts returned by
`Intersections::Intersect` for the step length: a property of all of these holds of all the
contacts collected. -/
theorem narrowPhase_contacts (m : Libm F) (P : Contact F → Prop) (dt : F)
    (hP : ∀ (refA refB : Nat) (a b a2 b2 : Body F) (c : Contact F),
      Intersect m refA refB a b dt = (some c, a2, b2) → P c)
    (bodies : List (Body F)) (pairs : List CollisionPair) :
    ∀ c ∈ (narrowPhase m dt bodies pairs).2, P c := by
  have step : ∀ (st : List (Body F) × List (Contact F)) (pair : CollisionPair),
      (∀ c ∈ st.2, P c) → ∀ c ∈ (narrowPhaseStep m dt st pair).2, P c := by
    intro st pair hst
    unfold narrowPhaseStep
    split
    · split
      · exact hst
      · split
        · rename_i contact a b hI
          intro c hc
          rcases List.mem_append.mp hc with h | h
          · exact hst c h
          · rw [List.mem_singleton.mp h]
            exact hP _ _ _ _ _ _ _ hI
        · exact hst
    · exact hst
  have loop : ∀ (ps : List CollisionPair) (st : List (Body F) × List (Contact F)),
      (∀ c ∈ st.2, P c) → ∀ c ∈ (ps.foldl (narrowPhaseStep m dt) st).2, P c := by
    intro ps
    induction ps with
    | nil => intro st h; exact h
    | cons p rest ih =>
      intro st h
      exact ih _ (step st p h)
  exact loop pairs (bodies, []) (fun c hc => absurd hc (List.not_mem_nil c))

/-- The contacts that the narrow phase of `Scene::Update` collects have their time of impact
within the step. -/
theorem narrowed_time_bounds (m : Libm F) (s : Scene F) (dt : F) :
    ∀ c ∈ (Scene.narrowed m s dt).2, 0 ≤ c.timeOfImpact ∧ c.timeOfImpact ≤ dt := by
  apply narrowPhase_contacts m (fun c => 0 ≤ c.timeOfImpact ∧ c.timeOfImpact ≤ dt) dt
  intro refA refB a b a2 b2 c hI
  obtain ⟨ptA, ptB, hS, _⟩ := intersect_some m refA refB a b dt c a2 b2 hI
  obtain ⟨t0, t1, _, _, htoi, h2, _⟩ :=
    sphereSphereDynamic_some m a.shape b.shape a.position b.position a.linearVelocity
      b.linearVelocity dt ptA ptB c.timeOfImpact hS
  refine ⟨?_, not_lt.mp h2⟩
  rw [htoi]
  split
  · exact le_refl 0
  · rename_i h0; exact not_lt.mp h0

/-- Exact-arithmetic form of C29, for `float` read as an ordered field (binary32 rounding,
overflow and NaN are outside it): every body is integrated over exactly the step length.  For every scene and every
`dt_sec > 0`, if each contact of the step has `0 ≤ timeOfImpact ≤ dt_sec`, the durations
that `Scene::Update` passes to `Body::Update` for a body, the substeps of the contact loop
and the tail, sum to `dt_sec`, and the tail duration `dt_sec - accumulatedTime` is not
negative; the same holds if the contact loop takes the contacts in any other order. -/
theorem update_durations_sum (m : Libm F) (s : Scene F) (dt : F) (hdt : 0 < dt)
    (hc : ∀ c ∈ (Scene.narrowed m s dt).2, 0 ≤ c.timeOfImpact ∧ c.timeOfImpact ≤ dt) :
    (Scene.updateDurations m s dt).sum = dt ∧
    0 ≤ dt - ((sortContacts (Scene.narrowed m s dt).2).foldl (resolveStep m)
      ((Scene.narrowed m s dt).1, (0 : F))).2 ∧
    ∀ contacts : List (Contact F), contacts.Perm (Scene.narrowed m s dt).2 →
      (stepDurations m (Scene.narrowed m s dt).1 contacts dt).sum = dt ∧
      0 ≤ dt - (contacts.foldl (resolveStep m) ((Scene.narrowed m s dt).1, (0 : F))).2 := by
  have hany : ∀ contacts : List (Contact F), contacts.Perm (Scene.narrowed m s dt).2 →
      (stepDurations m (Scene.narrowed m s dt).1 contacts dt).sum = dt ∧
      0 ≤ dt - (contacts.foldl (resolveStep m) ((Scene.narrowed m s dt).1, (0 : F))).2 := by
    intro contacts hperm
    exact stepDurations_sum m _ contacts dt hdt (fun c hcm => hc c (hperm.mem_iff.mp hcm))
  have hsort : (sortContacts (Scene.narrowed m s dt).2).Perm (Scene.narrowed m s dt).2 := by
    unfold sortContacts
    split
    · exact qsort_perm _ _
    · exact List.Perm.refl _
  exact ⟨(hany _ hsort).1, (hany _ hsort).2, hany⟩

/-- Witness for C29 over the reals: the default world stepped by `dt = 1/60`. -/
theorem update_durations_sum_witness :
    (Scene.updateDurations (Libm.mk Real.sqrt Real.sin Real.cos)
      (Scene.Reset (Scene.mk ([] : List (Body ℝ)))) (1 / 60)).sum = 1 / 60 :=
  (update_durations_sum (Libm.mk Real.sqrt Real.sin Real.cos)
    (Scene.Reset (Scene.mk ([] : List (Body ℝ)))) (1 / 60) (by norm_num)
    (narrowed_time_bounds _ _ _)).1

end DurationProofs

/-! ## Contact::ResolveContact: the divisors -/

section DivisorProofs

variable {F : Type} [LinearOrderedField F]

/-- The inverse world inertia tensor of a sphere body is a multiple `k` of the identity, and
`k ≥ 0` when the inverse mass is not negative. -/
theorem Body.inverseInertiaWorld_eq (b : Body F) :
    ∃ k : F, (0 ≤ b.inverseMass → 0 ≤ k) ∧
      b.GetInverseInertiaTensorWorldSpace = ⟨⟨k, 0, 0⟩, ⟨0, k, 0⟩, ⟨0, 0, k⟩⟩ := by
  obtain ⟨h00, h11, h22, h01, h02, h12⟩ := Quat.toMat3_rows b.orientation
  have hcc : (0 : F) ≤ 2 * b.shape.radius * b.shape.radius / 5 := by
    have := mul_self_nonneg b.shape.radius
    apply div_nonneg _ (by norm_num)
    linarith
  have hinv : b.shape.InertiaTensor.Inverse * b.inverseMass
      = (⟨⟨(2 * b.shape.radius * b.shape.radius / 5) * (2 * b.shape.radius * b.shape.radius / 5)
              * (1 / ((2 * b.shape.radius * b.shape.radius / 5)
                * ((2 * b.shape.radius * b.shape.radius / 5)
                  * (2 * b.shape.radius * b.shape.radius / 5)))) * b.inverseMass, 0, 0⟩,
          ⟨0, (2 * b.shape.radius * b.shape.radius / 5) * (2 * b.shape.radius * b.shape.radius / 5)
              * (1 / ((2 * b.shape.radius * b.shape.radius / 5)
                * ((2 * b.shape.radius * b.shape.radius / 5)
                  * (2 * b.shape.radius * b.shape.radius / 5)))) * b.inverseMass, 0⟩,
          ⟨0, 0, (2 * b.shape.radius * b.shape.radius / 5) * (2 * b.shape.radius * b.shape.radius / 5)
              * (1 / ((2 * b.shape.radius * b.shape.radius / 5)
                * ((2 * b.shape.radius * b.shape.radius / 5)
                  * (2 * b.shape.radius * b.shape.radius / 5)))) * b.inverseMass⟩⟩ : Mat3 F) := by
    rw [ShapeSphere.inertiaTensor_eq]
    generalize 2 * b.shape.radius * b.shape.radius / 5 = cc
    simp only [Mat3.Inverse, Mat3.Determinant, Mat3.Transpose, Mat3.scale_def, Mat3.scale,
      Vec3.Cross, Vec3.Dot, Mat3.mk.injEq, Vec3.ext_iff3, Vec3.scale_x, Vec3.scale_y,
      Vec3.scale_z]
    refine ⟨⟨?_, ?_, ?_⟩, ⟨?_, ?_, ?_⟩, ⟨?_, ?_, ?_⟩⟩ <;> ring_nf
  generalize 2 * b.shape.radius * b.shape.radius / 5 = cc at hcc hinv
  refine ⟨cc * cc * (1 / (cc * (cc * cc))) * b.inverseMass
    * ((1 / b.orientation.MagnitudeSquared * b.orientation.MagnitudeSquared)
      * (1 / b.orientation.MagnitudeSquared * b.orientation.MagnitudeSquared)), ?_, ?_⟩
  · intro hm
    apply mul_nonneg _ (mul_self_nonneg _)
    apply mul_nonneg _ hm
    apply mul_nonneg (mul_self_nonneg cc)
    apply div_nonneg zero_le_one
    exact mul_nonneg hcc (mul_self_nonneg cc)
  · unfold Body.GetInverseInertiaTensorWorldSpace
    simp only [hinv]
    rw [Mat3.mul_diag_transpose, h00, h11, h22, h01, h02, h12]
    simp

/-- For a multiple `k` of the identity as inverse inertia, the angular term
`((I⁻¹ (r × u)) × r) · u` is `k ‖r × u‖²`. -/
theorem angular_term_eq (k : F) (r u : Vec3 F) :
    (((⟨⟨k, 0, 0⟩, ⟨0, k, 0⟩, ⟨0, 0, k⟩⟩ : Mat3 F) * r.Cross u).Cross r).Dot u
      = k * (r.Cross u).Dot (r.Cross u) := by
  simp only [Mat3.mulVec_x, Mat3.mulVec_y, Mat3.mulVec_z, Vec3.Cross, Vec3.Dot]
  ring

/-- The sum of the two angular terms, as `Contact::ResolveContact` computes its angular
factor and the inverse inertia of its friction stage, is not negative when the inverse
masses are not negative. -/
theorem angular_terms_nonneg (a b : Body F) (rA rB u : Vec3 F)
    (hA : 0 ≤ a.inverseMass) (hB : 0 ≤ b.inverseMass) :
    0 ≤ ((a.GetInverseInertiaTensorWorldSpace * rA.Cross u).Cross rA
      + (b.GetInverseInertiaTensorWorldSpace * rB.Cross u).Cross rB).Dot u := by
  obtain ⟨kA, hkA, eA⟩ := Body.inverseInertiaWorld_eq a
  obtain ⟨kB, hkB, eB⟩ := Body.inverseInertiaWorld_eq b
  have hsplit : ∀ x y : Vec3 F, (x + y).Dot u = x.Dot u + y.Dot u := by
    intro x y
    simp only [Vec3.Dot, Vec3.add_x, Vec3.add_y, Vec3.add_z]
    ring
  rw [hsplit, eA, eB, angular_term_eq, angular_term_eq]
  have h1 : 0 ≤ (rA.Cross u).Dot (rA.Cross u) := Vec3.lengthSqr_nonneg _
  have h2 : 0 ≤ (rB.Cross u).Dot (rB.Cross u) := Vec3.lengthSqr_nonneg _
  exact add_nonneg (mul_nonneg (hkA hA) h1) (mul_nonneg (hkB hB) h2)

/-- The three divisors of `Contact::ResolveContact` are positive for two bodies with
inverse masses `≥ 0`, not both zero. -/
theorem resolve_divisors_pos (m : Libm F) (c : Contact F) (a b : Body F)
    (hA : 0 ≤ a.inverseMass) (hB : 0 ≤ b.inverseMass)
    (hdyn : a.inverseMass ≠ 0 ∨ b.inverseMass ≠ 0) :
    0 < a.inverseMass + b.inverseMass + contactAngularFactor c a b ∧
    0 < (a.ApplyImpulse m c.ptOnAWorldSpace (contactImpulse c a b * (-1 : F))).inverseMass
        + (b.ApplyImpulse m c.ptOnBWorldSpace (contactImpulse c a b * (1 : F))).inverseMass
        + contactInverseInertia m c a b ∧
    0 < a.inverseMass + b.inverseMass := by
  have hD : 0 < a.inverseMass + b.inverseMass := by
    rcases hdyn with h | h
    · have : 0 < a.inverseMass := lt_of_le_of_ne hA (Ne.symm h)
      linarith
    · have : 0 < b.inverseMass := lt_of_le_of_ne hB (Ne.symm h)
      linarith
  have h1 : 0 ≤ contactAngularFactor c a b := angular_terms_nonneg a b _ _ _ hA hB
  have h2 : 0 ≤ contactInverseInertia m c a b := angular_terms_nonneg a b _ _ _ hA hB
  rw [(Body.applyImpulse_fields m a _ _).2.2.2.1, (Body.applyImpulse_fields m b _ _).2.2.2.1]
  exact ⟨by linarith, by linarith, hD⟩

/-- A call of `Contact::ResolveContact` in the contact loop is made for a contact whose two
bodies are in the array and are not both static, on these bodies after their update. -/
theorem resolveStepCall_some (m : Libm F) (st : List (Body F) × F) (c : Contact F)
    (call : Contact F × Body F × Body F) (h : resolveStepCall m st c = some call) :
    ∃ bodyA bodyB : Body F, st.1[c.a]? = some bodyA ∧ st.1[c.b]? = some bodyB ∧
      ¬ (bodyA.inverseMass = 0 ∧ bodyB.inverseMass = 0) ∧
      call = (c, bodyA.Update m (c.timeOfImpact - st.2),
        bodyB.Update m (c.timeOfImpact - st.2)) ∧
      resolveStep m st c
        = (storePair (st.1.map fun body => body.Update m (c.timeOfImpact - st.2)) c.a c.b
            (ResolveContact m call.1 call.2.1 call.2.2).1
            (ResolveContact m call.1 call.2.1 call.2.2).2,
          st.2 + (c.timeOfImpact - st.2)) := by
  rcases hA : st.1[c.a]? with _ | bodyA
  · simp [resolveStepCall, hA] at h
  · rcases hB : st.1[c.b]? with _ | bodyB
    · simp [resolveStepCall, hA, hB] at h
    · by_cases hs : bodyA.inverseMass = 0 ∧ bodyB.inverseMass = 0
      · simp [resolveStepCall, hA, hB, hs] at h
      · have eA : (st.1.map fun body => body.Update m (c.timeOfImpact - st.2))[c.a]?
            = some (bodyA.Update m (c.timeOfImpact - st.2)) := by
          rw [List.getElem?_map, hA]; rfl
        have eB : (st.1.map fun body => body.Update m (c.timeOfImpact - st.2))[c.b]?
            = some (bodyB.Update m (c.timeOfImpact - st.2)) := by
          rw [List.getElem?_map, hB]; rfl
        simp only [resolveStepCall, hA, hB, if_neg hs, eA, eB, Option.some.injEq] at h
        refine ⟨bodyA, bodyB, rfl, rfl, hs, h.symm, ?_⟩
        simp only [resolveStep, hA, hB, if_neg hs, eA, eB, ← h]

/-- Every call of `Contact::ResolveContact` in the contact loop is made on two bodies with
inverse masses `≥ 0`, not both zero, if the bodies before the loop have inverse masses
`≥ 0`. -/
theorem loopCalls_dynamic (m : Libm F) (contacts : List (Contact F))
    (st : List (Body F) × F) (h : ∀ x ∈ st.1, 0 ≤ x.inverseMass) :
    ∀ call ∈ loopCalls m contacts st,
      (call.2.1.inverseMass ≠ 0 ∨ call.2.2.inverseMass ≠ 0) ∧
      0 ≤ call.2.1.inverseMass ∧ 0 ≤ call.2.2.inverseMass := by
  induction contacts generalizing st with
  | nil => intro call hc; exact absurd hc (List.not_mem_nil call)
  | cons c rest ih =>
    intro call hc
    simp only [loopCalls, List.mem_append] at hc
    rcases hc with hc | hc
    · have hsome : resolveStepCall m st c = some call := by
        cases hcall : resolveStepCall m st c with
        | none => rw [hcall] at hc; simp at hc
        | some x =>
          rw [hcall] at hc
          simp only [Option.toList, List.mem_singleton] at hc
          rw [hc]
      obtain ⟨bodyA, bodyB, hA, hB, hs, hcall, _⟩ := resolveStepCall_some m st c call hsome
      have hPA := h _ (List.getElem?_mem hA)
      have hPB := h _ (List.getElem?_mem hB)
      rw [hcall]
      simp only []
      rw [(Body.update_fields m bodyA _).2.2.2.1, (Body.update_fields m bodyB _).2.2.2.1]
      refine ⟨?_, hPA, hPB⟩
      by_contra hn
      exact hs ⟨by_contra fun h1 => hn (Or.inl h1), by_contra fun h2 => hn (Or.inr h2)⟩
    · apply ih (resolveStep m st c) _ call hc
      rcases resolveStep_phase m (fun x => 0 ≤ x.inverseMass) (fun x => 0 ≤ x.inverseMass)
        (fun x t hx => by
          show 0 ≤ (x.Update m t).inverseMass
          rw [(Body.update_fields m x t).2.2.2.1]; exact hx)
        (fun c2 a b ha hb => by
          obtain ⟨_, _, _, _, _, _, _, _, hma, hmb, _⟩ := resolveContact_fields m c2 a b
          show 0 ≤ (ResolveContact m c2 a b).1.inverseMass
            ∧ 0 ≤ (ResolveContact m c2 a b).2.inverseMass
          rw [hma, hmb]; exact ⟨ha, hb⟩) st c h with e | e
      · rw [e]; exact h
      · exact e

/-- The bodies that the narrow phase of `Scene::Update` leaves have inverse masses `≥ 0` if
the bodies of the scene do. -/
theorem narrowed_mass_nonneg (m : Libm F) (s : Scene F) (dt : F)
    (h : ∀ b ∈ s.bodies, 0 ≤ b.inverseMass) :
    ∀ x ∈ (Scene.narrowed m s dt).1, 0 ≤ x.inverseMass := by
  have h1 : ∀ x ∈ applyGravity s.bodies dt, 0 ≤ x.inverseMass := by
    intro x hx
    unfold applyGravity at hx
    obtain ⟨y, hy, hxy⟩ := List.mem_map.mp hx
    rw [← hxy]
    simp only [Body.ApplyImpulseLinear]
    split
    · exact h y hy
    · exact h y hy
  exact narrowPhase_forall m (fun x => 0 ≤ x.inverseMass)
    (fun x t hx => by
      show 0 ≤ (x.Update m t).inverseMass
      rw [(Body.update_fields m x t).2.2.2.1]; exact hx)
    dt _ (BroadPhase m (applyGravity s.bodies dt) dt) h1

/-- Exact-arithmetic form of C22, for `float` read as an ordered field (binary32 rounding,
overflow and NaN are outside it): contact resolution never divides by zero inside a step.  For every scene of sphere
bodies with radius > 0 and inverse masses `≥ 0`, every call of `Contact::ResolveContact`
that `Scene::Update` makes is for a contact with at least one body of inverse mass `≠ 0`,
and its three divisors are strictly positive: `invMassA + invMassB + angularFactor`,
`invMassA + invMassB + inverseInertia` of the friction stage, and `invMassA + invMassB` of
the depenetration.  The divisors are positive for every contact between bodies with inverse
masses `≥ 0`, not both zero. -/
theorem resolve_never_divides_by_zero (m : Libm F) (s : Scene F) (dt : F)
    (_hr : ∀ b ∈ s.bodies, 0 < b.shape.radius) (hmass : ∀ b ∈ s.bodies, 0 ≤ b.inverseMass) :
    (∀ call ∈ Scene.resolveCalls m s dt,
      (call.2.1.inverseMass ≠ 0 ∨ call.2.2.inverseMass ≠ 0) ∧
      0 < call.2.1.inverseMass + call.2.2.inverseMass
          + contactAngularFactor call.1 call.2.1 call.2.2 ∧
      0 < (call.2.1.ApplyImpulse m call.1.ptOnAWorldSpace
            (contactImpulse call.1 call.2.1 call.2.2 * (-1 : F))).inverseMass
          + (call.2.2.ApplyImpulse m call.1.ptOnBWorldSpace
            (contactImpulse call.1 call.2.1 call.2.2 * (1 : F))).inverseMass
          + contactInverseInertia m call.1 call.2.1 call.2.2 ∧
      0 < call.2.1.inverseMass + call.2.2.inverseMass) ∧
    (∀ (c : Contact F) (a b : Body F), 0 ≤ a.inverseMass → 0 ≤ b.inverseMass →
      (a.inverseMass ≠ 0 ∨ b.inverseMass ≠ 0) →
      0 < a.inverseMass + b.inverseMass + contactAngularFactor c a b ∧
      0 < (a.ApplyImpulse m c.ptOnAWorldSpace (contactImpulse c a b * (-1 : F))).inverseMass
          + (b.ApplyImpulse m c.ptOnBWorldSpace (contactImpulse c a b * (1 : F))).inverseMass
          + contactInverseInertia m c a b ∧
      0 < a.inverseMass + b.inverseMass) := by
  refine ⟨?_, fun c a b hA hB hdyn => resolve_divisors_pos m c a b hA hB hdyn⟩
  intro call hcall
  obtain ⟨hdyn, hA, hB⟩ := loopCalls_dynamic m _ _ (narrowed_mass_nonneg m s dt hmass) call hcall
  exact ⟨hdyn, resolve_divisors_pos m call.1 call.2.1 call.2.2 hA hB hdyn⟩

/-- Witness for C22 over the reals: the default world stepped by `dt = 1/60`; and the
divisors for the unit sphere of the default world touching the static earth sphere. -/
theorem resolve_never_divides_by_zero_witness :
    (∀ b ∈ (Scene.Reset (Scene.mk ([] : List (Body ℝ)))).bodies, 0 < b.shape.radius) ∧
    (∀ b ∈ (Scene.Reset (Scene.mk ([] : List (Body ℝ)))).bodies, 0 ≤ b.inverseMass) ∧
    (∀ call ∈ Scene.resolveCalls (Libm.mk Real.sqrt Real.sin Real.cos)
        (Scene.Reset (Scene.mk ([] : List (Body ℝ)))) (1 / 60),
      (call.2.1.inverseMass ≠ 0 ∨ call.2.2.inverseMass ≠ 0) ∧
      0 < call.2.1.inverseMass + call.2.2.inverseMass) ∧
    0 < (1 : ℝ) + 0 + contactAngularFactor
      (Contact.mk ⟨0, 0, 0⟩ ⟨0, 0, -1⟩ ⟨0, 0, 0⟩ ⟨0, 0, 6000⟩ ⟨0, 0, 1⟩ 0 0 0 1)
      (Body.mk ⟨0, 0, 1⟩ ⟨0, 0, 0, 1⟩ ⟨0, 0, -1⟩ ⟨0, 0, 0⟩ (1 : ℝ) (1 / 2) (1 / 2) ⟨1⟩)
      (Body.mk ⟨0, 0, -6000⟩ ⟨0, 0, 0, 1⟩ ⟨0, 0, 0⟩ ⟨0, 0, 0⟩ (0 : ℝ) 1 (1 / 2) ⟨6000⟩) := by
  have hr : ∀ b ∈ (Scene.Reset (Scene.mk ([] : List (Body ℝ)))).bodies,
      0 < b.shape.radius := by
    intro b hb
    simp only [Scene.Reset, Scene.Initialize, List.nil_append, List.mem_cons,
      List.mem_singleton, List.not_mem_nil, or_false] at hb
    rcases hb with h | h
    · rw [h]; norm_num
    · rw [h]; norm_num
  have hmass : ∀ b ∈ (Scene.Reset (Scene.mk ([] : List (Body ℝ)))).bodies,
      0 ≤ b.inverseMass := by
    intro b hb
    simp only [Scene.Reset, Scene.Initialize, List.nil_append, List.mem_cons,
      List.mem_singleton, List.not_mem_nil, or_false] at hb
    rcases hb with h | h
    · rw [h]; norm_num
    · rw [h]
  obtain ⟨h1, h2⟩ := resolve_never_divides_by_zero (Libm.mk Real.sqrt Real.sin Real.cos)
    (Scene.Reset (Scene.mk ([] : List (Body ℝ)))) (1 / 60) hr hmass
  refine ⟨hr, hmass, fun call hc => ⟨(h1 call hc).1, (h1 call hc).2.2.2⟩, ?_⟩
  exact (h2 (Contact.mk ⟨0, 0, 0⟩ ⟨0, 0, -1⟩ ⟨0, 0, 0⟩ ⟨0, 0, 6000⟩ ⟨0, 0, 1⟩ 0 0 0 1)
    (Body.mk ⟨0, 0, 1⟩ ⟨0, 0, 0, 1⟩ ⟨0, 0, -1⟩ ⟨0, 0, 0⟩ (1 : ℝ) (1 / 2) (1 / 2) ⟨1⟩)
    (Body.mk ⟨0, 0, -6000⟩ ⟨0, 0, 0, 1⟩ ⟨0, 0, 0⟩ ⟨0, 0, 0⟩ (0 : ℝ) 1 (1 / 2) ⟨6000⟩)
    (by norm_num) (by norm_num) (Or.inl (by norm_num))).1

end DivisorProofs

/-! ## Depenetration -/

section TouchingProofs

variable {F : Type} [LinearOrderedField F]

/-- The positions after `Contact::ResolveContact` for a contact with time of impact 0 whose
points are the surface points on the line of centres, as `SphereSphereDynamic` computes
them: the centres are `rA + rB` apart. -/
theorem depenetration_core (m : Libm F) (hm : m.SqrtExact) (c : Contact F) (x y : Body F)
    (pA pB : Vec3 F) (rA rB : F) (hx : x.position = pA) (hy : y.position = pB)
    (hptA : c.ptOnAWorldSpace = pA + (pB - pA).Normalize m * rA)
    (hptB : c.ptOnBWorldSpace = pB - (pB - pA).Normalize m * rB)
    (htoi : c.timeOfImpact = 0) (hne : pA ≠ pB)
    (hM : x.inverseMass + y.inverseMass ≠ 0) (hR : 0 ≤ rA + rB) :
    ((ResolveContact m c x y).2.position - (ResolveContact m c x y).1.position).GetMagnitude m
      = rA + rB ∧
    ((ResolveContact m c x y).1.position - (ResolveContact m c x y).2.position).GetMagnitude m
      = rA + rB := by
  obtain ⟨_, _, _, _, _, _, hpa, hpb, _⟩ := resolveContact_fields m c x y
  rw [if_pos htoi, hx, hptA, hptB] at hpa
  rw [if_pos htoi, hy, hptA, hptB] at hpb
  have hD : pB - pA ≠ Vec3.zero := by
    intro h0
    apply hne
    rw [Vec3.ext_iff3] at h0 ⊢
    simp only [Vec3.sub_x, Vec3.sub_y, Vec3.sub_z, Vec3.zero] at h0
    exact ⟨by linarith [h0.1], by linarith [h0.2.1], by linarith [h0.2.2]⟩
  have hpos := Vec3.lengthSqr_pos_of_ne (pB - pA) hD
  obtain ⟨_, h1⟩ := hm (pB - pA).GetLengthSqr (le_of_lt hpos)
  have hs : m.sqrtf (pB - pA).GetLengthSqr ≠ 0 := by
    intro hz
    rw [hz] at h1
    simp only [mul_zero] at h1
    exact absurd h1.symm (ne_of_gt hpos)
  have e : (pB.x - pA.x) * (pB.x - pA.x) + (pB.y - pA.y) * (pB.y - pA.y)
      + (pB.z - pA.z) * (pB.z - pA.z)
      = m.sqrtf (pB - pA).GetLengthSqr * m.sqrtf (pB - pA).GetLengthSqr := by
    rw [h1]; rfl
  have hsq : ∀ u v : Vec3 F, (u - v).GetLengthSqr = (v - u).GetLengthSqr := by
    intro u v
    simp only [Vec3.GetLengthSqr, Vec3.Dot, Vec3.sub_x, Vec3.sub_y, Vec3.sub_z]
    ring
  have key : ((ResolveContact m c x y).2.position
      - (ResolveContact m c x y).1.position).GetLengthSqr = (rA + rB) * (rA + rB) := by
    rw [hpa, hpb]
    simp only [Vec3.Normalize, Vec3.GetMagnitude]
    generalize m.sqrtf (pB - pA).GetLengthSqr = s at hs e
    simp only [Vec3.GetLengthSqr, Vec3.Dot, Vec3.add_x, Vec3.add_y, Vec3.add_z, Vec3.sub_x,
      Vec3.sub_y, Vec3.sub_z, Vec3.scale_x, Vec3.scale_y, Vec3.scale_z]
    field_simp
    linear_combination ((rA + rB) * (rA + rB) * (x.inverseMass + y.inverseMass)
      * (x.inverseMass + y.inverseMass)) * e
  constructor
  · unfold Vec3.GetMagnitude
    rw [key]
    exact sqrt_mul_self_eq m hm _ hR
  · unfold Vec3.GetMagnitude
    rw [hsq, key]
    exact sqrt_mul_self_eq m hm _ hR

/-- Exact-arithmetic form of C31, for `float` read as an ordered field (binary32 rounding,
overflow and NaN are outside it): depenetration leaves the spheres exactly touching.  For two sphere bodies with
distinct centres, inverse masses `≥ 0` and at least one of them dynamic, and a contact that
`Intersections::Intersect` returns for them with `timeOfImpact = 0`, after
`Contact::ResolveContact` on the bodies as `Intersect` leaves them, or as they were before
it, the distance between the two positions is `rA + rB`. -/
theorem depenetration_leaves_touching (m : Libm F) (hm : m.SqrtExact) (refA refB : Nat)
    (a b a2 b2 : Body F) (dt : F) (c : Contact F)
    (hI : Intersect m refA refB a b dt = (some c, a2, b2))
    (htoi : c.timeOfImpact = 0) (hne : a.position ≠ b.position)
    (hmA : 0 ≤ a.inverseMass) (hmB : 0 ≤ b.inverseMass)
    (hdyn : a.inverseMass ≠ 0 ∨ b.inverseMass ≠ 0)
    (hR : 0 ≤ a.shape.radius + b.shape.radius) :
    ((ResolveContact m c a2 b2).2.position
        - (ResolveContact m c a2 b2).1.position).GetMagnitude m
      = a.shape.radius + b.shape.radius ∧
    ((ResolveContact m c a2 b2).1.position
        - (ResolveContact m c a2 b2).2.position).GetMagnitude m
      = a.shape.radius + b.shape.radius ∧
    ((ResolveContact m c a b).2.position - (ResolveContact m c a b).1.position).GetMagnitude m
      = a.shape.radius + b.shape.radius ∧
    ((ResolveContact m c a b).1.position - (ResolveContact m c a b).2.position).GetMagnitude m
      = a.shape.radius + b.shape.radius := by
  obtain ⟨ptA, ptB, hS, hcA, hcB, _, ha2, hb2⟩ := intersect_some m refA refB a b dt c a2 b2 hI
  obtain ⟨t0, t1, _, _, _, _, hptA, hptB⟩ :=
    sphereSphereDynamic_some m a.shape b.shape a.position b.position a.linearVelocity
      b.linearVelocity dt ptA ptB c.timeOfImpact hS
  have hz : ∀ p v : Vec3 F, p + v * (0 : F) = p := by
    intro p v
    rw [Vec3.ext_iff3]
    simp
  rw [htoi] at hptA hptB ha2 hb2
  simp only [hz] at hptA hptB
  have hM : a.inverseMass + b.inverseMass ≠ 0 := by
    rcases hdyn with h | h
    · have : 0 < a.inverseMass := lt_of_le_of_ne hmA (Ne.symm h)
      exact ne_of_gt (by linarith)
    · have : 0 < b.inverseMass := lt_of_le_of_ne hmB (Ne.symm h)
      exact ne_of_gt (by linarith)
  have hpa2 : a2.position = a.position := by
    rw [ha2, (Body.update_fields m _ _).1, (Body.update_fields m _ _).1,
      (Body.update_fields m _ _).2.1, Vec3.ext_iff3]
    simp
  have hpb2 : b2.position = b.position := by
    rw [hb2, (Body.update_fields m _ _).1, (Body.update_fields m _ _).1,
      (Body.update_fields m _ _).2.1, Vec3.ext_iff3]
    simp
  have hma2 : a2.inverseMass = a.inverseMass := by
    rw [ha2, (Body.update_fields m _ _).2.2.2.1, (Body.update_fields m _ _).2.2.2.1]
  have hmb2 : b2.inverseMass = b.inverseMass := by
    rw [hb2, (Body.update_fields m _ _).2.2.2.1, (Body.update_fields m _ _).2.2.2.1]
  have k2 := depenetration_core m hm c a2 b2 a.position b.position a.shape.radius
    b.shape.radius hpa2 hpb2 (hcA.trans hptA) (hcB.trans hptB) htoi hne
    (by rw [hma2, hmb2]; exact hM) hR
  have k1 := depenetration_core m hm c a b a.position b.position a.shape.radius
    b.shape.radius rfl rfl (hcA.trans hptA) (hcB.trans hptB) htoi hne hM hR
  exact ⟨k2.1, k2.2, k1.1, k1.2⟩

/-- Witness for C31 over the reals: two unit spheres at rest with centres 1 apart overlap;
`Intersect` reports a contact at time 0, and after `ResolveContact` the centres are 2
apart. -/
theorem depenetration_leaves_touching_witness :
    ∃ (c : Contact ℝ) (a2 b2 : Body ℝ),
      Intersect (Libm.mk Real.sqrt Real.sin Real.cos) 0 1
        (Body.mk ⟨0, 0, 0⟩ ⟨0, 0, 0, 1⟩ ⟨0, 0, 0⟩ ⟨0, 0, 0⟩ (1 : ℝ) (1 / 2) (1 / 2) ⟨1⟩)
        (Body.mk ⟨1, 0, 0⟩ ⟨0, 0, 0, 1⟩ ⟨0, 0, 0⟩ ⟨0, 0, 0⟩ (1 : ℝ) (1 / 2) (1 / 2) ⟨1⟩) 1
        = (some c, a2, b2) ∧
      c.timeOfImpact = 0 ∧
      ((ResolveContact (Libm.mk Real.sqrt Real.sin Real.cos) c a2 b2).2.position
        - (ResolveContact (Libm.mk Real.sqrt Real.sin Real.cos) c a2 b2).1.position).GetMagnitude
          (Libm.mk Real.sqrt Real.sin Real.cos) = 1 + 1 := by
  have hS : SphereSphereDynamic (Libm.mk Real.sqrt Real.sin Real.cos) ⟨1⟩ ⟨1⟩ ⟨0, 0, 0⟩
      ⟨1, 0, 0⟩ ⟨0, 0, 0⟩ ⟨0, 0, 0⟩ (1 : ℝ) = some (⟨1, 0, 0⟩, ⟨0, 0, 0⟩, 0) := by
    norm_num [SphereSphereDynamic, Vec3.GetLengthSqr, Vec3.Dot, Vec3.Normalize,
      Vec3.GetMagnitude]
  obtain ⟨c, a2, b2, hI, ht⟩ := intersect_of_hit (Libm.mk Real.sqrt Real.sin Real.cos) 0 1
    (Body.mk ⟨0, 0, 0⟩ ⟨0, 0, 0, 1⟩ ⟨0, 0, 0⟩ ⟨0, 0, 0⟩ (1 : ℝ) (1 / 2) (1 / 2) ⟨1⟩)
    (Body.mk ⟨1, 0, 0⟩ ⟨0, 0, 0, 1⟩ ⟨0, 0, 0⟩ ⟨0, 0, 0⟩ (1 : ℝ) (1 / 2) (1 / 2) ⟨1⟩) 1
    ⟨1, 0, 0⟩ ⟨0, 0, 0⟩ 0 hS
  exact ⟨c, a2, b2, hI, ht,
    (depenetration_leaves_touching (Libm.mk Real.sqrt Real.sin Real.cos) real_sqrtExact 0 1
      (Body.mk ⟨0, 0, 0⟩ ⟨0, 0, 0, 1⟩ ⟨0, 0, 0⟩ ⟨0, 0, 0⟩ (1 : ℝ) (1 / 2) (1 / 2) ⟨1⟩)
      (Body.mk ⟨1, 0, 0⟩ ⟨0, 0, 0, 1⟩ ⟨0, 0, 0⟩ ⟨0, 0, 0⟩ (1 : ℝ) (1 / 2) (1 / 2) ⟨1⟩)
      a2 b2 1 c hI ht (by simp) (by norm_num) (by norm_num) (Or.inl (by norm_num))
      (by norm_num)).1⟩

end TouchingProofs

/-! ## Broad phase: each pair once -/

section PairMemberProofs

variable {F : Type}

/-- A pair emitted by the inner loop of `BuildPairs` for the opener `a` joins `a` to an
opener of another body further on in the array. -/
theorem scanPairs_mem (a : PseudoBody F) (l : List (PseudoBody F)) (p : CollisionPair)
    (hp : p ∈ scanPairs a l) :
    ∃ b ∈ l, b.ismin = true ∧ b.id ≠ a.id ∧ p = { a := a.id, b := b.id } := by
  obtain ⟨mid, b, r, hl, _, hb, hbm, hpe⟩ := (mem_scanPairs a l p).mp hp
  exact ⟨b, by rw [hl]; simp, hbm, hb, hpe⟩

/-- A pair emitted by `BuildPairs` joins two openers of the array with different ids. -/
theorem buildPairs_mem (l : List (PseudoBody F)) (p : CollisionPair) (hp : p ∈ BuildPairs l) :
    ∃ a ∈ l, ∃ b ∈ l, a.ismin = true ∧ b.ismin = true ∧ b.id ≠ a.id ∧
      p = { a := a.id, b := b.id } := by
  obtain ⟨l1, a, mid, b, r, hl, ha, _, hb, hbm, hpe⟩ := (mem_BuildPairs l p).mp hp
  exact ⟨a, by rw [hl]; simp, b, by rw [hl]; simp, ha, hbm, hb, hpe⟩

/-- The inner loop of `BuildPairs` emits no two pairs that are equal as unordered pairs,
when the array holds one opener for each body. -/
theorem scanPairs_pairwise (a : PseudoBody F) (l : List (PseudoBody F))
    (hl : l.Pairwise (fun x y => x.ismin = true → y.ismin = true → x.id ≠ y.id)) :
    (scanPairs a l).Pairwise (fun p q => p.eq q = false) := by
  induction l with
  | nil => simp [scanPairs]
  | cons c rest ih =>
    rw [List.pairwise_cons] at hl
    unfold scanPairs
    by_cases hc : c.id = a.id
    · simp [hc]
    · simp only [hc, if_false]
      by_cases hm : c.ismin = true
      · simp only [hm, Bool.not_true, Bool.false_eq_true, if_false, List.pairwise_cons]
        refine ⟨?_, ih hl.2⟩
        intro q hq
        obtain ⟨b, hb, hbm, hba, hqe⟩ := scanPairs_mem a rest q hq
        have hcb : c.id ≠ b.id := hl.1 b hb hm hbm
        rw [hqe]
        simp only [CollisionPair.eq, Bool.or_eq_false_iff, Bool.and_eq_false_iff,
          beq_eq_false_iff_ne, ne_eq]
        exact ⟨Or.inr hcb, Or.inl (Ne.symm hba)⟩
      · have hm2 : c.ismin = false := by simpa using hm
        simp only [hm2, Bool.not_false, if_true]
        exact ih hl.2

/-- The function `BuildPairs` emits no two pairs that are equal as unordered pairs, when
the array holds one opener for each body. -/
theorem buildPairs_pairwise (l : List (PseudoBody F))
    (hl : l.Pairwise (fun x y => x.ismin = true → y.ismin = true → x.id ≠ y.id)) :
    (BuildPairs l).Pairwise (fun p q => p.eq q = false) := by
  induction l with
  | nil => simp [BuildPairs]
  | cons a rest ih =>
    rw [List.pairwise_cons] at hl
    unfold BuildPairs
    by_cases hm : a.ismin = true
    · simp only [hm, Bool.not_true, Bool.false_eq_true, if_false]
      rw [List.pairwise_append]
      refine ⟨scanPairs_pairwise a rest hl.2, ih hl.2, ?_⟩
      intro p hp q hq
      obtain ⟨b, _, _, _, hpe⟩ := scanPairs_mem a rest p hp
      obtain ⟨c, hc, d, hd, hcm, hdm, _, hqe⟩ := buildPairs_mem rest q hq
      have hac : a.id ≠ c.id := hl.1 c hc hm hcm
      have had : a.id ≠ d.id := hl.1 d hd hm hdm
      rw [hpe, hqe]
      simp only [CollisionPair.eq, Bool.or_eq_false_iff, Bool.and_eq_false_iff,
        beq_eq_false_iff_ne, ne_eq]
      exact ⟨Or.inl hac, Or.inl had⟩
    · have hm2 : a.ismin = false := by simpa using hm
      simp only [hm2, Bool.not_false, if_true]
      exact ih hl.2

end PairMemberProofs

section PairCountProofs

variable {F : Type} [LinearOrderedField F]

/-- The loop of `SortBodiesBounds` writes one opener for each body: two openers at
different places of the array have different ids. -/
theorem fillBounds_openers (m : Libm F) (dt : F) (k : Nat) (bodies : List (Body F)) :
    (fillBounds m dt k bodies).Pairwise
      (fun x y => x.ismin = true → y.ismin = true → x.id ≠ y.id) := by
  induction bodies generalizing k with
  | nil => simp [fillBounds]
  | cons b rest ih =>
    simp only [fillBounds, List.pairwise_cons, List.mem_cons]
    refine ⟨?_, ?_, ih (k + 1)⟩
    · intro y hy _ hym
      rcases hy with hy | hy
      · rw [hy] at hym
        simp at hym
      · obtain ⟨i, body, _, h | h⟩ := (mem_fillBounds m dt (k + 1) rest y).mp hy
        · rw [h]
          simp only [ne_eq, Nat.cast_inj]
          omega
        · rw [h] at hym
          simp at hym
    · intro y _ hx
      simp at hx

/-- The array sorted by `SortBodiesBounds` holds one opener for each body. -/
theorem sorted_openers (m : Libm F) (bodies : List (Body F)) (dt : F) :
    (SortBodiesBounds m bodies dt).Pairwise
      (fun x y => x.ismin = true → y.ismin = true → x.id ≠ y.id) := by
  unfold SortBodiesBounds
  refine (List.Perm.pairwise_iff ?_ (qsort_perm CompareSAP _)).mpr
    (fillBounds_openers m dt 0 bodies)
  intro x y h hy hx
  exact Ne.symm (h hx hy)

/-- Every pair that `BroadPhase` emits joins two different indices of the array. -/
theorem broadPhase_indices (m : Libm F) (bodies : List (Body F)) (dt : F)
    (p : CollisionPair) (hp : p ∈ BroadPhase m bodies dt) :
    ∃ i j : Nat, i < bodies.length ∧ j < bodies.length ∧ i ≠ j ∧
      p = { a := (i : Int), b := (j : Int) } := by
  unfold BroadPhase SweepAndPrune1D at hp
  simp only [] at hp
  obtain ⟨a, ha, b, hb, _, _, hne, hpe⟩ := buildPairs_mem _ p hp
  obtain ⟨i, bi, hi, hai⟩ := (mem_SortBodiesBounds m bodies dt a).mp ha
  obtain ⟨j, bj, hj, hbj⟩ := (mem_SortBodiesBounds m bodies dt b).mp hb
  have hia : a.id = (i : Int) := by
    rcases hai with h | h <;> rw [h]
  have hjb : b.id = (j : Int) := by
    rcases hbj with h | h <;> rw [h]
  have hil : i < bodies.length := (List.getElem?_eq_some_iff.mp hi).1
  have hjl : j < bodies.length := (List.getElem?_eq_some_iff.mp hj).1
  refine ⟨i, j, hil, hjl, ?_, by rw [hpe, hia, hjb]⟩
  intro hij
  apply hne
  rw [hia, hjb, hij]

/-- A list of pairs of different indices below `n`, no two of them equal as unordered
pairs, has at most `n (n - 1) / 2` entries. -/
theorem pairs_length_le (n : Nat) (l : List CollisionPair)
    (hidx : ∀ p ∈ l, ∃ i j : Nat, i < n ∧ j < n ∧ i ≠ j ∧ p = { a := (i : Int), b := (j : Int) })
    (hpw : l.Pairwise (fun p q => p.eq q = false)) :
    l.length ≤ n * (n - 1) / 2 := by
  have hnd : (l.map fun p => Sym2.mk (p.a, p.b)).Nodup := by
    unfold List.Nodup
    rw [List.pairwise_map]
    refine hpw.imp ?_
    intro p q hpq heq
    rw [Sym2.eq_iff] at heq
    simp only [CollisionPair.eq, Bool.or_eq_false_iff, Bool.and_eq_false_iff,
      beq_eq_false_iff_ne, ne_eq] at hpq
    rcases heq with ⟨h1, h2⟩ | ⟨h1, h2⟩
    · rcases hpq.1 with h | h
      · exact h h1
      · exact h h2
    · rcases hpq.2 with h | h
      · exact h h1
      · exact h h2
  have hsub : (l.map fun p => Sym2.mk (p.a, p.b)).toFinset
      ⊆ (((Finset.range n).image fun i : Nat => (i : Int)).offDiag).image Sym2.mk := by
    intro x hx
    rw [List.mem_toFinset, List.mem_map] at hx
    obtain ⟨p, hp, hxe⟩ := hx
    obtain ⟨i, j, hi, hj, hij, hpe⟩ := hidx p hp
    rw [Finset.mem_image]
    refine ⟨(p.a, p.b), ?_, hxe⟩
    rw [Finset.mem_offDiag, hpe]
    refine ⟨Finset.mem_image.mpr ⟨i, Finset.mem_range.mpr hi, rfl⟩,
      Finset.mem_image.mpr ⟨j, Finset.mem_range.mpr hj, rfl⟩, ?_⟩
    simp only [ne_eq, Nat.cast_inj]
    exact hij
  have hcard := Finset.card_le_card hsub
  rw [List.toFinset_card_of_nodup hnd, List.length_map, Sym2.card_image_offDiag,
    Finset.card_image_of_injective _ Nat.cast_injective, Finset.card_range,
    Nat.choose_two_right] at hcard
  exact hcard

/-- The narrow phase of `Scene::Update` writes at most one contact for each pair. -/
theorem narrowPhase_length (m : Libm F) (dt : F) (bodies : List (Body F))
    (pairs : List CollisionPair) :
    (narrowPhase m dt bodies pairs).2.length ≤ pairs.length := by
  have step : ∀ (st : List (Body F) × List (Contact F)) (pair : CollisionPair),
      (narrowPhaseStep m dt st pair).2.length ≤ st.2.length + 1 := by
    intro st pair
    unfold narrowPhaseStep
    split
    · split
      · exact Nat.le_succ _
      · split
        · simp
        · exact Nat.le_succ _
    · exact Nat.le_succ _
  have loop : ∀ (ps : List CollisionPair) (st : List (Body F) × List (Contact F)),
      (ps.foldl (narrowPhaseStep m dt) st).2.length ≤ st.2.length + ps.length := by
    intro ps
    induction ps with
    | nil => intro st; simp
    | cons p rest ih =>
      intro st
      simp only [List.foldl_cons, List.length_cons]
      have h1 := ih (narrowPhaseStep m dt st p)
      have h2 := step st p
      omega
  have := loop pairs (bodies, [])
  simpa [narrowPhase] using this

/-- C32: the broad phase emits each candidate pair at most once and never pairs a body with
itself.  For every array of `N` sphere bodies (radius `≥ 0`) and every `dt`, every pair in
the output of `BroadPhase` joins two indices below `N` with `a ≠ b`, and no two output pairs
are equal under `CollisionPair` equality; hence the output has at most `N (N - 1) / 2`
pairs, and the contacts written by `Scene::Update` are at most that many, within the `N²`
slots of its contacts buffer. -/
theorem BroadPhase_pairs_distinct (m : Libm F) (bodies : List (Body F)) (dt : F)
    (_hr : ∀ b ∈ bodies, 0 ≤ b.shape.radius) :
    (∀ p ∈ BroadPhase m bodies dt, p.a ≠ p.b ∧ 0 ≤ p.a ∧ p.a < (bodies.length : Int) ∧
      0 ≤ p.b ∧ p.b < (bodies.length : Int)) ∧
    (BroadPhase m bodies dt).Pairwise (fun p q => p.eq q = false) ∧
    (BroadPhase m bodies dt).length ≤ bodies.length * (bodies.length - 1) / 2 ∧
    (Scene.narrowed m (Scene.mk bodies) dt).2.length
      ≤ bodies.length * (bodies.length - 1) / 2 ∧
    (Scene.narrowed m (Scene.mk bodies) dt).2.length ≤ bodies.length * bodies.length := by
  have hpw : ∀ bs : List (Body F),
      (BroadPhase m bs dt).Pairwise (fun p q => p.eq q = false) := by
    intro bs
    unfold BroadPhase SweepAndPrune1D
    exact buildPairs_pairwise _ (sorted_openers m bs dt)
  have hlen : ∀ bs : List (Body F),
      (BroadPhase m bs dt).length ≤ bs.length * (bs.length - 1) / 2 :=
    fun bs => pairs_length_le bs.length _ (broadPhase_indices m bs dt) (hpw bs)
  have hg : (applyGravity bodies dt).length = bodies.length := by
    simp [applyGravity]
  have hcontacts : (Scene.narrowed m (Scene.mk bodies) dt).2.length
      ≤ bodies.length * (bodies.length - 1) / 2 := by
    have h1 := narrowPhase_length m dt (applyGravity bodies dt)
      (BroadPhase m (applyGravity bodies dt) dt)
    have h2 := hlen (applyGravity bodies dt)
    rw [hg] at h2
    exact le_trans h1 h2
  refine ⟨?_, hpw bodies, hlen bodies, hcontacts, ?_⟩
  · intro p hp
    obtain ⟨i, j, hi, hj, hij, hpe⟩ := broadPhase_indices m bodies dt p hp
    rw [hpe]
    simp only [ne_eq, Nat.cast_inj, Nat.cast_nonneg, Nat.cast_lt, true_and]
    exact ⟨hij, hi, hj⟩
  · refine le_trans hcontacts (le_trans (Nat.div_le_self _ _) ?_)
    exact Nat.mul_le_mul_left _ (Nat.sub_le _ _)

/-- Witness for C32 over the reals: the default world has at most one pair and at most one
contact in a step of `dt = 1/60`. -/
theorem BroadPhase_pairs_distinct_witness :
    (BroadPhase (Libm.mk Real.sqrt Real.sin Real.cos)
      [Body.mk ⟨0, 0, 10⟩ ⟨0, 0, 0, 1⟩ ⟨0, 0, 0⟩ ⟨0, 0, 0⟩ (1 : ℝ) (1 / 2) (1 / 2) ⟨1⟩,
       Body.mk ⟨0, 0, -6000⟩ ⟨0, 0, 0, 1⟩ ⟨0, 0, 0⟩ ⟨0, 0, 0⟩ (0 : ℝ) 1 (1 / 2) ⟨6000⟩]
      (1 / 60)).length ≤ 1 ∧
    (Scene.narrowed (Libm.mk Real.sqrt Real.sin Real.cos)
      (Scene.mk
        [Body.mk ⟨0, 0, 10⟩ ⟨0, 0, 0, 1⟩ ⟨0, 0, 0⟩ ⟨0, 0, 0⟩ (1 : ℝ) (1 / 2) (1 / 2) ⟨1⟩,
         Body.mk ⟨0, 0, -6000⟩ ⟨0, 0, 0, 1⟩ ⟨0, 0, 0⟩ ⟨0, 0, 0⟩ (0 : ℝ) 1 (1 / 2) ⟨6000⟩])
      (1 / 60)).2.length ≤ 1 := by
  have h := BroadPhase_pairs_distinct (Libm.mk Real.sqrt Real.sin Real.cos)
    [Body.mk ⟨0, 0, 10⟩ ⟨0, 0, 0, 1⟩ ⟨0, 0, 0⟩ ⟨0, 0, 0⟩ (1 : ℝ) (1 / 2) (1 / 2) ⟨1⟩,
     Body.mk ⟨0, 0, -6000⟩ ⟨0, 0, 0, 1⟩ ⟨0, 0, 0⟩ ⟨0, 0, 0⟩ (0 : ℝ) 1 (1 / 2) ⟨6000⟩]
    (1 / 60)
    (by
      intro b hb
      simp only [List.mem_cons, List.mem_singleton, List.not_mem_nil, or_false] at hb
      rcases hb with h | h
      · rw [h]; norm_num
      · rw [h]; norm_num)
  exact ⟨h.2.2.1, h.2.2.2.1⟩

end PairCountProofs
end PhysicsEngine
